import Mathlib

/-!
# UDP options codec and PLPMTUD probing engine (`sys/netinet/udp_options.c`)

A shallow embedding of `udp_optcksum`, `udp_dooptions`, `udp_optlen`,
`udp_addoptions`, `udp_ts_getticks`, `plpmtud_event`, `plpmtud_next_probe`,
`plpmtud_checktimers`, of `tcp_newcwv_end_recovery` from
`sys/netinet/tcp_newcwv.c`, and of the data they work on, followed by
theorems about them.

Conventions of the embedding:

* machine integers are `Nat`/`Int` with explicit reduction modulo `2^w`;
* a `u_char *` together with its byte count is a `List Nat` of bytes; pointer
  arithmetic `cp += n` is `List.drop n`;
* a memory access outside the region the caller handed over is a `Fault`;
* loops that are not structurally recursive carry a fuel argument and report
  `Fault.fuel` when it runs out;
* the header `netinet/udp_options.h` is not part of the sources at hand, so
  its constants are fields of the parameter records `OptConsts` and
  `ProbeConsts`; likewise the macro `MAX` of `sys/param.h` is a parameter of
  `tcp_newcwv_end_recovery`.
-/

namespace UdpOptions

/-! ## Constants of the missing header -/

/-- Constants of `netinet/udp_options.h` used by the option codec, together
with the byte order of the host. The header is not among the sources, hence
every definition below takes these as a parameter. -/
structure OptConsts where
  UDPOPT_EOL : Nat
  UDPOPT_NOP : Nat
  UDPOPT_OCS : Nat
  UDPOPT_MSS : Nat
  UDPOPT_TIME : Nat
  UDPOPT_ECHOREQ : Nat
  UDPOPT_ECHORES : Nat
  UDPOLEN_OCS : Nat
  UDPOLEN_MSS : Nat
  UDPOLEN_TIME : Nat
  UDPOLEN_ECHOREQ : Nat
  UDPOLEN_ECHORES : Nat
  UOF_OCS : Nat
  UOF_ACS : Nat
  UOF_LITE : Nat
  UOF_MSS : Nat
  UOF_TIME : Nat
  UOF_FRAG : Nat
  UOF_ECHOREQ : Nat
  UOF_ECHORES : Nat
  UOF_MAXOPT : Nat
  /-- `true` on a big-endian host (`htons`/`htonl` are the identity there). -/
  bigEndian : Bool
deriving DecidableEq, Repr

/-- The opcodes of the codec, in the order of the wire-format table. -/
def OptConsts.opcodes (K : OptConsts) : List Nat :=
  [K.UDPOPT_EOL, K.UDPOPT_NOP, K.UDPOPT_OCS, K.UDPOPT_MSS, K.UDPOPT_TIME,
   K.UDPOPT_ECHOREQ, K.UDPOPT_ECHORES]

/-- The option flag bits named in `udp_optlen`. -/
def OptConsts.flagBits (K : OptConsts) : List Nat :=
  [K.UOF_OCS, K.UOF_ACS, K.UOF_LITE, K.UOF_MSS, K.UOF_TIME, K.UOF_FRAG,
   K.UOF_ECHOREQ, K.UOF_ECHORES]

/-- What is assumed of the header constants: the opcodes are pairwise
distinct bytes, the option lengths are those of the wire-format table
(OCS 2, MSS 4, TIME 10, ECHOREQ 6, ECHORES 6), every flag is a single bit,
the flags are pairwise distinct and lie below `UOF_MAXOPT`, and
`UOF_MAXOPT` is at most `2^31` (so that the 32-bit `mask <<= 1` loops end). -/
def OptConsts.WF (K : OptConsts) : Prop :=
  K.opcodes.Nodup ∧ (∀ x ∈ K.opcodes, x < 256) ∧
  K.UDPOLEN_OCS = 2 ∧ K.UDPOLEN_MSS = 4 ∧ K.UDPOLEN_TIME = 10 ∧
  K.UDPOLEN_ECHOREQ = 6 ∧ K.UDPOLEN_ECHORES = 6 ∧
  K.flagBits.Nodup ∧ (∀ x ∈ K.flagBits, ∃ a, a < 31 ∧ x = 2 ^ a) ∧
  (∀ x ∈ K.flagBits, x < K.UOF_MAXOPT) ∧ K.UOF_MAXOPT ≤ 2 ^ 31

/-- Constants of `netinet/udp_options.h` used by the probing state machine:
the numeric values of the five states and five events, `MAX_PROBES` and
`BASE_MTU`. -/
structure ProbeConsts where
  UDPOPT_PROBE_STATE_NONE : Int
  UDPOPT_PROBE_STATE_BASE : Int
  UDPOPT_PROBE_STATE_SEARCH : Int
  UDPOPT_PROBE_STATE_ERROR : Int
  UDPOPT_PROBE_STATE_DONE : Int
  UDPOPT_PROBE_EVENT_START : Int
  UDPOPT_PROBE_EVENT_ACK : Int
  UDPOPT_PROBE_EVENT_PTB : Int
  UDPOPT_PROBE_EVENT_TIMEOUT : Int
  UDPOPT_PROBE_EVENT_RAISE : Int
  MAX_PROBES : Nat
  BASE_MTU : Nat
deriving DecidableEq, Repr

/-- The five state values. -/
def ProbeConsts.states (P : ProbeConsts) : List Int :=
  [P.UDPOPT_PROBE_STATE_NONE, P.UDPOPT_PROBE_STATE_BASE, P.UDPOPT_PROBE_STATE_SEARCH,
   P.UDPOPT_PROBE_STATE_ERROR, P.UDPOPT_PROBE_STATE_DONE]

/-- The five event values. -/
def ProbeConsts.events (P : ProbeConsts) : List Int :=
  [P.UDPOPT_PROBE_EVENT_START, P.UDPOPT_PROBE_EVENT_ACK, P.UDPOPT_PROBE_EVENT_PTB,
   P.UDPOPT_PROBE_EVENT_TIMEOUT, P.UDPOPT_PROBE_EVENT_RAISE]

/-- What is assumed of the state machine constants: the five states are
pairwise distinct, the five events are pairwise distinct, and `MAX_PROBES`
and `BASE_MTU` fit in 32 bits. -/
def ProbeConsts.WF (P : ProbeConsts) : Prop :=
  P.states.Nodup ∧ P.events.Nodup ∧ P.MAX_PROBES < 2 ^ 32 ∧ P.BASE_MTU < 2 ^ 32

/-! ## Faults -/

/-- Ways in which a run of the embedded code leaves the memory it was given,
or exhausts the fuel of a loop. -/
inductive Fault where
  /-- A read of `cp[idx]` with `idx` at or beyond the readable byte count. -/
  | oobRead (idx : Int)
  /-- A store to `cp[idx]` with `idx` outside `[0, len)`. -/
  | oobWrite (idx : Int)
  /-- A loop did not finish within its fuel. -/
  | fuel
deriving DecidableEq, Repr

/-! ## Byte order -/

/-- Byte swap of a 16-bit value. -/
def bswap16 (x : Nat) : Nat := (x % 256) * 256 + x / 256 % 256

/-- Byte swap of a 32-bit value. -/
def bswap32 (x : Nat) : Nat :=
  (x % 256) * 16777216 + (x / 256 % 256) * 65536 + (x / 65536 % 256) * 256 + x / 16777216 % 256

/-- The function `htons`: identity on a big-endian host, byte swap otherwise. -/
def htons (K : OptConsts) (x : Nat) : Nat := if K.bigEndian then x % 65536 else bswap16 x

/-- The function `ntohs`. -/
def ntohs (K : OptConsts) (x : Nat) : Nat := if K.bigEndian then x % 65536 else bswap16 x

/-- The function `htonl`. -/
def htonl (K : OptConsts) (x : Nat) : Nat := if K.bigEndian then x % 4294967296 else bswap32 x

/-- The function `ntohl`. -/
def ntohl (K : OptConsts) (x : Nat) : Nat := if K.bigEndian then x % 4294967296 else bswap32 x

/-- The two bytes of a `uint16_t` object as they lie in memory (what `bcopy`
copies out of it). -/
def mem16 (K : OptConsts) (x : Nat) : List Nat :=
  if K.bigEndian then [x / 256 % 256, x % 256] else [x % 256, x / 256 % 256]

/-- The four bytes of a `uint32_t` object as they lie in memory. -/
def mem32 (K : OptConsts) (x : Nat) : List Nat :=
  if K.bigEndian then [x / 16777216 % 256, x / 65536 % 256, x / 256 % 256, x % 256]
  else [x % 256, x / 256 % 256, x / 65536 % 256, x / 16777216 % 256]

/-- The value of a `uint16_t` object whose memory holds the bytes `b0 b1`
(what `bcopy` into the object produces). -/
def val16 (K : OptConsts) (b0 b1 : Nat) : Nat :=
  if K.bigEndian then b0 * 256 + b1 else b1 * 256 + b0

/-- The value of a `uint32_t` object whose memory holds the bytes `b0 b1 b2 b3`. -/
def val32 (K : OptConsts) (b0 b1 b2 b3 : Nat) : Nat :=
  if K.bigEndian then b0 * 16777216 + b1 * 65536 + b2 * 256 + b3
  else b3 * 16777216 + b2 * 65536 + b1 * 256 + b0

/-! ## Clock -/

/-- The `struct timeval` filled in by `getmicrouptime`. -/
structure timeval where
  tv_sec : Nat
  tv_usec : Nat
deriving DecidableEq, Repr

/-- The function `udp_ts_getticks`, given the `timeval` that
`getmicrouptime` stores: `tv_sec * 1000 + tv_usec / 1000` as `uint32_t`. -/
def udp_ts_getticks (tv : timeval) : Nat :=
  (tv.tv_sec * 1000 + tv.tv_usec / 1000) % 4294967296

/-! ## Option set -/

/-- The `struct udpopt`: field widths follow the data model of the
specification (`uo_ocs` 8 bits, `uo_mss` 16 bits, `uo_rtt` 64 bits signed,
the others 32 bits). -/
structure udpopt where
  uo_flags : Nat
  uo_ocs : Nat
  uo_mss : Nat
  uo_tsval : Nat
  uo_tsecr : Nat
  uo_rtt : Int
  uo_echoreq : Nat
  uo_echores : Nat
  uo_plpmtud_token : Nat
deriving DecidableEq, Repr

/-! ## Checksum -/

/-- The `for` loop of `udp_optcksum`: `cksum += cp[i]` in 16-bit arithmetic
over the bytes `cp[0 .. len)`. -/
def udp_optcksum_sum (cp : List Nat) (len : Nat) : Nat :=
  (cp.take len).foldl (fun cksum b => (cksum + b) % 65536) 0

/-- The `while (cksum > 0x00FF)` loop of `udp_optcksum`, with fuel. -/
def udp_optcksum_fold : Nat → Nat → Nat
  | 0, cksum => cksum
  | fuel + 1, cksum =>
    if cksum > 0x00FF then
      udp_optcksum_fold fuel (((cksum &&& 0xFF00) >>> 8) + (cksum &&& 0x00FF))
    else cksum

/-- The function `udp_optcksum(cp, len)`: the bytes `cp[0 .. len)` must be
readable. The last line is `(uint8_t)~cksum`, the complement being taken on
the value promoted to a 32-bit `int`. Four rounds of the `while` loop are
always enough for a 16-bit value (`udp_optcksum_fold_le`). -/
def udp_optcksum (cp : List Nat) (len : Nat) : Nat :=
  (0xFFFFFFFF - udp_optcksum_fold 4 (udp_optcksum_sum cp len)) % 256

/-! ## Decoder -/

/-- Read of `cp[j]` while `cnt` bytes remain readable at `cp`. -/
def rd (cp : List Nat) (cnt : Int) (j : Nat) : Except Fault Nat :=
  if (j : Int) < cnt then
    match cp[j]? with
    | some b => .ok b
    | none => .error (.oobRead j)
  else .error (.oobRead j)

/-- The `switch (opt)` of `udp_dooptions`, entered with a checked `optlen`;
every branch ends in `continue`, so the result is the updated option set.
The subtraction `udp_ts_getticks() - uo->uo_tsval` is 32-bit unsigned. -/
def udp_dooptions_switch (K : OptConsts) (tv : timeval) (uo : udpopt) (cp : List Nat) (cnt : Int)
    (opt optlen : Nat) : Except Fault udpopt :=
  if opt = K.UDPOPT_MSS then do
    let uo := { uo with uo_flags := uo.uo_flags ||| K.UOF_MSS }
    let b0 ← rd cp cnt 2
    let b1 ← rd cp cnt 3
    let uo := { uo with uo_mss := val16 K b0 b1 }
    pure { uo with uo_mss := ntohs K uo.uo_mss }
  else if opt = K.UDPOPT_TIME then
    let uo := { uo with uo_flags := uo.uo_flags ||| K.UOF_TIME }
    if optlen ≠ K.UDPOLEN_TIME then pure uo
    else do
      let b0 ← rd cp cnt 2
      let b1 ← rd cp cnt 3
      let b2 ← rd cp cnt 4
      let b3 ← rd cp cnt 5
      let uo := { uo with uo_tsecr := val32 K b0 b1 b2 b3 }
      let c0 ← rd cp cnt 6
      let c1 ← rd cp cnt 7
      let c2 ← rd cp cnt 8
      let c3 ← rd cp cnt 9
      let uo := { uo with uo_tsval := val32 K c0 c1 c2 c3 }
      let uo := { uo with uo_tsval := ntohl K uo.uo_tsval }
      let uo := { uo with uo_tsecr := ntohl K uo.uo_tsecr }
      if uo.uo_tsecr ≠ 0 then
        pure { uo with
          uo_rtt := ((udp_ts_getticks tv + 4294967296 - uo.uo_tsval) % 4294967296 : Nat) }
      else pure uo
  else if opt = K.UDPOPT_ECHOREQ then
    let uo := { uo with uo_flags := uo.uo_flags ||| K.UOF_ECHOREQ }
    if optlen ≠ K.UDPOLEN_ECHOREQ then pure uo
    else do
      let b0 ← rd cp cnt 2
      let b1 ← rd cp cnt 3
      let b2 ← rd cp cnt 4
      let b3 ← rd cp cnt 5
      let uo := { uo with uo_echoreq := val32 K b0 b1 b2 b3 }
      pure { uo with uo_echoreq := ntohl K uo.uo_echoreq }
  else if opt = K.UDPOPT_ECHORES then
    let uo := { uo with uo_flags := uo.uo_flags ||| K.UOF_ECHORES }
    if optlen ≠ K.UDPOLEN_ECHORES then pure uo
    else do
      let b0 ← rd cp cnt 2
      let b1 ← rd cp cnt 3
      let b2 ← rd cp cnt 4
      let b3 ← rd cp cnt 5
      let uo := { uo with uo_echores := val32 K b0 b1 b2 b3 }
      pure { uo with uo_echores := ntohl K uo.uo_echores }
  else pure uo

/-- The `for (; cnt > 0; cnt -= optlen, cp += optlen)` loop of
`udp_dooptions`. `tv` is what `getmicrouptime` stores when
`udp_ts_getticks()` is called. -/
def udp_dooptions_loop (K : OptConsts) (tv : timeval) :
    Nat → udpopt → List Nat → Int → Except Fault udpopt
  | 0, _, _, _ => .error .fuel
  | fuel + 1, uo, cp, cnt =>
    if cnt > 0 then do
      let opt ← rd cp cnt 0
      if opt = K.UDPOPT_EOL then pure uo
      else if opt = K.UDPOPT_NOP then
        udp_dooptions_loop K tv fuel uo (cp.drop 1) (cnt - 1)
      else if opt = K.UDPOPT_OCS then do
        let optlen := K.UDPOLEN_OCS
        let uo := { uo with uo_flags := uo.uo_flags ||| K.UOF_OCS }
        let b ← rd cp cnt 1
        let uo := { uo with uo_ocs := b }
        if (cp.length : Int) < cnt then .error (.oobRead cp.length)
        else if udp_optcksum cp cnt.toNat ≠ 0 then pure uo
        else udp_dooptions_loop K tv fuel uo (cp.drop optlen) (cnt - optlen)
      else if cnt < 2 then pure uo
      else do
        let optlen ← rd cp cnt 1
        if optlen < 2 ∨ (optlen : Int) > cnt then pure uo
        else do
          let uo ← udp_dooptions_switch K tv uo cp cnt opt optlen
          udp_dooptions_loop K tv fuel uo (cp.drop optlen) (cnt - optlen)
    else pure uo

/-- The function `udp_dooptions(uo, cp, cnt)`: clears the flags and scans.
Every round of the loop consumes at least one byte when `UDPOLEN_OCS ≥ 1`,
so `cnt` rounds are enough. -/
def udp_dooptions (K : OptConsts) (tv : timeval) (uo : udpopt) (cp : List Nat) (cnt : Int) :
    Except Fault udpopt :=
  udp_dooptions_loop K tv (cnt.toNat + 1) { uo with uo_flags := 0 } cp cnt

/-! ## Encoded length -/

/-- The `switch (uo->uo_flags & mask)` of `udp_optlen`; `fixedlen` is a
`uint16_t`. -/
def udp_optlen_switch (K : OptConsts) (sw fixedlen : Nat) : Nat :=
  if sw = K.UOF_OCS then (fixedlen + 2) % 65536
  else if sw = K.UOF_ACS ∨ sw = K.UOF_LITE ∨ sw = K.UOF_MSS then (fixedlen + 4) % 65536
  else if sw = K.UOF_TIME then (fixedlen + 10) % 65536
  else if sw = K.UOF_FRAG then (fixedlen + 12) % 65536
  else if sw = K.UOF_ECHOREQ ∨ sw = K.UOF_ECHORES then (fixedlen + 6) % 65536
  else fixedlen

/-- The `for (mask = 1; mask < UOF_MAXOPT; mask <<= 1)` loop of `udp_optlen`;
`mask` is a `uint32_t`. -/
def udp_optlen_loop (K : OptConsts) (uo : udpopt) : Nat → Nat → Nat → Except Fault Nat
  | 0, _, _ => .error .fuel
  | fuel + 1, mask, fixedlen =>
    if mask < K.UOF_MAXOPT then
      udp_optlen_loop K uo fuel ((mask <<< 1) % 4294967296)
        (udp_optlen_switch K (uo.uo_flags &&& mask) fixedlen)
    else .ok fixedlen

/-- The function `udp_optlen(uo)`. The mask takes at most the 32 values
`1, 2, .., 2^31` before the shift wraps to `0`. -/
def udp_optlen (K : OptConsts) (uo : udpopt) : Except Fault Nat :=
  udp_optlen_loop K uo 33 1 3

/-! ## Encoder -/

/-- The store `cp[i] = v` into a buffer of `buf.length` bytes. -/
def wr (buf : List Nat) (i : Int) (v : Nat) : Except Fault (List Nat) :=
  if 0 ≤ i ∧ i < buf.length then .ok (buf.set i.toNat (v % 256)) else .error (.oobWrite i)

/-- The call `bcopy(src, cp + optp, n)` where `bytes` are the `n` bytes at `src`. -/
def bcopy_out (buf : List Nat) (optp : Nat) : List Nat → Except Fault (List Nat)
  | [] => .ok buf
  | b :: bytes => do
    let buf ← wr buf optp b
    bcopy_out buf (optp + 1) bytes

/-- Local state of `udp_addoptions`: the option set (which the function
updates in place), the buffer `cp`, the write position `optp - cp` and
`optlen`. -/
structure AddState where
  uo : udpopt
  cp : List Nat
  optp : Nat
  optlen : Nat
deriving DecidableEq, Repr

/-- The `switch (uo->uo_flags & mask)` of `udp_addoptions`. `tvTime` and
`tvEcho` are what `getmicrouptime` stores at the call of `udp_ts_getticks()`
in the `UOF_TIME` case and in the `UOF_ECHOREQ` case. -/
def udp_addoptions_switch (K : OptConsts) (tvTime tvEcho : timeval) (sw : Nat) (st : AddState) :
    Except Fault AddState :=
  if sw = K.UOF_MSS then do
    let cp ← wr st.cp st.optp K.UDPOPT_MSS
    let cp ← wr cp (st.optp + 1 : Nat) K.UDPOLEN_MSS
    let mss := htons K st.uo.uo_mss
    let cp ← bcopy_out cp (st.optp + 2) (mem16 K mss)
    pure { st with cp := cp, optp := st.optp + 2 + 2,
                   optlen := (st.optlen + K.UDPOLEN_MSS) % 4294967296 }
  else if sw = K.UOF_TIME then do
    let uo := { st.uo with uo_tsval := udp_ts_getticks tvTime }
    let cp ← wr st.cp st.optp K.UDPOPT_TIME
    let cp ← wr cp (st.optp + 1 : Nat) K.UDPOLEN_TIME
    let uo := { uo with uo_tsval := htonl K uo.uo_tsval }
    let uo := { uo with uo_tsecr := htonl K uo.uo_tsecr }
    let cp ← bcopy_out cp (st.optp + 2) (mem32 K uo.uo_tsval)
    let cp ← bcopy_out cp (st.optp + 2 + 4) (mem32 K uo.uo_tsecr)
    pure { uo := uo, cp := cp, optp := st.optp + 2 + 4 + 4,
           optlen := (st.optlen + K.UDPOLEN_TIME) % 4294967296 }
  else if sw = K.UOF_ECHOREQ then do
    let cp ← wr st.cp st.optp K.UDPOPT_ECHOREQ
    let cp ← wr cp (st.optp + 1 : Nat) K.UDPOLEN_ECHOREQ
    let uo :=
      if st.uo.uo_plpmtud_token ≠ 0 then { st.uo with uo_echoreq := st.uo.uo_plpmtud_token }
      else { st.uo with uo_echoreq := udp_ts_getticks tvEcho }
    let cp ← bcopy_out cp (st.optp + 2) (mem32 K uo.uo_echoreq)
    pure { uo := uo, cp := cp, optp := st.optp + 2 + 4,
           optlen := (st.optlen + K.UDPOLEN_ECHOREQ) % 4294967296 }
  else if sw = K.UOF_ECHORES then do
    let cp ← wr st.cp st.optp K.UDPOPT_ECHORES
    let cp ← wr cp (st.optp + 1 : Nat) K.UDPOLEN_ECHORES
    let cp ← bcopy_out cp (st.optp + 2) (mem32 K st.uo.uo_echores)
    pure { st with cp := cp, optp := st.optp + 2 + 4,
                   optlen := (st.optlen + K.UDPOLEN_ECHORES) % 4294967296 }
  else pure st

/-- The `for (mask = 1; mask < UOF_MAXOPT; mask <<= 1)` loop of
`udp_addoptions`, `len` being the buffer length passed by the caller. -/
def udp_addoptions_loop (K : OptConsts) (tvTime tvEcho : timeval) (len : Nat) :
    Nat → Nat → AddState → Except Fault AddState
  | 0, _, _ => .error .fuel
  | fuel + 1, mask, st =>
    if mask < K.UOF_MAXOPT then
      if st.uo.uo_flags &&& mask ≠ mask then
        udp_addoptions_loop K tvTime tvEcho len fuel ((mask <<< 1) % 4294967296) st
      else if (st.optlen : Int) = (len : Int) - 1 then .ok st
      else do
        let st ← udp_addoptions_switch K tvTime tvEcho (st.uo.uo_flags &&& mask) st
        udp_addoptions_loop K tvTime tvEcho len fuel ((mask <<< 1) % 4294967296) st
    else .ok st

/-- What `udp_addoptions` leaves behind: the option set as updated in place,
the buffer, and the returned byte count. -/
structure AddResult where
  uo : udpopt
  cp : List Nat
  ret : Nat
deriving DecidableEq, Repr

/-- The function `udp_addoptions(uo, cp, len)` on a buffer of `len` bytes. -/
def udp_addoptions (K : OptConsts) (tvTime tvEcho : timeval) (uo : udpopt) (len : Nat) :
    Except Fault AddResult := do
  let cp := List.replicate len (K.UDPOPT_NOP % 256)
  let cp ← wr cp ((len : Int) - 1) K.UDPOPT_EOL
  let cp ← wr cp 1 0
  let cp ← wr cp 0 K.UDPOPT_OCS
  let st ← udp_addoptions_loop K tvTime tvEcho len 33 1
    { uo := uo, cp := cp, optp := K.UDPOLEN_OCS, optlen := K.UDPOLEN_OCS % 4294967296 }
  let cp ← wr st.cp st.optlen K.UDPOPT_EOL
  let optlen := (st.optlen + 1) % 4294967296
  if cp.length < optlen then .error (.oobRead cp.length)
  else do
    let cksum := udp_optcksum cp optlen
    let cp ← wr cp 1 cksum
    pure { uo := st.uo, cp := cp, ret := optlen }

/-! ## Probing state machine -/

/-- The `struct udpopt_probe` (the member `u_plpmtud` of `struct udpcb`):
sizes, counter and timers are 32-bit unsigned, the two output flags hold
`0` or `1`. -/
structure udpopt_probe where
  state : Int
  probed_size : Nat
  effective_pmtu : Nat
  max_pmtu : Nat
  init_mtu : Nat
  probe_count : Nat
  probe_timer : Nat
  pmtu_raise_timer : Nat
  confirmation_timer : Nat
  send_probe : Nat
  send_connectivity : Nat
deriving DecidableEq, Repr

/-- The function `plpmtud_next_probe`: `probed_size + 64` in 32-bit arithmetic. -/
def plpmtud_next_probe (plpmtud : udpopt_probe) : Nat :=
  (plpmtud.probed_size + 64) % 4294967296

/-- The first `switch` of `plpmtud_event`, on the state and then on the event. -/
def plpmtud_event_switch (P : ProbeConsts) (up : udpopt_probe) (event : Int) : udpopt_probe :=
  if up.state = P.UDPOPT_PROBE_STATE_NONE then
    if event = P.UDPOPT_PROBE_EVENT_ACK then
      { up with state := P.UDPOPT_PROBE_STATE_BASE, confirmation_timer := 0 }
    else if event = P.UDPOPT_PROBE_EVENT_START then
      { up with probe_timer := 0, pmtu_raise_timer := 0, confirmation_timer := 0,
                send_connectivity := 1 }
    else up
  else if up.state = P.UDPOPT_PROBE_STATE_BASE then
    if event = P.UDPOPT_PROBE_EVENT_PTB then
      { up with state := P.UDPOPT_PROBE_STATE_ERROR }
    else if event = P.UDPOPT_PROBE_EVENT_TIMEOUT then
      if up.probe_count < P.MAX_PROBES then
        { up with probe_count := (up.probe_count + 1) % 4294967296,
                  probed_size := P.BASE_MTU, send_probe := 1 }
      else { up with state := P.UDPOPT_PROBE_STATE_ERROR }
    else if event = P.UDPOPT_PROBE_EVENT_ACK then
      let up := { up with probe_timer := 0 }
      if up.probed_size = up.max_pmtu then
        { up with effective_pmtu := up.probed_size, state := P.UDPOPT_PROBE_STATE_DONE }
      else
        { up with effective_pmtu := up.probed_size, state := P.UDPOPT_PROBE_STATE_SEARCH }
    else up
  else if up.state = P.UDPOPT_PROBE_STATE_SEARCH then
    if event = P.UDPOPT_PROBE_EVENT_TIMEOUT then
      if up.probe_count ≥ P.MAX_PROBES then
        { up with state := P.UDPOPT_PROBE_STATE_DONE }
      else
        { up with probe_count := (up.probe_count + 1) % 4294967296, send_probe := 1 }
    else if event = P.UDPOPT_PROBE_EVENT_PTB then
      { up with state := P.UDPOPT_PROBE_STATE_BASE }
    else if event = P.UDPOPT_PROBE_EVENT_ACK then
      let up := { up with probe_timer := 0 }
      if up.probed_size ≥ up.max_pmtu then
        { up with effective_pmtu := up.probed_size, state := P.UDPOPT_PROBE_STATE_DONE }
      else
        let up := { up with probe_count := 0 }
        let up := { up with effective_pmtu := up.probed_size }
        let up := { up with probed_size := plpmtud_next_probe up }
        { up with send_probe := 1 }
    else up
  else if up.state = P.UDPOPT_PROBE_STATE_ERROR then
    if event = P.UDPOPT_PROBE_EVENT_ACK then
      { up with state := P.UDPOPT_PROBE_STATE_SEARCH }
    else if event = P.UDPOPT_PROBE_EVENT_TIMEOUT then
      { up with probe_count := (up.probe_count + 1) % 4294967296,
                probed_size := P.BASE_MTU, send_probe := 1 }
    else up
  else if up.state = P.UDPOPT_PROBE_STATE_DONE then
    if event = P.UDPOPT_PROBE_EVENT_TIMEOUT then
      if up.probe_count ≥ P.MAX_PROBES then
        { up with state := P.UDPOPT_PROBE_STATE_BASE }
      else
        { up with probe_count := (up.probe_count + 1) % 4294967296,
                  probed_size := P.BASE_MTU, send_probe := 1 }
    else if event = P.UDPOPT_PROBE_EVENT_RAISE then
      { up with state := P.UDPOPT_PROBE_STATE_BASE }
    else up
  else up

/-- The block `if (oldstate != up->u_plpmtud.state)` of `plpmtud_event`:
the `UDPOPT_PROBE_STATE_SEARCH` case has no `break` and runs on into the
`UDPOPT_PROBE_STATE_DONE` case. -/
def plpmtud_event_entry (P : ProbeConsts) (tv : timeval) (oldstate : Int) (up : udpopt_probe) :
    udpopt_probe :=
  if oldstate ≠ up.state then
    if up.state = P.UDPOPT_PROBE_STATE_BASE ∨ up.state = P.UDPOPT_PROBE_STATE_ERROR then
      { up with probed_size := P.BASE_MTU, probe_count := 0, send_probe := 1 }
    else if up.state = P.UDPOPT_PROBE_STATE_SEARCH then
      let up := { up with probed_size := up.effective_pmtu, probe_count := 0, send_probe := 1 }
      { up with pmtu_raise_timer := udp_ts_getticks tv }
    else if up.state = P.UDPOPT_PROBE_STATE_DONE then
      { up with pmtu_raise_timer := udp_ts_getticks tv }
    else up
  else up

/-- The function `plpmtud_event(up, event)` on the `u_plpmtud` member; `tv`
is what `getmicrouptime` stores if `udp_ts_getticks()` is called. -/
def plpmtud_event (P : ProbeConsts) (tv : timeval) (up : udpopt_probe) (event : Int) :
    udpopt_probe :=
  plpmtud_event_entry P tv up.state (plpmtud_event_switch P up event)

/-! ## Sample constants -/

/-- A sample assignment of the codec constants: the opcodes and lengths of
the wire-format table, flag bits in the order of the `switch` of
`udp_optlen`, a little-endian host. -/
def sampleOpt : OptConsts where
  UDPOPT_EOL := 0
  UDPOPT_NOP := 1
  UDPOPT_OCS := 2
  UDPOPT_MSS := 3
  UDPOPT_TIME := 4
  UDPOPT_ECHOREQ := 5
  UDPOPT_ECHORES := 6
  UDPOLEN_OCS := 2
  UDPOLEN_MSS := 4
  UDPOLEN_TIME := 10
  UDPOLEN_ECHOREQ := 6
  UDPOLEN_ECHORES := 6
  UOF_OCS := 0x0001
  UOF_ACS := 0x0002
  UOF_LITE := 0x0004
  UOF_MSS := 0x0008
  UOF_TIME := 0x0010
  UOF_FRAG := 0x0020
  UOF_ECHOREQ := 0x0040
  UOF_ECHORES := 0x0080
  UOF_MAXOPT := 0x0100
  bigEndian := false

/-- A sample assignment of the state machine constants. -/
def sampleProbe : ProbeConsts where
  UDPOPT_PROBE_STATE_NONE := 0
  UDPOPT_PROBE_STATE_BASE := 1
  UDPOPT_PROBE_STATE_SEARCH := 2
  UDPOPT_PROBE_STATE_ERROR := 3
  UDPOPT_PROBE_STATE_DONE := 4
  UDPOPT_PROBE_EVENT_START := 0
  UDPOPT_PROBE_EVENT_ACK := 1
  UDPOPT_PROBE_EVENT_PTB := 2
  UDPOPT_PROBE_EVENT_TIMEOUT := 3
  UDPOPT_PROBE_EVENT_RAISE := 4
  MAX_PROBES := 3
  BASE_MTU := 1200

/-- An all-zero option set. -/
def udpopt.zero : udpopt :=
  { uo_flags := 0, uo_ocs := 0, uo_mss := 0, uo_tsval := 0, uo_tsecr := 0, uo_rtt := 0,
    uo_echoreq := 0, uo_echores := 0, uo_plpmtud_token := 0 }

/-- The machine driven through a sequence of events, each with the clock
reading available to it. -/
def plpmtud_run (P : ProbeConsts) (up : udpopt_probe) (evs : List (timeval × Int)) :
    udpopt_probe :=
  evs.foldl (fun up e => plpmtud_event P e.1 up e.2) up

/-- The (state, event) pairs without a `case` of their own in `plpmtud_event`. -/
def unhandled (P : ProbeConsts) (state event : Int) : Prop :=
  (state = P.UDPOPT_PROBE_STATE_NONE ∧
    (event = P.UDPOPT_PROBE_EVENT_PTB ∨ event = P.UDPOPT_PROBE_EVENT_TIMEOUT ∨
     event = P.UDPOPT_PROBE_EVENT_RAISE)) ∨
  (state = P.UDPOPT_PROBE_STATE_BASE ∧
    (event = P.UDPOPT_PROBE_EVENT_START ∨ event = P.UDPOPT_PROBE_EVENT_RAISE)) ∨
  (state = P.UDPOPT_PROBE_STATE_SEARCH ∧
    (event = P.UDPOPT_PROBE_EVENT_START ∨ event = P.UDPOPT_PROBE_EVENT_RAISE)) ∨
  (state = P.UDPOPT_PROBE_STATE_ERROR ∧
    (event = P.UDPOPT_PROBE_EVENT_START ∨ event = P.UDPOPT_PROBE_EVENT_PTB ∨
     event = P.UDPOPT_PROBE_EVENT_RAISE)) ∨
  (state = P.UDPOPT_PROBE_STATE_DONE ∧
    (event = P.UDPOPT_PROBE_EVENT_START ∨ event = P.UDPOPT_PROBE_EVENT_ACK ∨
     event = P.UDPOPT_PROBE_EVENT_PTB)) ∨
  event ∉ P.events

/-- A context as it is right after entering `UDPOPT_PROBE_STATE_BASE` under
`sampleProbe`. -/
def baseEntered : udpopt_probe :=
  { state := 1, probed_size := 1200, effective_pmtu := 0, max_pmtu := 1500, init_mtu := 0,
    probe_count := 0, probe_timer := 0, pmtu_raise_timer := 0, confirmation_timer := 0,
    send_probe := 1, send_connectivity := 0 }

/-! ## Definitions used to state and prove the codec theorems -/

/-- The masks visited by `for (mask = 1; mask < maxopt; mask <<= 1)` with a
32-bit `mask`, or `none` when the fuel runs out first. -/
def maskSeq (maxopt : Nat) : Nat → Nat → Option (List Nat)
  | 0, _ => none
  | fuel + 1, mask =>
    if mask < maxopt then
      (maskSeq maxopt fuel ((mask <<< 1) % 4294967296)).map (fun ms => mask :: ms)
    else some []

/-- The body of the loop of `udp_addoptions` run over a list of masks. -/
def udp_addoptions_over (K : OptConsts) (tvTime tvEcho : timeval) (len : Nat) :
    List Nat → AddState → Except Fault AddState
  | [], st => .ok st
  | mask :: ms, st =>
    if st.uo.uo_flags &&& mask ≠ mask then udp_addoptions_over K tvTime tvEcho len ms st
    else if (st.optlen : Int) = (len : Int) - 1 then .ok st
    else do
      let st ← udp_addoptions_switch K tvTime tvEcho (st.uo.uo_flags &&& mask) st
      udp_addoptions_over K tvTime tvEcho len ms st

/-- The flag `f` is set in `flags`, the test `(flags & f) == f` of the source. -/
def hasFlag (flags f : Nat) : Prop := flags &&& f = f

/-- The mask of the four options that `udp_addoptions` encodes. -/
def OptConsts.codecFlags (K : OptConsts) : Nat :=
  K.UOF_MSS ||| K.UOF_TIME ||| K.UOF_ECHOREQ ||| K.UOF_ECHORES

/-- The bytes `udp_addoptions` stores for the flag `m`, as a function of the
option set it finds: opcode, length, payload. -/
def optBytes (K : OptConsts) (tvTime tvEcho : timeval) (uo : udpopt) (m : Nat) : List Nat :=
  if m = K.UOF_MSS then
    [K.UDPOPT_MSS, K.UDPOLEN_MSS] ++ mem16 K (htons K uo.uo_mss)
  else if m = K.UOF_TIME then
    [K.UDPOPT_TIME, K.UDPOLEN_TIME] ++ mem32 K (htonl K (udp_ts_getticks tvTime)) ++
      mem32 K (htonl K uo.uo_tsecr)
  else if m = K.UOF_ECHOREQ then
    [K.UDPOPT_ECHOREQ, K.UDPOLEN_ECHOREQ] ++
      mem32 K (if uo.uo_plpmtud_token ≠ 0 then uo.uo_plpmtud_token else udp_ts_getticks tvEcho)
  else if m = K.UOF_ECHORES then
    [K.UDPOPT_ECHORES, K.UDPOLEN_ECHORES] ++ mem32 K uo.uo_echores
  else []

/-- The in-place update of the option set made by `udp_addoptions` for the
flag `m`. -/
def optUpdate (K : OptConsts) (tvTime tvEcho : timeval) (uo : udpopt) (m : Nat) : udpopt :=
  if m = K.UOF_MSS then uo
  else if m = K.UOF_TIME then
    { uo with uo_tsval := htonl K (udp_ts_getticks tvTime), uo_tsecr := htonl K uo.uo_tsecr }
  else if m = K.UOF_ECHOREQ then
    if uo.uo_plpmtud_token ≠ 0 then { uo with uo_echoreq := uo.uo_plpmtud_token }
    else { uo with uo_echoreq := udp_ts_getticks tvEcho }
  else uo

/-- The four flags that have a `case` in `udp_addoptions`. -/
def OptConsts.isCodecFlag (K : OptConsts) (m : Nat) : Prop :=
  m = K.UOF_MSS ∨ m = K.UOF_TIME ∨ m = K.UOF_ECHOREQ ∨ m = K.UOF_ECHORES

/-- The bytes `udp_addoptions` appends for the masks `ms`, in order, when it
is called on the option set `uo`. -/
def encBody (K : OptConsts) (tvTime tvEcho : timeval) (uo : udpopt) : List Nat → List Nat
  | [] => []
  | m :: ms =>
    if uo.uo_flags &&& m = m then optBytes K tvTime tvEcho uo m ++ encBody K tvTime tvEcho uo ms
    else encBody K tvTime tvEcho uo ms

/-- The masks visited by the loops of `udp_optlen` and `udp_addoptions`. -/
def maskList (K : OptConsts) : List Nat := (maskSeq K.UOF_MAXOPT 33 1).getD []

/-- The option bytes between the OCS option and the final EOL that
`udp_addoptions` produces for the option set `uo`. -/
def wireBody (K : OptConsts) (tvTime tvEcho : timeval) (uo : udpopt) : List Nat :=
  encBody K tvTime tvEcho uo (maskList K)

/-- The region `udp_addoptions` builds before the checksum is filled in:
OCS opcode, zero placeholder, option bytes, EOL. -/
def wireRaw (K : OptConsts) (tvTime tvEcho : timeval) (uo : udpopt) : List Nat :=
  K.UDPOPT_OCS :: 0 :: (wireBody K tvTime tvEcho uo ++ [K.UDPOPT_EOL])

/-- The region `udp_addoptions` produces for the option set `uo`. -/
def wire (K : OptConsts) (tvTime tvEcho : timeval) (uo : udpopt) : List Nat :=
  K.UDPOPT_OCS ::
    udp_optcksum (wireRaw K tvTime tvEcho uo) (wireBody K tvTime tvEcho uo).length.succ.succ.succ ::
    (wireBody K tvTime tvEcho uo ++ [K.UDPOPT_EOL])

/-- What `udp_dooptions` does to the option set when it meets the bytes that
`udp_addoptions` stored for the flag `m` of the option set `s`. -/
def decOpt (K : OptConsts) (tvTime tvEcho tv : timeval) (s uo : udpopt) (m : Nat) : udpopt :=
  if m = K.UOF_MSS then
    { uo with uo_flags := uo.uo_flags ||| K.UOF_MSS, uo_mss := s.uo_mss % 65536 }
  else if m = K.UOF_TIME then
    let uo := { uo with uo_flags := uo.uo_flags ||| K.UOF_TIME,
                        uo_tsecr := udp_ts_getticks tvTime,
                        uo_tsval := s.uo_tsecr % 4294967296 }
    if udp_ts_getticks tvTime ≠ 0 then
      { uo with uo_rtt :=
          ((udp_ts_getticks tv + 4294967296 - s.uo_tsecr % 4294967296) % 4294967296 : Nat) }
    else uo
  else if m = K.UOF_ECHOREQ then
    { uo with uo_flags := uo.uo_flags ||| K.UOF_ECHOREQ,
              uo_echoreq := ntohl K (if s.uo_plpmtud_token ≠ 0 then s.uo_plpmtud_token
                                     else udp_ts_getticks tvEcho) }
  else if m = K.UOF_ECHORES then
    { uo with uo_flags := uo.uo_flags ||| K.UOF_ECHORES, uo_echores := ntohl K s.uo_echores }
  else uo

/-- The option set `udp_dooptions` arrives at after the bytes `encBody` of
the masks `ms`. -/
def decBody (K : OptConsts) (tvTime tvEcho tv : timeval) (s : udpopt) :
    List Nat → udpopt → udpopt
  | [], uo => uo
  | m :: ms, uo =>
    if s.uo_flags &&& m = m then
      decBody K tvTime tvEcho tv s ms (decOpt K tvTime tvEcho tv s uo m)
    else decBody K tvTime tvEcho tv s ms uo

/-- The number of masks of `ms` that are set in `flags`. -/
def setCount (flags : Nat) : List Nat → Nat
  | [] => 0
  | m :: ms => if flags &&& m = m then setCount flags ms + 1 else setCount flags ms

/-- The option set `udp_dooptions` returns on the region `wire`. -/
def wireDecoded (K : OptConsts) (tvTime tvEcho tv : timeval) (s uo : udpopt) : udpopt :=
  decBody K tvTime tvEcho tv s (maskList K)
    { uo with uo_flags := 0 ||| K.UOF_OCS,
              uo_ocs := udp_optcksum (wireRaw K tvTime tvEcho s)
                (wireBody K tvTime tvEcho s).length.succ.succ.succ }

/-- A sample clock reading: 100 ms of uptime. -/
def sampleTv : timeval := { tv_sec := 0, tv_usec := 100000 }

/-- An option set carrying only MSS 1460. -/
def mssOnly : udpopt := { udpopt.zero with uo_flags := 0x0008, uo_mss := 1460 }

/-- An option set carrying only MSS 0. -/
def mssZero : udpopt := { udpopt.zero with uo_flags := 0x0008, uo_mss := 0 }

/-- An option set carrying only a timestamp, `tsval = 5` and `tsecr = 7`. -/
def timeOnly : udpopt := { udpopt.zero with uo_flags := 0x0010, uo_tsval := 5, uo_tsecr := 7 }

/-- An option set whose only flag is `UOF_OCS`, as `udp_dooptions` leaves it
after a region that holds nothing but the checksum option. -/
def ocsOnly : udpopt := { udpopt.zero with uo_flags := 0x0001 }

/-- A context in state None under `sampleProbe`, before discovery starts. -/
def noneFresh : udpopt_probe :=
  { state := 0, probed_size := 0, effective_pmtu := 0, max_pmtu := 1500, init_mtu := 0,
    probe_count := 0, probe_timer := 5, pmtu_raise_timer := 6, confirmation_timer := 7,
    send_probe := 0, send_connectivity := 0 }

/-- A context in state Search under `sampleProbe` whose probe has reached
`max_pmtu`. -/
def searchAtMax : udpopt_probe :=
  { state := 2, probed_size := 1500, effective_pmtu := 1436, max_pmtu := 1500, init_mtu := 0,
    probe_count := 1, probe_timer := 9, pmtu_raise_timer := 0, confirmation_timer := 0,
    send_probe := 0, send_connectivity := 0 }

/-- An option set carrying all four codec options. -/
def allFour : udpopt :=
  { udpopt.zero with uo_flags := 0x00d8, uo_mss := 1460, uo_tsval := 5, uo_tsecr := 7,
                     uo_echoreq := 9, uo_echores := 16909060, uo_plpmtud_token := 11 }

/-! ## Timer sweep -/

/-- The macro `PLPMTUD_PROBE_TIME` of `plpmtud_checktimers`: 15 seconds. -/
def PLPMTUD_PROBE_TIME : Nat := 15 * 1000

/-- The macro `PLPMTUD_RAISE_TIME` of `plpmtud_checktimers`: 5 minutes. -/
def PLPMTUD_RAISE_TIME : Nat := 300 * 1000

/-- The macro `PLPMTUD_CONFIRMATION_TIME` of `plpmtud_checktimers`: 15 seconds. -/
def PLPMTUD_CONFIRMATION_TIME : Nat := 15 * 1000

/-- The context during a run of `plpmtud_checktimers`, together with the
events passed to `plpmtud_event` so far, oldest first. -/
structure Sweep where
  up : udpopt_probe
  calls : List Int
deriving DecidableEq, Repr

/-- The first `if` of `plpmtud_checktimers`; the sum is 32-bit unsigned. `tv`
is what `getmicrouptime` stores if the dispatched `plpmtud_event` reads the
clock. -/
def plpmtud_checktimers_probe (P : ProbeConsts) (now : Nat) (tv : timeval) (s : Sweep) : Sweep :=
  if s.up.probe_timer ≠ 0 ∧ (s.up.probe_timer + PLPMTUD_PROBE_TIME) % 4294967296 < now then
    { up := plpmtud_event P tv { s.up with probe_timer := 0 } P.UDPOPT_PROBE_EVENT_TIMEOUT,
      calls := s.calls ++ [P.UDPOPT_PROBE_EVENT_TIMEOUT] }
  else s

/-- The second `if` of `plpmtud_checktimers`. -/
def plpmtud_checktimers_raise (P : ProbeConsts) (now : Nat) (tv : timeval) (s : Sweep) : Sweep :=
  if s.up.pmtu_raise_timer ≠ 0 ∧
      (s.up.pmtu_raise_timer + PLPMTUD_RAISE_TIME) % 4294967296 < now then
    { up := plpmtud_event P tv { s.up with pmtu_raise_timer := 0 } P.UDPOPT_PROBE_EVENT_RAISE,
      calls := s.calls ++ [P.UDPOPT_PROBE_EVENT_RAISE] }
  else s

/-- The third `if` of `plpmtud_checktimers`. -/
def plpmtud_checktimers_confirmation (P : ProbeConsts) (now : Nat) (tv : timeval) (s : Sweep) :
    Sweep :=
  if s.up.confirmation_timer ≠ 0 ∧
      (s.up.confirmation_timer + PLPMTUD_CONFIRMATION_TIME) % 4294967296 < now then
    { up := plpmtud_event P tv { s.up with confirmation_timer := 0 }
        P.UDPOPT_PROBE_EVENT_TIMEOUT,
      calls := s.calls ++ [P.UDPOPT_PROBE_EVENT_TIMEOUT] }
  else s

/-- The function `plpmtud_checktimers(up)` on the `u_plpmtud` member. `tvNow`
is what `getmicrouptime` stores for `now = udp_ts_getticks()`; `tv1`, `tv2`,
`tv3` are the readings available to the three dispatched events. -/
def plpmtud_checktimers (P : ProbeConsts) (tvNow tv1 tv2 tv3 : timeval) (up : udpopt_probe) :
    Sweep :=
  let now := udp_ts_getticks tvNow
  plpmtud_checktimers_confirmation P now tv3
    (plpmtud_checktimers_raise P now tv2
      (plpmtud_checktimers_probe P now tv1 { up := up, calls := [] }))

/-! ## Definitions used to state and prove the timer, invariant and decoder theorems -/

/-- A clock reading of `2^32 - 1` ticks, the last one before the 32-bit tick
counter wraps. -/
def wrapTv : timeval := { tv_sec := 4294967, tv_usec := 295000 }

/-- A context in state None whose probe timer was armed at tick `2^32 - 1`. -/
def armedAtWrap : udpopt_probe :=
  { state := 0, probed_size := 0, effective_pmtu := 0, max_pmtu := 1500, init_mtu := 0,
    probe_count := 0, probe_timer := 4294967295, pmtu_raise_timer := 0,
    confirmation_timer := 0, send_probe := 0, send_connectivity := 0 }

/-- A context in state None whose probe timer was armed at tick 1000. -/
def armedAt1000 : udpopt_probe :=
  { state := 0, probed_size := 0, effective_pmtu := 0, max_pmtu := 1500, init_mtu := 0,
    probe_count := 0, probe_timer := 1000, pmtu_raise_timer := 0,
    confirmation_timer := 0, send_probe := 0, send_connectivity := 0 }

/-- A clock reading of 16000 ticks. -/
def tv16000 : timeval := { tv_sec := 16, tv_usec := 0 }

/-- Every event of the run finds the machine in state Search with
`probed_size + 64` within 32 bits. -/
def staysInSearch (P : ProbeConsts) : udpopt_probe → List (timeval × Int) → Prop
  | _, [] => True
  | up, e :: evs =>
    up.state = P.UDPOPT_PROBE_STATE_SEARCH ∧ up.probed_size + 64 < 4294967296 ∧
    staysInSearch P (plpmtud_event P e.1 up e.2) evs

/-- Along the run, every Ack leaves `effective_pmtu` at least as large as it
found it. -/
def ackMonotone (P : ProbeConsts) : udpopt_probe → List (timeval × Int) → Prop
  | _, [] => True
  | up, e :: evs =>
    (e.2 = P.UDPOPT_PROBE_EVENT_ACK →
      up.effective_pmtu ≤ (plpmtud_event P e.1 up e.2).effective_pmtu) ∧
    ackMonotone P (plpmtud_event P e.1 up e.2) evs

/-- A context that has just entered Search under `sampleProbe`. -/
def searchEntered : udpopt_probe :=
  { state := 2, probed_size := 1200, effective_pmtu := 1200, max_pmtu := 1500, init_mtu := 0,
    probe_count := 0, probe_timer := 0, pmtu_raise_timer := 100, confirmation_timer := 0,
    send_probe := 1, send_connectivity := 0 }

/-- A context in state Error under `sampleProbe` with the raise timer inactive. -/
def errorEntered : udpopt_probe :=
  { state := 3, probed_size := 1200, effective_pmtu := 1264, max_pmtu := 1500, init_mtu := 0,
    probe_count := 0, probe_timer := 0, pmtu_raise_timer := 0, confirmation_timer := 0,
    send_probe := 1, send_connectivity := 0 }

/-- The invariant behind the bound on `effective_pmtu`: `max_pmtu` is the
constant `M`, `effective_pmtu` is at most `M + 63`, outside state None so is
`probed_size`, and in state Base `probed_size` is `BASE_MTU`. -/
def pmtuInv (P : ProbeConsts) (M : Nat) (up : udpopt_probe) : Prop :=
  up.max_pmtu = M ∧ up.effective_pmtu ≤ M + 63 ∧
  (up.state ≠ P.UDPOPT_PROBE_STATE_NONE → up.probed_size ≤ M + 63) ∧
  (up.state = P.UDPOPT_PROBE_STATE_BASE → up.probed_size = P.BASE_MTU)

/-- The invariant behind the bound on `probe_count`: outside state Error it
is at most `MAX_PROBES`. -/
def countInv (P : ProbeConsts) (up : udpopt_probe) : Prop :=
  up.state ≠ P.UDPOPT_PROBE_STATE_ERROR → up.probe_count ≤ P.MAX_PROBES

/-- The transition table of `plpmtud_event`, state-entry actions included:
`EventOutcome P tv up e r` lists, case by case, the contexts `r` that handling
the event `e` in the context `up` can produce. The constructor `noop` stands
for every (state, event) pair that leaves the context as it is;
`plpmtud_event_outcome` proves that the code stays within the table. -/
inductive EventOutcome (P : ProbeConsts) (tv : timeval) (up : udpopt_probe) (e : Int) :
    udpopt_probe → Prop
  | noop : EventOutcome P tv up e up
  | none_ack : up.state = P.UDPOPT_PROBE_STATE_NONE → e = P.UDPOPT_PROBE_EVENT_ACK →
      EventOutcome P tv up e
        { up with state := P.UDPOPT_PROBE_STATE_BASE, confirmation_timer := 0,
                  probed_size := P.BASE_MTU, probe_count := 0, send_probe := 1 }
  | none_start : up.state = P.UDPOPT_PROBE_STATE_NONE → e = P.UDPOPT_PROBE_EVENT_START →
      EventOutcome P tv up e
        { up with probe_timer := 0, pmtu_raise_timer := 0, confirmation_timer := 0,
                  send_connectivity := 1 }
  | base_ptb : up.state = P.UDPOPT_PROBE_STATE_BASE → e = P.UDPOPT_PROBE_EVENT_PTB →
      EventOutcome P tv up e
        { up with state := P.UDPOPT_PROBE_STATE_ERROR, probed_size := P.BASE_MTU, probe_count := 0,
                  send_probe := 1 }
  | base_timeout : up.state = P.UDPOPT_PROBE_STATE_BASE → e = P.UDPOPT_PROBE_EVENT_TIMEOUT →
      up.probe_count < P.MAX_PROBES →
      EventOutcome P tv up e
        { up with probe_count := (up.probe_count + 1) % 4294967296, probed_size := P.BASE_MTU,
                  send_probe := 1 }
  | base_timeout_max : up.state = P.UDPOPT_PROBE_STATE_BASE → e = P.UDPOPT_PROBE_EVENT_TIMEOUT →
      ¬ up.probe_count < P.MAX_PROBES →
      EventOutcome P tv up e
        { up with state := P.UDPOPT_PROBE_STATE_ERROR, probed_size := P.BASE_MTU, probe_count := 0,
                  send_probe := 1 }
  | base_ack_max : up.state = P.UDPOPT_PROBE_STATE_BASE → e = P.UDPOPT_PROBE_EVENT_ACK →
      up.probed_size = up.max_pmtu →
      EventOutcome P tv up e
        { up with probe_timer := 0, effective_pmtu := up.probed_size,
                  state := P.UDPOPT_PROBE_STATE_DONE, pmtu_raise_timer := udp_ts_getticks tv }
  | base_ack : up.state = P.UDPOPT_PROBE_STATE_BASE → e = P.UDPOPT_PROBE_EVENT_ACK →
      ¬ up.probed_size = up.max_pmtu →
      EventOutcome P tv up e
        { up with probe_timer := 0, effective_pmtu := up.probed_size,
                  state := P.UDPOPT_PROBE_STATE_SEARCH, probed_size := up.probed_size,
                  probe_count := 0, send_probe := 1, pmtu_raise_timer := udp_ts_getticks tv }
  | search_timeout_max : up.state = P.UDPOPT_PROBE_STATE_SEARCH → e = P.UDPOPT_PROBE_EVENT_TIMEOUT →
      up.probe_count ≥ P.MAX_PROBES →
      EventOutcome P tv up e
        { up with state := P.UDPOPT_PROBE_STATE_DONE, pmtu_raise_timer := udp_ts_getticks tv }
  | search_timeout : up.state = P.UDPOPT_PROBE_STATE_SEARCH → e = P.UDPOPT_PROBE_EVENT_TIMEOUT →
      ¬ up.probe_count ≥ P.MAX_PROBES →
      EventOutcome P tv up e
        { up with probe_count := (up.probe_count + 1) % 4294967296, send_probe := 1 }
  | search_ptb : up.state = P.UDPOPT_PROBE_STATE_SEARCH → e = P.UDPOPT_PROBE_EVENT_PTB →
      EventOutcome P tv up e
        { up with state := P.UDPOPT_PROBE_STATE_BASE, probed_size := P.BASE_MTU, probe_count := 0,
                  send_probe := 1 }
  | search_ack_max : up.state = P.UDPOPT_PROBE_STATE_SEARCH → e = P.UDPOPT_PROBE_EVENT_ACK →
      up.probed_size ≥ up.max_pmtu →
      EventOutcome P tv up e
        { up with probe_timer := 0, effective_pmtu := up.probed_size,
                  state := P.UDPOPT_PROBE_STATE_DONE, pmtu_raise_timer := udp_ts_getticks tv }
  | search_ack : up.state = P.UDPOPT_PROBE_STATE_SEARCH → e = P.UDPOPT_PROBE_EVENT_ACK →
      ¬ up.probed_size ≥ up.max_pmtu →
      EventOutcome P tv up e
        { up with probe_timer := 0, probe_count := 0, effective_pmtu := up.probed_size,
                  probed_size := (up.probed_size + 64) % 4294967296, send_probe := 1 }
  | error_ack : up.state = P.UDPOPT_PROBE_STATE_ERROR → e = P.UDPOPT_PROBE_EVENT_ACK →
      EventOutcome P tv up e
        { up with state := P.UDPOPT_PROBE_STATE_SEARCH, probed_size := up.effective_pmtu,
                  probe_count := 0, send_probe := 1, pmtu_raise_timer := udp_ts_getticks tv }
  | error_timeout : up.state = P.UDPOPT_PROBE_STATE_ERROR → e = P.UDPOPT_PROBE_EVENT_TIMEOUT →
      EventOutcome P tv up e
        { up with probe_count := (up.probe_count + 1) % 4294967296, probed_size := P.BASE_MTU,
                  send_probe := 1 }
  | done_timeout_max : up.state = P.UDPOPT_PROBE_STATE_DONE → e = P.UDPOPT_PROBE_EVENT_TIMEOUT →
      up.probe_count ≥ P.MAX_PROBES →
      EventOutcome P tv up e
        { up with state := P.UDPOPT_PROBE_STATE_BASE, probed_size := P.BASE_MTU, probe_count := 0,
                  send_probe := 1 }
  | done_timeout : up.state = P.UDPOPT_PROBE_STATE_DONE → e = P.UDPOPT_PROBE_EVENT_TIMEOUT →
      ¬ up.probe_count ≥ P.MAX_PROBES →
      EventOutcome P tv up e
        { up with probe_count := (up.probe_count + 1) % 4294967296, probed_size := P.BASE_MTU,
                  send_probe := 1 }
  | done_raise : up.state = P.UDPOPT_PROBE_STATE_DONE → e = P.UDPOPT_PROBE_EVENT_RAISE →
      EventOutcome P tv up e
        { up with state := P.UDPOPT_PROBE_STATE_BASE, probed_size := P.BASE_MTU, probe_count := 0,
                  send_probe := 1 }

/-- The events Ack, Ptb and four Timeouts: under `sampleProbe` they take
`noneFresh` to Error and then time out four times. -/
def errorTimeouts : List (timeval × Int) :=
  [(sampleTv, 1), (sampleTv, 2), (sampleTv, 3), (sampleTv, 3), (sampleTv, 3), (sampleTv, 3)]

/-- The options whose `case` in `udp_dooptions` tests `optlen` against the
fixed length, as (opcode, fixed length, flag). -/
def OptConsts.lengthChecked (K : OptConsts) : List (Nat × Nat × Nat) :=
  [(K.UDPOPT_TIME, K.UDPOLEN_TIME, K.UOF_TIME),
   (K.UDPOPT_ECHOREQ, K.UDPOLEN_ECHOREQ, K.UOF_ECHOREQ),
   (K.UDPOPT_ECHORES, K.UDPOLEN_ECHORES, K.UOF_ECHORES)]

/-- The big-endian value of four bytes. -/
def be32 (p0 p1 p2 p3 : Nat) : Nat := p0 * 16777216 + p1 * 65536 + p2 * 256 + p3

/-! ## NewCWV (`sys/netinet/tcp_newcwv.c`) -/

/-- The members of `tp->newcwv` that `tcp_newcwv_end_recovery` reads, 32-bit
unsigned values. -/
structure newcwv where
  pipeack : Nat
  loss_flight_size : Nat
  prior_retrans : Nat
deriving DecidableEq, Repr

/-- The members of `struct tcpcb` that `tcp_newcwv_end_recovery` reads or
writes. The structure is declared in `netinet/tcp_var.h`, which is not among
the sources at hand; the values are taken to be 32-bit unsigned. -/
structure tcpcb where
  snd_ssthresh : Nat
  snd_cwnd : Nat
  t_sndrexmitpack : Nat
  t_maxseg : Nat
  newcwv : newcwv
deriving DecidableEq, Repr

/-- The function `tcp_newcwv_end_recovery(tp)`. The locals `retrans` and
`pipe` are `u_int32_t`, so both are reduced modulo `2^32`. `MAX` is the macro
of `sys/param.h`, which is not among the sources at hand, and is a parameter. -/
def tcp_newcwv_end_recovery (MAX : Nat → Nat → Nat) (tp : tcpcb) : tcpcb :=
  let retrans :=
    ((tp.t_sndrexmitpack + 4294967296 - tp.newcwv.prior_retrans) % 4294967296 * tp.t_maxseg) %
      4294967296
  let pipe :=
    (MAX tp.newcwv.pipeack tp.newcwv.loss_flight_size + 4294967296 - retrans) % 4294967296
  let tp := { tp with snd_ssthresh := MAX (pipe >>> 1) 1 }
  { tp with snd_cwnd := tp.snd_ssthresh }

/-! ## Definitions used to state the NewCWV and transparency theorems -/

/-- A connection in recovery under a wrap of `pipe`: two segments of 1460
bytes retransmitted since recovery began, 20 bytes in flight at the loss. -/
def tcpSample : tcpcb :=
  { snd_ssthresh := 0, snd_cwnd := 0, t_sndrexmitpack := 3, t_maxseg := 1460,
    newcwv := { pipeack := 10, loss_flight_size := 20, prior_retrans := 1 } }

/-- The result is not the out-of-fuel report of the embedding. -/
def NoFuel (r : Except Fault udpopt) : Prop := r ≠ .error .fuel

/-! # Theorems -/

/-! ## Probing state machine -/

/-- The pairwise inequalities between the state values and between the
event values. -/
theorem ProbeConsts.WF.ne (P : ProbeConsts) (h : P.WF) :
    (P.UDPOPT_PROBE_STATE_NONE ≠ P.UDPOPT_PROBE_STATE_BASE ∧
     P.UDPOPT_PROBE_STATE_NONE ≠ P.UDPOPT_PROBE_STATE_SEARCH ∧
     P.UDPOPT_PROBE_STATE_NONE ≠ P.UDPOPT_PROBE_STATE_ERROR ∧
     P.UDPOPT_PROBE_STATE_NONE ≠ P.UDPOPT_PROBE_STATE_DONE ∧
     P.UDPOPT_PROBE_STATE_BASE ≠ P.UDPOPT_PROBE_STATE_SEARCH ∧
     P.UDPOPT_PROBE_STATE_BASE ≠ P.UDPOPT_PROBE_STATE_ERROR ∧
     P.UDPOPT_PROBE_STATE_BASE ≠ P.UDPOPT_PROBE_STATE_DONE ∧
     P.UDPOPT_PROBE_STATE_SEARCH ≠ P.UDPOPT_PROBE_STATE_ERROR ∧
     P.UDPOPT_PROBE_STATE_SEARCH ≠ P.UDPOPT_PROBE_STATE_DONE ∧
     P.UDPOPT_PROBE_STATE_ERROR ≠ P.UDPOPT_PROBE_STATE_DONE) ∧
    (P.UDPOPT_PROBE_EVENT_START ≠ P.UDPOPT_PROBE_EVENT_ACK ∧
     P.UDPOPT_PROBE_EVENT_START ≠ P.UDPOPT_PROBE_EVENT_PTB ∧
     P.UDPOPT_PROBE_EVENT_START ≠ P.UDPOPT_PROBE_EVENT_TIMEOUT ∧
     P.UDPOPT_PROBE_EVENT_START ≠ P.UDPOPT_PROBE_EVENT_RAISE ∧
     P.UDPOPT_PROBE_EVENT_ACK ≠ P.UDPOPT_PROBE_EVENT_PTB ∧
     P.UDPOPT_PROBE_EVENT_ACK ≠ P.UDPOPT_PROBE_EVENT_TIMEOUT ∧
     P.UDPOPT_PROBE_EVENT_ACK ≠ P.UDPOPT_PROBE_EVENT_RAISE ∧
     P.UDPOPT_PROBE_EVENT_PTB ≠ P.UDPOPT_PROBE_EVENT_TIMEOUT ∧
     P.UDPOPT_PROBE_EVENT_PTB ≠ P.UDPOPT_PROBE_EVENT_RAISE ∧
     P.UDPOPT_PROBE_EVENT_TIMEOUT ≠ P.UDPOPT_PROBE_EVENT_RAISE) := by
  obtain ⟨hs, he, -, -⟩ := h
  simp only [ProbeConsts.states, ProbeConsts.events, List.nodup_cons, List.mem_cons,
    List.mem_singleton, not_or, List.not_mem_nil, not_false_eq_true, List.nodup_nil,
    and_true] at hs he
  tauto

/-- C7 (start-up progress). From a context in state None, `Start` followed
by `Ack` ends in state Base with the three timers at `0`,
`send_connectivity` set, `probed_size = BASE_MTU`, `probe_count = 0` and
`send_probe` set. -/
theorem start_ack_reaches_base (P : ProbeConsts) (hP : P.WF) (tv1 tv2 : timeval)
    (up : udpopt_probe) (h : up.state = P.UDPOPT_PROBE_STATE_NONE) :
    let r := plpmtud_event P tv2 (plpmtud_event P tv1 up P.UDPOPT_PROBE_EVENT_START)
      P.UDPOPT_PROBE_EVENT_ACK
    r.state = P.UDPOPT_PROBE_STATE_BASE ∧ r.probe_timer = 0 ∧ r.pmtu_raise_timer = 0 ∧
    r.confirmation_timer = 0 ∧ r.send_connectivity = 1 ∧ r.probed_size = P.BASE_MTU ∧
    r.probe_count = 0 ∧ r.send_probe = 1 := by
  obtain ⟨⟨h1, h2, h3, h4, h5, h6, h7, h8, h9, h10⟩, e1, e2, e3, e4, e5, e6, e7, e8, e9, e10⟩ :=
    ProbeConsts.WF.ne P hP
  simp [plpmtud_event, plpmtud_event_switch, plpmtud_event_entry, h, e1, e1.symm, h1, h1.symm]

theorem start_ack_reaches_base_witness :
    sampleProbe.WF ∧
    (plpmtud_event sampleProbe sampleTv
      (plpmtud_event sampleProbe sampleTv noneFresh sampleProbe.UDPOPT_PROBE_EVENT_START)
      sampleProbe.UDPOPT_PROBE_EVENT_ACK).state = sampleProbe.UDPOPT_PROBE_STATE_BASE :=
  ⟨by unfold ProbeConsts.WF; decide,
   (start_ack_reaches_base sampleProbe (by unfold ProbeConsts.WF; decide) sampleTv sampleTv
      noneFresh (by decide)).1⟩

/-- C9 (search completion). In state Search with `probed_size ≥ max_pmtu`,
`Ack` gives state Done, `effective_pmtu` equal to the `probed_size` held
before, `probed_size` unchanged, `probe_timer = 0` and `pmtu_raise_timer`
equal to the clock reading. -/
theorem search_ack_done (P : ProbeConsts) (hP : P.WF) (tv : timeval) (up : udpopt_probe)
    (h : up.state = P.UDPOPT_PROBE_STATE_SEARCH) (hsz : up.probed_size ≥ up.max_pmtu) :
    let r := plpmtud_event P tv up P.UDPOPT_PROBE_EVENT_ACK
    r.state = P.UDPOPT_PROBE_STATE_DONE ∧ r.effective_pmtu = up.probed_size ∧
    r.probed_size = up.probed_size ∧ r.probe_timer = 0 ∧
    r.pmtu_raise_timer = udp_ts_getticks tv := by
  obtain ⟨⟨h1, h2, h3, h4, h5, h6, h7, h8, h9, h10⟩, e1, e2, e3, e4, e5, e6, e7, e8, e9, e10⟩ :=
    ProbeConsts.WF.ne P hP
  simp [plpmtud_event, plpmtud_event_switch, plpmtud_event_entry, h, hsz, *, Ne.symm, h2.symm, h5.symm,
    e5.symm, e6.symm, h9.symm, h7.symm, h10.symm, h8.symm, h3.symm]

theorem search_ack_done_witness :
    searchAtMax.probed_size ≥ searchAtMax.max_pmtu ∧
    (plpmtud_event sampleProbe sampleTv searchAtMax sampleProbe.UDPOPT_PROBE_EVENT_ACK).state
      = sampleProbe.UDPOPT_PROBE_STATE_DONE ∧
    (plpmtud_event sampleProbe sampleTv searchAtMax
      sampleProbe.UDPOPT_PROBE_EVENT_ACK).pmtu_raise_timer = 100 :=
  ⟨by decide,
   (search_ack_done sampleProbe (by unfold ProbeConsts.WF; decide) sampleTv searchAtMax
      (by decide) (by decide)).1,
   (search_ack_done sampleProbe (by unfold ProbeConsts.WF; decide) sampleTv searchAtMax
      (by decide) (by decide)).2.2.2.2⟩

/-- C10 (unhandled pairs are no-ops). For a (state, event) pair without a
`case` of its own (None with Ptb, Timeout, Raise; Base with Start, Raise;
Search with Start, Raise; Error with Start, Ptb, Raise; Done with Start, Ack,
Ptb; any event value other than the five defined ones), `plpmtud_event`
returns the context it was given. -/
theorem unhandled_noop (P : ProbeConsts) (hP : P.WF) (tv : timeval) (up : udpopt_probe)
    (event : Int) (h : unhandled P up.state event) :
    plpmtud_event P tv up event = up := by
  obtain ⟨⟨h1, h2, h3, h4, h5, h6, h7, h8, h9, h10⟩, e1, e2, e3, e4, e5, e6, e7, e8, e9, e10⟩ :=
    ProbeConsts.WF.ne P hP
  have hsw : plpmtud_event_switch P up event = up := by
    unfold unhandled at h
    simp only [ProbeConsts.events, List.mem_cons, List.mem_singleton, not_or, List.not_mem_nil, or_false] at h
    unfold plpmtud_event_switch
    rcases h with ⟨hs, he | he | he⟩ | ⟨hs, he | he⟩ | ⟨hs, he | he⟩ | ⟨hs, he | he | he⟩ |
      ⟨hs, he | he | he⟩ | ⟨n1, n2, n3, n4, n5⟩ <;>
    simp [*, Ne.symm, h1.symm, h2.symm, h3.symm, h4.symm, h5.symm, h6.symm, h7.symm, h8.symm,
      h9.symm, h10.symm, e1.symm, e2.symm, e3.symm, e4.symm, e5.symm, e6.symm, e7.symm, e8.symm,
      e9.symm, e10.symm]
  simp [plpmtud_event, hsw, plpmtud_event_entry]


theorem unhandled_noop_witness :
    unhandled sampleProbe baseEntered.state sampleProbe.UDPOPT_PROBE_EVENT_RAISE ∧
    plpmtud_event sampleProbe sampleTv baseEntered sampleProbe.UDPOPT_PROBE_EVENT_RAISE
      = baseEntered :=
  ⟨by unfold unhandled; decide,
   unhandled_noop sampleProbe (by unfold ProbeConsts.WF; decide) sampleTv baseEntered
     sampleProbe.UDPOPT_PROBE_EVENT_RAISE (by unfold unhandled; decide)⟩

/-- C8, counterexample. Under the sample constants (`MAX_PROBES = 3`), three
consecutive `Timeout` events from a freshly entered Base leave the machine in
Base, not in Error. -/
theorem max_probes_timeouts_stay_in_base :
    (plpmtud_run sampleProbe baseEntered
      (List.replicate sampleProbe.MAX_PROBES (⟨7, 0⟩, sampleProbe.UDPOPT_PROBE_EVENT_TIMEOUT))).state
      = sampleProbe.UDPOPT_PROBE_STATE_BASE ∧
    (plpmtud_run sampleProbe baseEntered
      (List.replicate sampleProbe.MAX_PROBES (⟨7, 0⟩, sampleProbe.UDPOPT_PROBE_EVENT_TIMEOUT))).state
      ≠ sampleProbe.UDPOPT_PROBE_STATE_ERROR := by
  decide

/-- While `probe_count` stays within `MAX_PROBES`, each `Timeout` in Base
keeps the state and adds one to `probe_count`. -/
theorem timeouts_in_base_count (P : ProbeConsts) (hP : P.WF) (tvs : List timeval) :
    ∀ up : udpopt_probe, up.state = P.UDPOPT_PROBE_STATE_BASE →
      up.probe_count + tvs.length ≤ P.MAX_PROBES →
      (plpmtud_run P up (tvs.map (fun tv => (tv, P.UDPOPT_PROBE_EVENT_TIMEOUT)))).state
        = P.UDPOPT_PROBE_STATE_BASE ∧
      (plpmtud_run P up (tvs.map (fun tv => (tv, P.UDPOPT_PROBE_EVENT_TIMEOUT)))).probe_count
        = up.probe_count + tvs.length := by
  obtain ⟨⟨h1, h2, h3, h4, h5, h6, h7, h8, h9, h10⟩, e1, e2, e3, e4, e5, e6, e7, e8, e9, e10⟩ :=
    ProbeConsts.WF.ne P hP
  have hM : P.MAX_PROBES < 2 ^ 32 := hP.2.2.1
  induction tvs with
  | nil => intro up hs _; simp [plpmtud_run, hs]
  | cons tv tvs ih =>
    intro up hs hc
    simp only [List.length_cons] at hc
    have hlt : up.probe_count < P.MAX_PROBES := by omega
    have hstep : plpmtud_event P tv up P.UDPOPT_PROBE_EVENT_TIMEOUT =
        { up with probe_count := up.probe_count + 1, probed_size := P.BASE_MTU, send_probe := 1 } := by
      have : (up.probe_count + 1) % 4294967296 = up.probe_count + 1 := by
        apply Nat.mod_eq_of_lt; norm_num at hM; omega
      simp [plpmtud_event, plpmtud_event_switch, plpmtud_event_entry, hs, hlt, this, h1.symm,
        e8.symm]
    have := ih { up with probe_count := up.probe_count + 1, probed_size := P.BASE_MTU,
                         send_probe := 1 } hs (by simp only; omega)
    simp only [plpmtud_run, List.map_cons, List.foldl_cons, hstep] at this ⊢
    simp only [List.length_cons]
    constructor
    · exact this.1
    · rw [this.2]; omega

/-- C8, amended. From state Base with `probe_count = 0`, `MAX_PROBES`
consecutive `Timeout` events leave the machine in Base with
`probe_count = MAX_PROBES`; the next `Timeout` moves it to Error. -/
theorem base_timeouts (P : ProbeConsts) (hP : P.WF) (tvs : List timeval) (tv : timeval)
    (up : udpopt_probe) (hs : up.state = P.UDPOPT_PROBE_STATE_BASE) (hc : up.probe_count = 0)
    (hn : tvs.length = P.MAX_PROBES) :
    let r := plpmtud_run P up (tvs.map (fun tv => (tv, P.UDPOPT_PROBE_EVENT_TIMEOUT)))
    r.state = P.UDPOPT_PROBE_STATE_BASE ∧ r.probe_count = P.MAX_PROBES ∧
    (plpmtud_event P tv r P.UDPOPT_PROBE_EVENT_TIMEOUT).state = P.UDPOPT_PROBE_STATE_ERROR := by
  obtain ⟨⟨h1, h2, h3, h4, h5, h6, h7, h8, h9, h10⟩, e1, e2, e3, e4, e5, e6, e7, e8, e9, e10⟩ :=
    ProbeConsts.WF.ne P hP
  have h := timeouts_in_base_count P hP tvs up hs (by omega)
  intro r
  have hst : r.state = P.UDPOPT_PROBE_STATE_BASE := h.1
  have hct : r.probe_count = P.MAX_PROBES := by rw [← hn, ← Nat.zero_add tvs.length, ← hc]; exact h.2
  refine ⟨hst, hct, ?_⟩
  simp [plpmtud_event, plpmtud_event_switch, plpmtud_event_entry, hst, hct, h1.symm, e8.symm, h6]

theorem base_timeouts_witness :
    let r := plpmtud_run sampleProbe baseEntered
      (([⟨1, 0⟩, ⟨2, 0⟩, ⟨3, 0⟩] : List timeval).map
        (fun tv => (tv, sampleProbe.UDPOPT_PROBE_EVENT_TIMEOUT)))
    r.state = sampleProbe.UDPOPT_PROBE_STATE_BASE ∧ r.probe_count = sampleProbe.MAX_PROBES ∧
    (plpmtud_event sampleProbe ⟨4, 0⟩ r sampleProbe.UDPOPT_PROBE_EVENT_TIMEOUT).state
      = sampleProbe.UDPOPT_PROBE_STATE_ERROR :=
  base_timeouts sampleProbe (by unfold ProbeConsts.WF; decide) [⟨1, 0⟩, ⟨2, 0⟩, ⟨3, 0⟩] ⟨4, 0⟩
    baseEntered (by decide) (by decide) (by decide)

/-! ## Option codec -/

theorem udp_optcksum_sum_foldl (l : List Nat) (a : Nat) (ha : a < 65536) :
    l.foldl (fun cksum b => (cksum + b) % 65536) a = (a + l.sum) % 65536 := by
  induction l generalizing a with
  | nil => simp; omega
  | cons b l ih =>
    simp only [List.foldl_cons, List.sum_cons]
    rw [ih _ (Nat.mod_lt _ (by norm_num))]
    omega

theorem udp_optcksum_sum_eq (cp : List Nat) (len : Nat) :
    udp_optcksum_sum cp len = (cp.take len).sum % 65536 := by
  unfold udp_optcksum_sum
  rw [udp_optcksum_sum_foldl _ 0 (by norm_num)]
  simp

theorem and_ff00_shr (c : Nat) : (c &&& 0xFF00) >>> 8 = c / 256 % 256 := by
  have h1 : (0xFF00 : Nat) = (2 ^ 8 - 1) <<< 8 := by decide
  have h2 : c / 256 % 256 = (c >>> 8) % 2 ^ 8 := by
    rw [Nat.shiftRight_eq_div_pow]; norm_num
  rw [h1, h2]
  apply Nat.eq_of_testBit_eq
  intro i
  simp only [Nat.testBit_shiftRight, Nat.testBit_and, Nat.testBit_shiftLeft,
    Nat.testBit_two_pow_sub_one, Nat.testBit_mod_two_pow]
  have : 8 + i - 8 = i := by omega
  rw [this, Bool.and_comm]
  congr 1
  simp

theorem and_ff (c : Nat) : c &&& 0x00FF = c % 256 := by
  have h1 : (0x00FF : Nat) = 2 ^ 8 - 1 := by decide
  rw [h1, Nat.and_pow_two_sub_one_eq_mod]

/-- One round of the carry loop keeps the end-around-carry residue. -/
theorem cksum_round (c : Nat) (hc : 0x00FF < c) (h : c < 65536) :
    1 ≤ c / 256 % 256 + c % 256 ∧ c / 256 % 256 + c % 256 ≤ 510 ∧
    (c / 256 % 256 + c % 256 - 1) % 255 = (c - 1) % 255 ∧
    (c ≤ 510 → c / 256 % 256 + c % 256 ≤ 255) := by
  refine ⟨by omega, by omega, ?_, by omega⟩
  have e : c - 1 = (c / 256 % 256 + c % 256 - 1) + 255 * (c / 256) := by omega
  rw [e, Nat.add_mul_mod_self_left]

/-- Four rounds of the carry loop finish on every 16-bit value, with the
end-around-carry residue. -/
theorem udp_optcksum_fold_eq (c : Nat) (hc : c < 65536) :
    udp_optcksum_fold 4 c = if c = 0 then 0 else (c - 1) % 255 + 1 := by
  unfold udp_optcksum_fold
  by_cases h0 : 0x00FF < c
  · rw [if_pos h0, and_ff00_shr, and_ff]
    obtain ⟨a1, a2, a3, a4⟩ := cksum_round c h0 hc
    generalize c / 256 % 256 + c % 256 = c1 at a1 a2 a3 a4
    unfold udp_optcksum_fold
    by_cases h1 : 0x00FF < c1
    · rw [if_pos h1, and_ff00_shr, and_ff]
      obtain ⟨b1, b2, b3, b4⟩ := cksum_round c1 h1 (by omega)
      have b4 := b4 a2
      generalize c1 / 256 % 256 + c1 % 256 = c2 at b1 b2 b3 b4
      unfold udp_optcksum_fold
      rw [if_neg (by omega)]
      split_ifs <;> omega
    · rw [if_neg h1]; split_ifs <;> omega
  · rw [if_neg h0]; split_ifs <;> omega

theorem udp_optcksum_fold_le (c : Nat) (hc : c < 65536) : udp_optcksum_fold 4 c ≤ 0x00FF := by
  rw [udp_optcksum_fold_eq c hc]; split_ifs <;> omega

/-- The checksum in terms of the byte sum. -/
theorem udp_optcksum_eq (cp : List Nat) (len : Nat) :
    udp_optcksum cp len =
      255 - (if (cp.take len).sum % 65536 = 0 then 0
             else ((cp.take len).sum % 65536 - 1) % 255 + 1) := by
  unfold udp_optcksum
  rw [udp_optcksum_sum_eq, udp_optcksum_fold_eq _ (Nat.mod_lt _ (by norm_num))]
  split_ifs <;> omega

theorem udp_optcksum_lt (cp : List Nat) (len : Nat) : udp_optcksum cp len < 256 := by
  rw [udp_optcksum_eq]; omega

theorem udp_optcksum_eq_zero_iff (cp : List Nat) (len : Nat) :
    udp_optcksum cp len = 0 ↔
      (cp.take len).sum % 65536 ≠ 0 ∧ (cp.take len).sum % 65536 % 255 = 0 := by
  rw [udp_optcksum_eq]
  generalize (cp.take len).sum % 65536 = c
  split_ifs with h
  · simp [h]
  · constructor
    · intro h1; exact ⟨h, by omega⟩
    · rintro ⟨-, h2⟩; omega

theorem udp_optlen_loop_eq (K : OptConsts) (uo : udpopt) (fuel mask fixedlen : Nat) :
    udp_optlen_loop K uo fuel mask fixedlen =
      match maskSeq K.UOF_MAXOPT fuel mask with
      | none => .error .fuel
      | some ms => .ok (ms.foldl (fun acc m => udp_optlen_switch K (uo.uo_flags &&& m) acc) fixedlen) := by
  induction fuel generalizing mask fixedlen with
  | zero => simp [udp_optlen_loop, maskSeq]
  | succ fuel ih =>
    simp only [udp_optlen_loop, maskSeq]
    split_ifs with h
    · rw [ih]
      cases maskSeq K.UOF_MAXOPT fuel ((mask <<< 1) % 4294967296) <;> simp
    · simp

theorem udp_addoptions_loop_eq (K : OptConsts) (tvTime tvEcho : timeval) (len fuel mask : Nat)
    (st : AddState) (ms : List Nat) (h : maskSeq K.UOF_MAXOPT fuel mask = some ms) :
    udp_addoptions_loop K tvTime tvEcho len fuel mask st =
      udp_addoptions_over K tvTime tvEcho len ms st := by
  induction fuel generalizing mask st ms with
  | zero => simp [maskSeq] at h
  | succ fuel ih =>
    simp only [maskSeq] at h
    simp only [udp_addoptions_loop]
    split_ifs at h with hm
    · cases hrec : maskSeq K.UOF_MAXOPT fuel ((mask <<< 1) % 4294967296) with
      | none => simp [hrec] at h
      | some ms' =>
        simp [hrec] at h
        subst h
        simp only [if_pos hm, udp_addoptions_over]
        split_ifs with h1 h2
        · exact ih _ _ _ hrec
        · rfl
        · cases udp_addoptions_switch K tvTime tvEcho (st.uo.uo_flags &&& mask) st with
          | error e => rfl
          | ok st' => exact ih _ _ _ hrec
    · simp at h; subst h; simp [if_neg hm, udp_addoptions_over]

/-- With `maxopt ≤ 2^31` the loop header ends within its fuel; the masks are
powers of two below `maxopt`, strictly increasing, and every power of two
below `maxopt` from the start mask on is visited. -/
theorem maskSeq_spec (maxopt : Nat) (hmax : maxopt ≤ 2 ^ 31) (fuel i : Nat) (hi : i ≤ 31)
    (hf : 32 ≤ fuel + i) :
    ∃ ms, maskSeq maxopt fuel (2 ^ i) = some ms ∧
      (∀ m ∈ ms, ∃ j, i ≤ j ∧ j < 31 ∧ m = 2 ^ j ∧ m < maxopt) ∧
      (∀ j, i ≤ j → 2 ^ j < maxopt → 2 ^ j ∈ ms) ∧ ms.Nodup := by
  induction fuel generalizing i with
  | zero => omega
  | succ fuel ih =>
    simp only [maskSeq]
    by_cases hm : 2 ^ i < maxopt
    · have hi' : i < 31 := by
        by_contra hc
        have : i = 31 := by omega
        subst this; omega
      have hsh : (2 ^ i <<< 1) % 4294967296 = 2 ^ (i + 1) := by
        have e : 2 ^ i <<< 1 = 2 ^ (i + 1) := by
          rw [Nat.shiftLeft_eq]; ring
        rw [e]
        apply Nat.mod_eq_of_lt
        calc 2 ^ (i + 1) ≤ 2 ^ 31 := Nat.pow_le_pow_right (by norm_num) (by omega)
          _ < 4294967296 := by norm_num
      obtain ⟨ms, h1, h2, h3, h4⟩ := ih (i + 1) (by omega) (by omega)
      refine ⟨2 ^ i :: ms, by simp [if_pos hm, hsh, h1], ?_, ?_, ?_⟩
      · intro m hmem
        rcases List.mem_cons.1 hmem with rfl | hmem
        · exact ⟨i, le_refl _, hi', rfl, hm⟩
        · obtain ⟨j, hj1, hj2, hj3, hj4⟩ := h2 m hmem
          exact ⟨j, by omega, hj2, hj3, hj4⟩
      · intro j hj hjm
        rcases Nat.eq_or_lt_of_le hj with rfl | hlt
        · exact List.mem_cons_self _ _
        · exact List.mem_cons_of_mem _ (h3 j hlt hjm)
      · refine List.nodup_cons.2 ⟨?_, h4⟩
        intro hmem
        obtain ⟨j, hj1, _, hj3, _⟩ := h2 _ hmem
        have := Nat.pow_right_injective (le_refl 2) hj3
        omega
    · refine ⟨[], by simp [if_neg hm], by simp, ?_, List.nodup_nil⟩
      intro j hj hjm
      exfalso
      have : 2 ^ i ≤ 2 ^ j := Nat.pow_le_pow_right (by norm_num) hj
      omega

theorem wr_mid (pre : List Nat) (x : Nat) (post : List Nat) (v : Nat) :
    wr (pre ++ x :: post) (pre.length : Int) v = .ok (pre ++ (v % 256) :: post) := by
  unfold wr
  rw [if_pos]
  · simp
  · simp

theorem bcopy_out_mid (bytes : List Nat) :
    ∀ (pre old post : List Nat), old.length = bytes.length →
      bcopy_out (pre ++ old ++ post) pre.length bytes
        = .ok (pre ++ bytes.map (fun b => b % 256) ++ post) := by
  induction bytes with
  | nil => intro pre old post h; simp at h; subst h; simp [bcopy_out]
  | cons b bytes ih =>
    intro pre old post h
    cases old with
    | nil => simp at h
    | cons x old =>
      simp only [List.length_cons, add_left_inj] at h
      have e : pre ++ x :: old ++ post = pre ++ x :: (old ++ post) := by simp
      simp only [bcopy_out, e, wr_mid]
      have := ih (pre ++ [b % 256]) old post h
      simp only [List.length_append, List.length_singleton, List.append_assoc,
        List.singleton_append] at this
      simpa [bind, Except.bind] using this

theorem bcopy_out_append (a b : List Nat) (buf : List Nat) (i : Nat) :
    bcopy_out buf i (a ++ b) = (bcopy_out buf i a).bind (fun buf => bcopy_out buf (i + a.length) b) := by
  induction a generalizing buf i with
  | nil => simp [bcopy_out, Except.bind]
  | cons x a ih =>
    simp only [List.cons_append, bcopy_out, bind]
    cases wr buf i x with
    | error e => rfl
    | ok buf' =>
      have e : i + (x :: a).length = i + 1 + a.length := by simp; omega
      rw [e]
      exact ih buf' (i + 1)

theorem mem16_length (K : OptConsts) (x : Nat) : (mem16 K x).length = 2 := by
  unfold mem16; split_ifs <;> rfl

theorem mem32_length (K : OptConsts) (x : Nat) : (mem32 K x).length = 4 := by
  unfold mem32; split_ifs <;> rfl

theorem OptConsts.WF.flags_ne (K : OptConsts) (h : K.WF) :
    K.UOF_TIME ≠ K.UOF_MSS ∧ K.UOF_ECHOREQ ≠ K.UOF_MSS ∧ K.UOF_ECHOREQ ≠ K.UOF_TIME ∧
    K.UOF_ECHORES ≠ K.UOF_MSS ∧ K.UOF_ECHORES ≠ K.UOF_TIME ∧ K.UOF_ECHORES ≠ K.UOF_ECHOREQ ∧
    K.UOF_MSS ≠ K.UOF_OCS ∧ K.UOF_TIME ≠ K.UOF_OCS ∧ K.UOF_ECHOREQ ≠ K.UOF_OCS ∧
    K.UOF_ECHORES ≠ K.UOF_OCS ∧
    K.UOF_TIME ≠ K.UOF_ACS ∧ K.UOF_TIME ≠ K.UOF_LITE ∧
    K.UOF_ECHOREQ ≠ K.UOF_ACS ∧ K.UOF_ECHOREQ ≠ K.UOF_LITE ∧ K.UOF_ECHOREQ ≠ K.UOF_FRAG ∧
    K.UOF_ECHORES ≠ K.UOF_ACS ∧ K.UOF_ECHORES ≠ K.UOF_LITE ∧ K.UOF_ECHORES ≠ K.UOF_FRAG := by
  obtain ⟨-, -, -, -, -, -, -, hf, -⟩ := h
  simp only [OptConsts.flagBits, List.nodup_cons, List.mem_cons, List.mem_singleton, not_or,
    List.not_mem_nil, not_false_eq_true, List.nodup_nil, and_true] at hf
  obtain ⟨⟨a1, a2, a3, a4, a5, a6, a7⟩, ⟨b1, b2, b3, b4, b5, b6⟩, ⟨c1, c2, c3, c4, c5⟩,
    ⟨d1, d2, d3, d4⟩, ⟨e1, e2, e3⟩, ⟨f1, f2⟩, g1⟩ := hf
  refine ⟨?_, ?_, ?_, ?_, ?_, ?_, ?_, ?_, ?_, ?_, ?_, ?_, ?_, ?_, ?_, ?_, ?_, ?_⟩ <;>
    first | assumption | (apply Ne.symm; assumption)

theorem OptConsts.WF.lens (K : OptConsts) (h : K.WF) :
    K.UDPOLEN_OCS = 2 ∧ K.UDPOLEN_MSS = 4 ∧ K.UDPOLEN_TIME = 10 ∧
    K.UDPOLEN_ECHOREQ = 6 ∧ K.UDPOLEN_ECHORES = 6 := by
  obtain ⟨-, -, l1, l2, l3, l4, l5, -⟩ := h
  exact ⟨l1, l2, l3, l4, l5⟩

theorem optBytes_length (K : OptConsts) (hK : K.WF) (tvTime tvEcho : timeval) (uo : udpopt)
    (m : Nat) (hm : K.isCodecFlag m) :
    (optBytes K tvTime tvEcho uo m).length =
      if m = K.UOF_MSS then 4 else if m = K.UOF_TIME then 10 else 6 := by
  obtain ⟨n1, n2, n3, n4, n5, n6, -⟩ := OptConsts.WF.flags_ne K hK
  rcases hm with rfl | rfl | rfl | rfl <;>
    simp [optBytes, mem16_length, mem32_length, n1, n2, n3, n4, n5, n6]

theorem udp_addoptions_switch_eq (K : OptConsts) (hK : K.WF) (tvTime tvEcho : timeval)
    (st : AddState) (m : Nat) (hm : K.isCodecFlag m) :
    udp_addoptions_switch K tvTime tvEcho m st =
      (bcopy_out st.cp st.optp (optBytes K tvTime tvEcho st.uo m)).bind (fun cp =>
        .ok { uo := optUpdate K tvTime tvEcho st.uo m, cp := cp,
              optp := st.optp + (optBytes K tvTime tvEcho st.uo m).length,
              optlen := (st.optlen + (optBytes K tvTime tvEcho st.uo m).length) % 4294967296 }) := by
  obtain ⟨n1, n2, n3, n4, n5, n6, -⟩ := OptConsts.WF.flags_ne K hK
  obtain ⟨l1, l2, l3, l4, l5⟩ := OptConsts.WF.lens K hK
  rcases hm with rfl | rfl | rfl | rfl
  · simp only [udp_addoptions_switch, optBytes, optUpdate, if_true, List.cons_append,
      List.nil_append, bcopy_out, bind, List.length_cons, mem16_length, l2]
    cases wr st.cp st.optp K.UDPOPT_MSS with
    | error e => rfl
    | ok cp1 =>
      simp only [Except.bind]
      cases wr cp1 (st.optp + 1 : Nat) 4 with
      | error e => rfl
      | ok cp2 =>
        simp only [Except.bind]
        cases bcopy_out cp2 (st.optp + 1 + 1) (mem16 K (htons K st.uo.uo_mss)) with
        | error e => rfl
        | ok cp3 => rfl
  · simp only [udp_addoptions_switch, optBytes, optUpdate, if_true, n1, if_false, List.cons_append,
      List.nil_append, bcopy_out, bind, List.length_cons, List.length_append, mem32_length, l3,
      bcopy_out_append]
    cases wr st.cp st.optp K.UDPOPT_TIME with
    | error e => rfl
    | ok cp1 =>
      simp only [Except.bind]
      cases wr cp1 (st.optp + 1 : Nat) 10 with
      | error e => rfl
      | ok cp2 =>
        simp only [Except.bind]
        cases bcopy_out cp2 (st.optp + 1 + 1) (mem32 K (htonl K (udp_ts_getticks tvTime))) with
        | error e => rfl
        | ok cp3 =>
          simp only []
          cases bcopy_out cp3 (st.optp + 1 + 1 + 4) (mem32 K (htonl K st.uo.uo_tsecr)) with
          | error e => rfl
          | ok cp4 => rfl
  · simp only [udp_addoptions_switch, optBytes, optUpdate, if_true, n2, n3, if_false,
      List.cons_append, List.nil_append, bcopy_out, bind, List.length_cons, mem32_length, l4]
    cases wr st.cp st.optp K.UDPOPT_ECHOREQ with
    | error e => rfl
    | ok cp1 =>
      simp only [Except.bind]
      cases wr cp1 (st.optp + 1 : Nat) 6 with
      | error e => rfl
      | ok cp2 =>
        simp only [Except.bind]
        by_cases ht : st.uo.uo_plpmtud_token = 0
        · simp only [ht, ne_eq, not_true_eq_false, if_false]
          cases bcopy_out cp2 (st.optp + 1 + 1) (mem32 K (udp_ts_getticks tvEcho)) with
          | error e => rfl
          | ok cp3 => rfl
        · simp only [ht, ne_eq, not_false_eq_true, if_true]
          cases bcopy_out cp2 (st.optp + 1 + 1) (mem32 K st.uo.uo_plpmtud_token) with
          | error e => rfl
          | ok cp3 => rfl
  · simp only [udp_addoptions_switch, optBytes, optUpdate, if_true, n4, n5, n6, if_false,
      List.cons_append, List.nil_append, bcopy_out, bind, List.length_cons, mem32_length, l5]
    cases wr st.cp st.optp K.UDPOPT_ECHORES with
    | error e => rfl
    | ok cp1 =>
      simp only [Except.bind]
      cases wr cp1 (st.optp + 1 : Nat) 6 with
      | error e => rfl
      | ok cp2 =>
        simp only [Except.bind]
        cases bcopy_out cp2 (st.optp + 1 + 1) (mem32 K st.uo.uo_echores) with
        | error e => rfl
        | ok cp3 => rfl

theorem and_two_pow_cases (flags j : Nat) : flags &&& 2 ^ j = 2 ^ j ∨ flags &&& 2 ^ j = 0 := by
  by_cases h : flags.testBit j = true
  · left
    apply Nat.eq_of_testBit_eq
    intro i
    rw [Nat.testBit_and, Nat.testBit_two_pow]
    by_cases hji : j = i
    · subst hji; simp [h]
    · simp [hji]
  · right
    apply Nat.eq_of_testBit_eq
    intro i
    rw [Nat.testBit_and, Nat.testBit_two_pow]
    by_cases hji : j = i
    · subst hji; simp at h; simp [h]
    · simp [hji]

theorem testBit_of_and_two_pow (flags j : Nat) (h : flags &&& 2 ^ j = 2 ^ j) :
    flags.testBit j = true := by
  have := congrArg (fun x => x.testBit j) h
  simp only [Nat.testBit_and, Nat.testBit_two_pow_self, Bool.and_true] at this
  exact this

theorem OptConsts.WF.codec_pow (K : OptConsts) (h : K.WF) :
    (∃ a, a < 31 ∧ K.UOF_MSS = 2 ^ a) ∧ (∃ a, a < 31 ∧ K.UOF_TIME = 2 ^ a) ∧
    (∃ a, a < 31 ∧ K.UOF_ECHOREQ = 2 ^ a) ∧ (∃ a, a < 31 ∧ K.UOF_ECHORES = 2 ^ a) ∧
    (∃ a, a < 31 ∧ K.UOF_OCS = 2 ^ a) ∧ (∃ a, a < 31 ∧ K.UOF_ACS = 2 ^ a) ∧
    (∃ a, a < 31 ∧ K.UOF_LITE = 2 ^ a) ∧ (∃ a, a < 31 ∧ K.UOF_FRAG = 2 ^ a) := by
  obtain ⟨-, -, -, -, -, -, -, -, hp, -⟩ := h
  simp only [OptConsts.flagBits, List.mem_cons, List.mem_singleton, forall_eq_or_imp, forall_eq,
    List.not_mem_nil, false_implies, forall_const, and_true] at hp
  obtain ⟨p1, p2, p3, p4, p5, p6, p7, p8⟩ := hp
  exact ⟨p4, p5, p7, p8, p1, p2, p3, p6⟩

theorem codec_of_within (K : OptConsts) (hK : K.WF) (flags j : Nat)
    (hw : flags &&& K.codecFlags = flags) (h : flags &&& 2 ^ j = 2 ^ j) :
    K.isCodecFlag (2 ^ j) := by
  obtain ⟨⟨a, -, ha⟩, ⟨b, -, hb⟩, ⟨c, -, hc⟩, ⟨d, -, hd⟩, -⟩ := OptConsts.WF.codec_pow K hK
  have hj := testBit_of_and_two_pow flags j h
  rw [← hw] at hj
  simp only [OptConsts.codecFlags, ha, hb, hc, hd, Nat.testBit_and, Nat.testBit_or,
    Nat.testBit_two_pow, Bool.and_eq_true, Bool.or_eq_true, decide_eq_true_eq] at hj
  unfold OptConsts.isCodecFlag
  rw [ha, hb, hc, hd]
  rcases hj.2 with ((h1 | h1) | h1) | h1 <;> subst h1 <;> simp

theorem OptConsts.WF.opcode_lt (K : OptConsts) (h : K.WF) :
    K.UDPOPT_EOL < 256 ∧ K.UDPOPT_NOP < 256 ∧ K.UDPOPT_OCS < 256 ∧ K.UDPOPT_MSS < 256 ∧
    K.UDPOPT_TIME < 256 ∧ K.UDPOPT_ECHOREQ < 256 ∧ K.UDPOPT_ECHORES < 256 := by
  obtain ⟨-, hl, -⟩ := h
  simpa [OptConsts.opcodes] using hl

theorem mem16_mod (K : OptConsts) (x : Nat) :
    (mem16 K x).map (fun b => b % 256) = mem16 K x := by
  unfold mem16; split_ifs <;> simp

theorem mem32_mod (K : OptConsts) (x : Nat) :
    (mem32 K x).map (fun b => b % 256) = mem32 K x := by
  unfold mem32; split_ifs <;> simp

theorem optBytes_mod (K : OptConsts) (hK : K.WF) (tvTime tvEcho : timeval) (uo : udpopt)
    (m : Nat) :
    (optBytes K tvTime tvEcho uo m).map (fun b => b % 256) = optBytes K tvTime tvEcho uo m := by
  obtain ⟨o1, o2, o3, o4, o5, o6, o7⟩ := OptConsts.WF.opcode_lt K hK
  obtain ⟨l1, l2, l3, l4, l5⟩ := OptConsts.WF.lens K hK
  unfold optBytes
  split_ifs <;>
    simp [mem16_mod, mem32_mod, l2, l3, l4, l5, Nat.mod_eq_of_lt, o4, o5, o6, o7]

theorem optBytes_congr (K : OptConsts) (tvTime tvEcho : timeval) (uo s : udpopt)
    (m : Nat) (h1 : uo.uo_mss = s.uo_mss) (h2 : uo.uo_echores = s.uo_echores)
    (h3 : uo.uo_plpmtud_token = s.uo_plpmtud_token)
    (h4 : m = K.UOF_TIME → uo.uo_tsecr = s.uo_tsecr) :
    optBytes K tvTime tvEcho uo m = optBytes K tvTime tvEcho s m := by
  unfold optBytes
  rw [h1, h2, h3]
  by_cases c : m = K.UOF_TIME
  · rw [h4 c]
  · simp only [c, if_false]

theorem optUpdate_fields (K : OptConsts) (tvTime tvEcho : timeval) (uo : udpopt) (m : Nat) :
    (optUpdate K tvTime tvEcho uo m).uo_flags = uo.uo_flags ∧
    (optUpdate K tvTime tvEcho uo m).uo_mss = uo.uo_mss ∧
    (optUpdate K tvTime tvEcho uo m).uo_echores = uo.uo_echores ∧
    (optUpdate K tvTime tvEcho uo m).uo_plpmtud_token = uo.uo_plpmtud_token ∧
    (m ≠ K.UOF_TIME → (optUpdate K tvTime tvEcho uo m).uo_tsecr = uo.uo_tsecr) := by
  unfold optUpdate
  split_ifs <;> simp_all

/-- The loop of `udp_addoptions` over a list of distinct single-bit masks,
started on a buffer whose free part is exactly as long as the bytes to be
appended and is followed by one more byte: no break, no fault, and the free
part is replaced by `encBody`. -/
theorem udp_addoptions_over_eq (K : OptConsts) (hK : K.WF) (tvTime tvEcho : timeval)
    (s : udpopt) (hw : s.uo_flags &&& K.codecFlags = s.uo_flags) (len e : Nat) :
    ∀ (ms : List Nat), ms.Nodup → (∀ m ∈ ms, ∃ j, m = 2 ^ j) →
    ∀ (st : AddState) (pre fill : List Nat),
      st.uo.uo_flags = s.uo_flags → st.uo.uo_mss = s.uo_mss →
      st.uo.uo_echores = s.uo_echores → st.uo.uo_plpmtud_token = s.uo_plpmtud_token →
      (K.UOF_TIME ∈ ms → st.uo.uo_tsecr = s.uo_tsecr) →
      st.cp = pre ++ fill ++ [e] → fill.length = (encBody K tvTime tvEcho s ms).length →
      st.optp = pre.length → st.optlen = pre.length → len = pre.length + fill.length + 1 →
      len < 4294967296 →
      ∃ st', udp_addoptions_over K tvTime tvEcho len ms st = .ok st' ∧
        st'.cp = pre ++ encBody K tvTime tvEcho s ms ++ [e] ∧
        st'.optlen = pre.length + fill.length := by
  intro ms
  induction ms with
  | nil =>
    intro _ _ st pre fill _ _ _ _ _ hcp hfill _ hlen _ _
    simp only [encBody, List.length_nil, List.length_eq_zero] at hfill
    subst hfill
    exact ⟨st, rfl, by simpa using hcp, by simpa using hlen⟩
  | cons m ms ih =>
    intro hnd hpow st pre fill hf hmss hres htok htime hcp hfill hoptp hoptlen hlen hlt
    obtain ⟨hm_notin, hnd'⟩ := List.nodup_cons.1 hnd
    have hpow' : ∀ m' ∈ ms, ∃ j, m' = 2 ^ j := fun m' h' => hpow m' (List.mem_cons_of_mem _ h')
    obtain ⟨j, hj⟩ := hpow m (List.mem_cons_self _ _)
    simp only [udp_addoptions_over, hf]
    by_cases hset : s.uo_flags &&& m = m
    · have hcf : K.isCodecFlag m := by rw [hj] at hset ⊢; exact codec_of_within K hK _ j hw hset
      have hlenb := optBytes_length K hK tvTime tvEcho s m hcf
      have hbody : encBody K tvTime tvEcho s (m :: ms) =
          optBytes K tvTime tvEcho s m ++ encBody K tvTime tvEcho s ms := by
        simp [encBody, hset]
      rw [hbody, List.length_append] at hfill
      have hpos : 4 ≤ (optBytes K tvTime tvEcho s m).length := by
        rw [hlenb]; split_ifs <;> omega
      have hcongr : optBytes K tvTime tvEcho st.uo m = optBytes K tvTime tvEcho s m :=
        optBytes_congr K tvTime tvEcho st.uo s m hmss hres htok
          (fun h => htime (by rw [h]; exact List.mem_cons_self _ _))
      have hnb : ¬ ((st.optlen : Int) = (len : Int) - 1) := by omega
      rw [if_neg (by simpa using hset), if_neg hnb, hset,
        udp_addoptions_switch_eq K hK tvTime tvEcho st m hcf, hcongr]
      set k := (optBytes K tvTime tvEcho s m).length with hk
      have hsplit : st.cp = pre ++ fill.take k ++ (fill.drop k ++ [e]) := by
        rw [hcp]; simp [List.append_assoc, ← List.append_assoc (fill.take k), List.take_append_drop]
      have htake : (fill.take k).length = k := by rw [List.length_take]; omega
      have hdrop : (fill.drop k).length = (encBody K tvTime tvEcho s ms).length := by
        rw [List.length_drop]; omega
      rw [hsplit, hoptp, bcopy_out_mid _ pre (fill.take k) _ htake,
        optBytes_mod K hK]
      simp only [Except.bind, bind]
      obtain ⟨u1, u2, u3, u4, u5⟩ := optUpdate_fields K tvTime tvEcho st.uo m
      have := ih hnd' hpow'
        { uo := optUpdate K tvTime tvEcho st.uo m,
          cp := pre ++ optBytes K tvTime tvEcho s m ++ (fill.drop k ++ [e]),
          optp := pre.length + k, optlen := (st.optlen + k) % 4294967296 }
        (pre ++ optBytes K tvTime tvEcho s m) (fill.drop k)
        (by rw [u1, hf]) (by rw [u2, hmss]) (by rw [u3, hres]) (by rw [u4, htok])
        (by
          intro hin
          have hne : m ≠ K.UOF_TIME := fun h => hm_notin (h ▸ hin)
          rw [u5 hne]
          exact htime (List.mem_cons_of_mem _ hin))
        (by simp [List.append_assoc]) hdrop (by simp [hk])
        (by
          simp only [List.length_append, ← hk]
          rw [Nat.mod_eq_of_lt (by omega)]; omega)
        (by simp only [List.length_append, ← hk]; omega) hlt
      obtain ⟨st', h1, h2, h3⟩ := this
      refine ⟨st', h1, ?_, ?_⟩
      · rw [h2, hbody]; simp [List.append_assoc]
      · rw [h3]; simp only [List.length_append, ← hk]; omega
    · have hbody : encBody K tvTime tvEcho s (m :: ms) = encBody K tvTime tvEcho s ms := by
        simp [encBody, hset]
      rw [if_pos (by simpa using hset), hbody]
      rw [hbody] at hfill
      exact ih hnd' hpow' st pre fill hf hmss hres htok
        (fun h => htime (List.mem_cons_of_mem _ h)) hcp hfill hoptp hoptlen hlen hlt

theorem maskList_spec (K : OptConsts) (hK : K.WF) :
    maskSeq K.UOF_MAXOPT 33 1 = some (maskList K) ∧
    (∀ m ∈ maskList K, ∃ j, m = 2 ^ j) ∧
    (∀ j, 2 ^ j < K.UOF_MAXOPT → 2 ^ j ∈ maskList K) ∧ (maskList K).Nodup := by
  have hmax : K.UOF_MAXOPT ≤ 2 ^ 31 := hK.2.2.2.2.2.2.2.2.2.2
  obtain ⟨ms, h1, h2, h3, h4⟩ := maskSeq_spec K.UOF_MAXOPT hmax 33 0 (by omega) (by omega)
  simp only [pow_zero] at h1
  have e : maskList K = ms := by simp [maskList, h1]
  rw [e]
  refine ⟨h1, ?_, ?_, h4⟩
  · intro m hm
    obtain ⟨j, -, -, hj, -⟩ := h2 m hm
    exact ⟨j, hj⟩
  · intro j hj
    exact h3 j (Nat.zero_le _) hj

theorem udp_optlen_switch_zero (K : OptConsts) (hK : K.WF) (acc : Nat) :
    udp_optlen_switch K 0 acc = acc := by
  obtain ⟨⟨a, -, ha⟩, ⟨b, -, hb⟩, ⟨c, -, hc⟩, ⟨d, -, hd⟩, ⟨e, -, he⟩, ⟨f, -, hf⟩, ⟨g, -, hg⟩,
    ⟨h, -, hh⟩⟩ := OptConsts.WF.codec_pow K hK
  have p : ∀ n : Nat, (0 : Nat) ≠ 2 ^ n := fun n => (Nat.pos_pow_of_pos n (by norm_num)).ne
  unfold udp_optlen_switch
  simp [ha, hb, hc, hd, he, hf, hg, hh, p]

theorem udp_optlen_switch_codec (K : OptConsts) (hK : K.WF) (tvTime tvEcho : timeval)
    (uo : udpopt) (m acc : Nat) (hm : K.isCodecFlag m)
    (hacc : acc + (optBytes K tvTime tvEcho uo m).length < 65536) :
    udp_optlen_switch K m acc = acc + (optBytes K tvTime tvEcho uo m).length := by
  obtain ⟨n1, n2, n3, n4, n5, n6, n7, n8, n9, n10, n11, n12, n13, n14, n15, n16, n17, n18⟩ :=
    OptConsts.WF.flags_ne K hK
  have hl := optBytes_length K hK tvTime tvEcho uo m hm
  rw [hl] at hacc ⊢
  unfold udp_optlen_switch
  rcases hm with rfl | rfl | rfl | rfl
  · simp only [n7, if_false, or_true, if_true] at hacc ⊢
    exact Nat.mod_eq_of_lt hacc
  · simp only [n1, n8, n11, n12, if_false, or_self, if_true] at hacc ⊢
    exact Nat.mod_eq_of_lt hacc
  · simp only [n2, n3, n9, n13, n14, n15, if_false, or_self, if_true, true_or] at hacc ⊢
    exact Nat.mod_eq_of_lt hacc
  · simp only [n4, n5, n6, n10, n16, n17, n18, if_false, or_self, if_true, or_true] at hacc ⊢
    exact Nat.mod_eq_of_lt hacc

theorem udp_optlen_over_eq (K : OptConsts) (hK : K.WF) (tvTime tvEcho : timeval) (s : udpopt)
    (hw : s.uo_flags &&& K.codecFlags = s.uo_flags) :
    ∀ (ms : List Nat), (∀ m ∈ ms, ∃ j, m = 2 ^ j) → ∀ acc : Nat,
      acc + (encBody K tvTime tvEcho s ms).length < 65536 →
      ms.foldl (fun acc m => udp_optlen_switch K (s.uo_flags &&& m) acc) acc =
        acc + (encBody K tvTime tvEcho s ms).length := by
  intro ms
  induction ms with
  | nil => intro _ acc _; simp [encBody]
  | cons m ms ih =>
    intro hpow acc hacc
    obtain ⟨j, hj⟩ := hpow m (List.mem_cons_self _ _)
    have hpow' : ∀ m' ∈ ms, ∃ j, m' = 2 ^ j := fun m' h' => hpow m' (List.mem_cons_of_mem _ h')
    simp only [List.foldl_cons]
    by_cases hset : s.uo_flags &&& m = m
    · have hcf : K.isCodecFlag m := by rw [hj] at hset ⊢; exact codec_of_within K hK _ j hw hset
      have hbody : encBody K tvTime tvEcho s (m :: ms) =
          optBytes K tvTime tvEcho s m ++ encBody K tvTime tvEcho s ms := by
        simp [encBody, hset]
      rw [hbody, List.length_append] at hacc ⊢
      rw [hset, udp_optlen_switch_codec K hK tvTime tvEcho s m acc hcf (by omega),
        ih hpow' _ (by omega)]
      omega
    · have hz : s.uo_flags &&& m = 0 := by
        rcases and_two_pow_cases s.uo_flags j with h | h
        · exact absurd (hj ▸ h) hset
        · rw [hj]; exact h
      have hbody : encBody K tvTime tvEcho s (m :: ms) = encBody K tvTime tvEcho s ms := by
        simp [encBody, hset]
      rw [hbody] at hacc ⊢
      rw [hz, udp_optlen_switch_zero K hK, ih hpow' _ hacc]

/-- At most the four codec options are appended, once each. -/
theorem encBody_length_le (K : OptConsts) (hK : K.WF) (tvTime tvEcho : timeval) (s : udpopt)
    (hw : s.uo_flags &&& K.codecFlags = s.uo_flags) :
    ∀ (ms : List Nat), ms.Nodup → (∀ m ∈ ms, ∃ j, m = 2 ^ j) →
      (encBody K tvTime tvEcho s ms).length ≤
        (if K.UOF_MSS ∈ ms then 4 else 0) + (if K.UOF_TIME ∈ ms then 10 else 0) +
        (if K.UOF_ECHOREQ ∈ ms then 6 else 0) + (if K.UOF_ECHORES ∈ ms then 6 else 0) := by
  obtain ⟨n1, n2, n3, n4, n5, n6, -⟩ := OptConsts.WF.flags_ne K hK
  intro ms
  induction ms with
  | nil => intro _ _; simp [encBody]
  | cons m ms ih =>
    intro hnd hpow
    obtain ⟨hm_notin, hnd'⟩ := List.nodup_cons.1 hnd
    obtain ⟨j, hj⟩ := hpow m (List.mem_cons_self _ _)
    have hpow' : ∀ m' ∈ ms, ∃ j, m' = 2 ^ j := fun m' h' => hpow m' (List.mem_cons_of_mem _ h')
    have ih := ih hnd' hpow'
    by_cases hset : s.uo_flags &&& m = m
    · have hcf : K.isCodecFlag m := by rw [hj] at hset ⊢; exact codec_of_within K hK _ j hw hset
      have hbody : encBody K tvTime tvEcho s (m :: ms) =
          optBytes K tvTime tvEcho s m ++ encBody K tvTime tvEcho s ms := by
        simp [encBody, hset]
      rw [hbody, List.length_append, optBytes_length K hK tvTime tvEcho s m hcf]
      rcases hcf with rfl | rfl | rfl | rfl
      · simp only [List.mem_cons, true_or, if_true, n1, n2, n4, false_or] at ih ⊢
        rw [if_neg hm_notin] at ih; omega
      · simp only [List.mem_cons, true_or, if_true, n1, n1.symm, n3, n5, false_or,
          if_false] at ih ⊢
        rw [if_neg hm_notin] at ih; omega
      · simp only [List.mem_cons, true_or, if_true, n2, n2.symm, n3, n3.symm, n6, false_or,
          if_false] at ih ⊢
        rw [if_neg hm_notin] at ih; omega
      · simp only [List.mem_cons, true_or, if_true, n4, n4.symm, n5, n5.symm, n6, n6.symm,
          false_or, if_false] at ih ⊢
        rw [if_neg hm_notin] at ih; omega
    · have hbody : encBody K tvTime tvEcho s (m :: ms) = encBody K tvTime tvEcho s ms := by
        simp [encBody, hset]
      rw [hbody]
      refine le_trans ih ?_
      simp only [List.mem_cons]
      have mono : ∀ (f : Nat) (c : Nat), (if f ∈ ms then c else 0) ≤ (if f = m ∨ f ∈ ms then c else 0) := by
        intro f c
        by_cases h : f ∈ ms <;> simp [h]
      have := mono K.UOF_MSS 4
      have := mono K.UOF_TIME 10
      have := mono K.UOF_ECHOREQ 6
      have := mono K.UOF_ECHORES 6
      omega

theorem wireBody_length_le (K : OptConsts) (hK : K.WF) (tvTime tvEcho : timeval) (s : udpopt)
    (hw : s.uo_flags &&& K.codecFlags = s.uo_flags) :
    (wireBody K tvTime tvEcho s).length ≤ 26 := by
  obtain ⟨-, h2, -, h4⟩ := maskList_spec K hK
  have := encBody_length_le K hK tvTime tvEcho s hw (maskList K) h4 h2
  unfold wireBody
  refine le_trans this ?_
  split_ifs <;> omega

theorem udp_optlen_eq (K : OptConsts) (hK : K.WF) (tvTime tvEcho : timeval) (s : udpopt)
    (hw : s.uo_flags &&& K.codecFlags = s.uo_flags) :
    udp_optlen K s = .ok (3 + (wireBody K tvTime tvEcho s).length) := by
  obtain ⟨h1, h2, -, -⟩ := maskList_spec K hK
  have hb := wireBody_length_le K hK tvTime tvEcho s hw
  unfold udp_optlen
  rw [udp_optlen_loop_eq, h1]
  simp only
  rw [udp_optlen_over_eq K hK tvTime tvEcho s hw (maskList K) h2 3 (by unfold wireBody at hb; omega)]
  rfl

theorem udp_addoptions_eq (K : OptConsts) (hK : K.WF) (tvTime tvEcho : timeval) (s : udpopt)
    (hw : s.uo_flags &&& K.codecFlags = s.uo_flags) :
    ∃ uo', udp_addoptions K tvTime tvEcho s (3 + (wireBody K tvTime tvEcho s).length) =
      .ok { uo := uo', cp := wire K tvTime tvEcho s,
            ret := 3 + (wireBody K tvTime tvEcho s).length } := by
  obtain ⟨h1, h2, -, h4⟩ := maskList_spec K hK
  obtain ⟨o1, o2, o3, o4, o5, o6, o7⟩ := OptConsts.WF.opcode_lt K hK
  obtain ⟨l1, l2, l3, l4, l5⟩ := OptConsts.WF.lens K hK
  have hb := wireBody_length_le K hK tvTime tvEcho s hw
  set n := (wireBody K tvTime tvEcho s).length with hn
  set nop := K.UDPOPT_NOP % 256 with hnop
  have hrep : List.replicate (3 + n) nop = (nop :: nop :: List.replicate n nop) ++ [nop] := by
    rw [show 3 + n = (n + 2) + 1 by omega, List.replicate_succ', List.replicate_succ,
      List.replicate_succ]
  have hw1 : wr (List.replicate (3 + n) nop) (((3 + n : Nat) : Int) - 1) K.UDPOPT_EOL =
      .ok ((nop :: nop :: List.replicate n nop) ++ [K.UDPOPT_EOL]) := by
    rw [hrep]
    have := wr_mid (nop :: nop :: List.replicate n nop) nop [] K.UDPOPT_EOL
    rw [Nat.mod_eq_of_lt o1] at this
    rw [← this]
    congr 1
    simp; omega
  have hw2 : wr ((nop :: nop :: List.replicate n nop) ++ [K.UDPOPT_EOL]) 1 0 =
      .ok ((nop :: 0 :: List.replicate n nop) ++ [K.UDPOPT_EOL]) := by
    have := wr_mid [nop] nop (List.replicate n nop ++ [K.UDPOPT_EOL]) 0
    simpa using this
  have hw3 : wr ((nop :: 0 :: List.replicate n nop) ++ [K.UDPOPT_EOL]) 0 K.UDPOPT_OCS =
      .ok ((K.UDPOPT_OCS :: 0 :: List.replicate n nop) ++ [K.UDPOPT_EOL]) := by
    have := wr_mid [] nop (0 :: List.replicate n nop ++ [K.UDPOPT_EOL]) K.UDPOPT_OCS
    rw [Nat.mod_eq_of_lt o3] at this
    simpa using this
  obtain ⟨st', hs1, hs2, hs3⟩ := udp_addoptions_over_eq K hK tvTime tvEcho s hw (3 + n)
    K.UDPOPT_EOL (maskList K) h4 h2
    { uo := s, cp := (K.UDPOPT_OCS :: 0 :: List.replicate n nop) ++ [K.UDPOPT_EOL],
      optp := K.UDPOLEN_OCS, optlen := K.UDPOLEN_OCS % 4294967296 }
    [K.UDPOPT_OCS, 0] (List.replicate n nop) rfl rfl rfl rfl (fun _ => rfl) (by simp)
    (by simp [hn, wireBody]) (by simp [l1]) (by simp [l1]) (by simp; omega) (by omega)
  have hw4 : wr st'.cp (st'.optlen : Int) K.UDPOPT_EOL = .ok st'.cp := by
    rw [hs2, hs3]
    have := wr_mid ([K.UDPOPT_OCS, 0] ++ encBody K tvTime tvEcho s (maskList K)) K.UDPOPT_EOL []
      K.UDPOPT_EOL
    rw [Nat.mod_eq_of_lt o1] at this
    rw [← this]
    congr 2
    simp [hn, wireBody]; omega
  have hlen' : st'.cp.length = 3 + n := by
    rw [hs2]; simp [hn, wireBody]; omega
  have hol : (st'.optlen + 1) % 4294967296 = 3 + n := by
    rw [hs3]; simp; omega
  have hw5 : wr st'.cp 1 (udp_optcksum st'.cp (3 + n)) = .ok (wire K tvTime tvEcho s) := by
    rw [hs2]
    have := wr_mid [K.UDPOPT_OCS] 0 (encBody K tvTime tvEcho s (maskList K) ++ [K.UDPOPT_EOL])
      (udp_optcksum ([K.UDPOPT_OCS, 0] ++ encBody K tvTime tvEcho s (maskList K) ++
        [K.UDPOPT_EOL]) (3 + n))
    rw [Nat.mod_eq_of_lt (udp_optcksum_lt _ _)] at this
    simp only [List.length_singleton, Nat.cast_one, List.singleton_append] at this
    simp only [List.cons_append, List.nil_append, List.append_assoc] at this ⊢
    rw [this]
    unfold wire wireRaw wireBody
    rw [show (encBody K tvTime tvEcho s (maskList K)).length.succ.succ.succ = 3 + n by
      simp [hn, wireBody]; omega]
  refine ⟨st'.uo, ?_⟩
  unfold udp_addoptions
  simp only [bind, Except.bind, ← hnop, hw1, hw2, hw3, pure, Except.pure]
  rw [udp_addoptions_loop_eq K tvTime tvEcho (3 + n) 33 1 _ (maskList K) h1, hs1]
  simp only [hw4, hol, hlen', lt_irrefl, if_false, hw5]

theorem mem16_eq (K : OptConsts) (x : Nat) :
    ∃ b0 b1, mem16 K x = [b0, b1] ∧ val16 K b0 b1 = x % 65536 := by
  unfold mem16 val16
  by_cases h : K.bigEndian = true
  · exact ⟨_, _, by rw [if_pos h], by rw [if_pos h]; omega⟩
  · exact ⟨_, _, by rw [if_neg h], by rw [if_neg h]; omega⟩

theorem mem32_eq (K : OptConsts) (x : Nat) :
    ∃ b0 b1 b2 b3, mem32 K x = [b0, b1, b2, b3] ∧ val32 K b0 b1 b2 b3 = x % 4294967296 := by
  unfold mem32 val32
  by_cases h : K.bigEndian = true
  · exact ⟨_, _, _, _, by rw [if_pos h], by rw [if_pos h]; omega⟩
  · exact ⟨_, _, _, _, by rw [if_neg h], by rw [if_neg h]; omega⟩

theorem htons_lt (K : OptConsts) (x : Nat) : htons K x < 65536 := by
  unfold htons bswap16; split_ifs <;> omega

theorem htonl_lt (K : OptConsts) (x : Nat) : htonl K x < 4294967296 := by
  unfold htonl bswap32; split_ifs <;> omega

theorem bytes16 (b0 b1 : Nat) (h0 : b0 < 256) (h1 : b1 < 256) :
    (b0 * 256 + b1) % 256 = b1 ∧ (b0 * 256 + b1) / 256 % 256 = b0 := by
  constructor <;> omega

theorem bytes32 (b0 b1 b2 b3 : Nat) (h0 : b0 < 256) (h1 : b1 < 256) (h2 : b2 < 256)
    (h3 : b3 < 256) :
    (b0 * 16777216 + b1 * 65536 + b2 * 256 + b3) % 256 = b3 ∧
    (b0 * 16777216 + b1 * 65536 + b2 * 256 + b3) / 256 % 256 = b2 ∧
    (b0 * 16777216 + b1 * 65536 + b2 * 256 + b3) / 65536 % 256 = b1 ∧
    (b0 * 16777216 + b1 * 65536 + b2 * 256 + b3) / 16777216 % 256 = b0 := by
  refine ⟨?_, ?_, ?_, ?_⟩ <;> omega

theorem bswap16_bswap16 (x : Nat) : bswap16 (bswap16 x) = x % 65536 := by
  have h := bytes16 (x % 256) (x / 256 % 256) (Nat.mod_lt _ (by norm_num))
    (Nat.mod_lt _ (by norm_num))
  unfold bswap16
  rw [h.1, h.2]
  clear h
  omega

theorem bswap32_bswap32 (x : Nat) : bswap32 (bswap32 x) = x % 4294967296 := by
  have h := bytes32 (x % 256) (x / 256 % 256) (x / 65536 % 256) (x / 16777216 % 256)
    (Nat.mod_lt _ (by norm_num)) (Nat.mod_lt _ (by norm_num)) (Nat.mod_lt _ (by norm_num))
    (Nat.mod_lt _ (by norm_num))
  unfold bswap32
  rw [h.1, h.2.1, h.2.2.1, h.2.2.2]
  clear h
  have d1 : x / 65536 = x / 256 / 256 := by rw [Nat.div_div_eq_div_mul]
  have d2 : x / 16777216 = x / 256 / 256 / 256 := by
    rw [Nat.div_div_eq_div_mul, Nat.div_div_eq_div_mul]
  have d3 : x / 4294967296 = x / 256 / 256 / 256 / 256 := by
    rw [Nat.div_div_eq_div_mul, Nat.div_div_eq_div_mul, Nat.div_div_eq_div_mul]
  rw [d1, d2]
  omega

theorem bswap32_mod (x : Nat) : bswap32 (x % 4294967296) = bswap32 x := by
  unfold bswap32
  have e1 : x % 4294967296 % 256 = x % 256 := by omega
  have e2 : x % 4294967296 / 256 % 256 = x / 256 % 256 := by omega
  have e3 : x % 4294967296 / 65536 % 256 = x / 65536 % 256 := by omega
  have e4 : x % 4294967296 / 16777216 % 256 = x / 16777216 % 256 := by omega
  rw [e1, e2, e3, e4]

theorem ntohs_htons (K : OptConsts) (x : Nat) : ntohs K (htons K x) = x % 65536 := by
  unfold ntohs htons
  split_ifs
  · omega
  · exact bswap16_bswap16 x

theorem ntohl_htonl (K : OptConsts) (x : Nat) : ntohl K (htonl K x) = x % 4294967296 := by
  unfold ntohl htonl
  split_ifs
  · omega
  · exact bswap32_bswap32 x

theorem ntohl_mod (K : OptConsts) (x : Nat) : ntohl K (x % 4294967296) = ntohl K x := by
  unfold ntohl
  split_ifs
  · omega
  · exact bswap32_mod x

theorem udp_ts_getticks_lt (tv : timeval) : udp_ts_getticks tv < 4294967296 := by
  unfold udp_ts_getticks; omega

theorem OptConsts.WF.opcode_ne (K : OptConsts) (h : K.WF) :
    K.UDPOPT_OCS ≠ K.UDPOPT_EOL ∧ K.UDPOPT_OCS ≠ K.UDPOPT_NOP ∧
    K.UDPOPT_MSS ≠ K.UDPOPT_EOL ∧ K.UDPOPT_MSS ≠ K.UDPOPT_NOP ∧ K.UDPOPT_MSS ≠ K.UDPOPT_OCS ∧
    K.UDPOPT_TIME ≠ K.UDPOPT_EOL ∧ K.UDPOPT_TIME ≠ K.UDPOPT_NOP ∧
    K.UDPOPT_TIME ≠ K.UDPOPT_OCS ∧ K.UDPOPT_TIME ≠ K.UDPOPT_MSS ∧
    K.UDPOPT_ECHOREQ ≠ K.UDPOPT_EOL ∧ K.UDPOPT_ECHOREQ ≠ K.UDPOPT_NOP ∧
    K.UDPOPT_ECHOREQ ≠ K.UDPOPT_OCS ∧ K.UDPOPT_ECHOREQ ≠ K.UDPOPT_MSS ∧
    K.UDPOPT_ECHOREQ ≠ K.UDPOPT_TIME ∧
    K.UDPOPT_ECHORES ≠ K.UDPOPT_EOL ∧ K.UDPOPT_ECHORES ≠ K.UDPOPT_NOP ∧
    K.UDPOPT_ECHORES ≠ K.UDPOPT_OCS ∧ K.UDPOPT_ECHORES ≠ K.UDPOPT_MSS ∧
    K.UDPOPT_ECHORES ≠ K.UDPOPT_TIME ∧ K.UDPOPT_ECHORES ≠ K.UDPOPT_ECHOREQ ∧
    K.UDPOPT_NOP ≠ K.UDPOPT_EOL := by
  obtain ⟨hf, -⟩ := h
  simp only [OptConsts.opcodes, List.nodup_cons, List.mem_cons, List.mem_singleton, not_or,
    List.not_mem_nil, not_false_eq_true, List.nodup_nil, and_true] at hf
  obtain ⟨⟨a1, a2, a3, a4, a5, a6⟩, ⟨b2, b3, b4, b5, b6⟩, ⟨c3, c4, c5, c6⟩,
    ⟨d4, d5, d6⟩, ⟨e5, e6⟩, f6⟩ := hf
  refine ⟨?_, ?_, ?_, ?_, ?_, ?_, ?_, ?_, ?_, ?_, ?_, ?_, ?_, ?_, ?_, ?_, ?_, ?_, ?_, ?_, ?_⟩ <;>
    first | assumption | (apply Ne.symm; assumption)

/-- A read below the count, inside the list, returns the byte. -/
theorem rd_ok (cp : List Nat) (cnt : Int) (j : Nat) (b : Nat) (h : (j : Int) < cnt)
    (hb : cp[j]? = some b) : rd cp cnt j = .ok b := by
  simp [rd, h, hb]

theorem dooptions_step_mss (K : OptConsts) (hK : K.WF) (tvTime tvEcho tv : timeval)
    (s uo : udpopt) (fuel : Nat) (rest : List Nat) :
    udp_dooptions_loop K tv (fuel + 1) uo (optBytes K tvTime tvEcho s K.UOF_MSS ++ rest)
        (((optBytes K tvTime tvEcho s K.UOF_MSS).length + rest.length : Nat) : Int) =
      udp_dooptions_loop K tv fuel (decOpt K tvTime tvEcho tv s uo K.UOF_MSS) rest
        (rest.length : Int) := by
  obtain ⟨-, -, p1, p2, p3, -⟩ := OptConsts.WF.opcode_ne K hK
  obtain ⟨l1, l2, l3, l4, l5⟩ := OptConsts.WF.lens K hK
  obtain ⟨b0, b1, hb, hv⟩ := mem16_eq K (htons K s.uo_mss)
  have hopt : optBytes K tvTime tvEcho s K.UOF_MSS = [K.UDPOPT_MSS, 4, b0, b1] := by
    simp [optBytes, hb, l2]
  rw [hopt]
  have hc : (0 : Int) < (([K.UDPOPT_MSS, 4, b0, b1].length + rest.length : Nat) : Int) := by
    simp; omega
  simp only [List.cons_append, List.nil_append, List.length_cons, List.length_nil] at hc ⊢
  rw [udp_dooptions_loop]
  have r0 : rd (K.UDPOPT_MSS :: 4 :: b0 :: b1 :: rest) (↑(0 + 1 + 1 + 1 + 1 + rest.length)) 0
      = .ok K.UDPOPT_MSS := rd_ok _ _ _ _ (by push_cast; omega) (by simp)
  have r1 : rd (K.UDPOPT_MSS :: 4 :: b0 :: b1 :: rest) (↑(0 + 1 + 1 + 1 + 1 + rest.length)) 1
      = .ok 4 := rd_ok _ _ _ _ (by push_cast; omega) (by simp)
  have r2 : rd (K.UDPOPT_MSS :: 4 :: b0 :: b1 :: rest) (↑(0 + 1 + 1 + 1 + 1 + rest.length)) 2
      = .ok b0 := rd_ok _ _ _ _ (by push_cast; omega) (by simp)
  have r3 : rd (K.UDPOPT_MSS :: 4 :: b0 :: b1 :: rest) (↑(0 + 1 + 1 + 1 + 1 + rest.length)) 3
      = .ok b1 := rd_ok _ _ _ _ (by push_cast; omega) (by simp)
  have g1 : ¬ ((↑(0 + 1 + 1 + 1 + 1 + rest.length) : Int) < 2) := by push_cast; omega
  have g2 : ¬ ((4 : Nat) < 2 ∨ ((4 : Nat) : Int) > (↑(0 + 1 + 1 + 1 + 1 + rest.length) : Int)) := by
    rintro (h | h)
    · omega
    · push_cast at h; omega
  simp only [gt_iff_lt, hc, if_true, r0, r1, r2, r3, bind, Except.bind, p1, p2, p3, if_false, g1,
    udp_dooptions_switch, pure, Except.pure, hv, Nat.mod_eq_of_lt (htons_lt K _), ntohs_htons]
  rw [if_neg (by simp)]
  simp only [List.drop_succ_cons, List.drop_zero]
  congr 1
  · simp [decOpt, Nat.mod_mod]
  · push_cast; omega

theorem dooptions_step_time (K : OptConsts) (hK : K.WF) (tvTime tvEcho tv : timeval)
    (s uo : udpopt) (fuel : Nat) (rest : List Nat) :
    udp_dooptions_loop K tv (fuel + 1) uo (optBytes K tvTime tvEcho s K.UOF_TIME ++ rest)
        (((optBytes K tvTime tvEcho s K.UOF_TIME).length + rest.length : Nat) : Int) =
      udp_dooptions_loop K tv fuel (decOpt K tvTime tvEcho tv s uo K.UOF_TIME) rest
        (rest.length : Int) := by
  obtain ⟨-, -, -, -, -, p1, p2, p3, p4, -⟩ := OptConsts.WF.opcode_ne K hK
  obtain ⟨l1, l2, l3, l4, l5⟩ := OptConsts.WF.lens K hK
  obtain ⟨n1, -⟩ := OptConsts.WF.flags_ne K hK
  obtain ⟨a0, a1, a2, a3, ha, hva⟩ := mem32_eq K (htonl K (udp_ts_getticks tvTime))
  obtain ⟨c0, c1, c2, c3, hcb, hvc⟩ := mem32_eq K (htonl K s.uo_tsecr)
  have hopt : optBytes K tvTime tvEcho s K.UOF_TIME =
      [K.UDPOPT_TIME, 10, a0, a1, a2, a3, c0, c1, c2, c3] := by
    simp [optBytes, ha, hcb, l3, n1]
  rw [hopt]
  simp only [List.cons_append, List.nil_append, List.length_cons, List.length_nil]
  generalize hcnt : (↑(0 + 1 + 1 + 1 + 1 + 1 + 1 + 1 + 1 + 1 + 1 + rest.length) : Int) = cnt
  have hcv : cnt = 10 + (rest.length : Int) := by rw [← hcnt]; push_cast; omega
  have hc : (0 : Int) < cnt := by omega
  rw [udp_dooptions_loop]
  have r0 : rd (K.UDPOPT_TIME :: 10 :: a0 :: a1 :: a2 :: a3 :: c0 :: c1 :: c2 :: c3 :: rest) cnt 0
      = .ok K.UDPOPT_TIME := rd_ok _ _ _ _ (by push_cast; omega) (by simp)
  have r1 : rd (K.UDPOPT_TIME :: 10 :: a0 :: a1 :: a2 :: a3 :: c0 :: c1 :: c2 :: c3 :: rest) cnt 1
      = .ok 10 := rd_ok _ _ _ _ (by push_cast; omega) (by simp)
  have r2 : rd (K.UDPOPT_TIME :: 10 :: a0 :: a1 :: a2 :: a3 :: c0 :: c1 :: c2 :: c3 :: rest) cnt 2
      = .ok a0 := rd_ok _ _ _ _ (by push_cast; omega) (by simp)
  have r3 : rd (K.UDPOPT_TIME :: 10 :: a0 :: a1 :: a2 :: a3 :: c0 :: c1 :: c2 :: c3 :: rest) cnt 3
      = .ok a1 := rd_ok _ _ _ _ (by push_cast; omega) (by simp)
  have r4 : rd (K.UDPOPT_TIME :: 10 :: a0 :: a1 :: a2 :: a3 :: c0 :: c1 :: c2 :: c3 :: rest) cnt 4
      = .ok a2 := rd_ok _ _ _ _ (by push_cast; omega) (by simp)
  have r5 : rd (K.UDPOPT_TIME :: 10 :: a0 :: a1 :: a2 :: a3 :: c0 :: c1 :: c2 :: c3 :: rest) cnt 5
      = .ok a3 := rd_ok _ _ _ _ (by push_cast; omega) (by simp)
  have r6 : rd (K.UDPOPT_TIME :: 10 :: a0 :: a1 :: a2 :: a3 :: c0 :: c1 :: c2 :: c3 :: rest) cnt 6
      = .ok c0 := rd_ok _ _ _ _ (by push_cast; omega) (by simp)
  have r7 : rd (K.UDPOPT_TIME :: 10 :: a0 :: a1 :: a2 :: a3 :: c0 :: c1 :: c2 :: c3 :: rest) cnt 7
      = .ok c1 := rd_ok _ _ _ _ (by push_cast; omega) (by simp)
  have r8 : rd (K.UDPOPT_TIME :: 10 :: a0 :: a1 :: a2 :: a3 :: c0 :: c1 :: c2 :: c3 :: rest) cnt 8
      = .ok c2 := rd_ok _ _ _ _ (by push_cast; omega) (by simp)
  have r9 : rd (K.UDPOPT_TIME :: 10 :: a0 :: a1 :: a2 :: a3 :: c0 :: c1 :: c2 :: c3 :: rest) cnt 9
      = .ok c3 := rd_ok _ _ _ _ (by push_cast; omega) (by simp)
  have g1 : ¬ (cnt < 2) := by omega
  have g2 : ¬ ((10 : Nat) < 2 ∨ ((10 : Nat) : Int) > cnt) := by
    rintro (h | h)
    · omega
    · push_cast at h; omega
  simp only [gt_iff_lt, hc, if_true, r0, r1, r2, r3, r4, r5, r6, r7, r8, r9, bind, Except.bind,
    p1, p2, p3, p4, if_false, g1, g2, udp_dooptions_switch, pure, Except.pure, hva, hvc, l3,
    ne_eq, not_true_eq_false, Nat.mod_eq_of_lt (htonl_lt K _), ntohl_htonl,
    Nat.mod_eq_of_lt (udp_ts_getticks_lt _)]
  simp only [List.drop_succ_cons, List.drop_zero]
  have e : cnt - ((10 : Nat) : Int) = (rest.length : Int) := by push_cast; omega
  rw [e]
  simp only [decOpt, n1, if_false, if_true, ne_eq]
  split_ifs <;> rfl

theorem dooptions_step_echoreq (K : OptConsts) (hK : K.WF) (tvTime tvEcho tv : timeval)
    (s uo : udpopt) (fuel : Nat) (rest : List Nat) :
    udp_dooptions_loop K tv (fuel + 1) uo (optBytes K tvTime tvEcho s K.UOF_ECHOREQ ++ rest)
        (((optBytes K tvTime tvEcho s K.UOF_ECHOREQ).length + rest.length : Nat) : Int) =
      udp_dooptions_loop K tv fuel (decOpt K tvTime tvEcho tv s uo K.UOF_ECHOREQ) rest
        (rest.length : Int) := by
  obtain ⟨-, -, -, -, -, -, -, -, -, p1, p2, p3, p4, p5, -⟩ := OptConsts.WF.opcode_ne K hK
  obtain ⟨l1, l2, l3, l4, l5⟩ := OptConsts.WF.lens K hK
  obtain ⟨-, n2, n3, -⟩ := OptConsts.WF.flags_ne K hK
  obtain ⟨a0, a1, a2, a3, ha, hva⟩ := mem32_eq K
    (if s.uo_plpmtud_token ≠ 0 then s.uo_plpmtud_token else udp_ts_getticks tvEcho)
  have hopt : optBytes K tvTime tvEcho s K.UOF_ECHOREQ =
      [K.UDPOPT_ECHOREQ, 6, a0, a1, a2, a3] := by
    simp only [optBytes, n2, n3, if_false, if_true, ha, l4]; rfl
  rw [hopt]
  simp only [List.cons_append, List.nil_append, List.length_cons, List.length_nil]
  generalize hcnt : (↑(0 + 1 + 1 + 1 + 1 + 1 + 1 + rest.length) : Int) = cnt
  have hcv : cnt = 6 + (rest.length : Int) := by rw [← hcnt]; push_cast; omega
  have hc : (0 : Int) < cnt := by omega
  rw [udp_dooptions_loop]
  have r0 : rd (K.UDPOPT_ECHOREQ :: 6 :: a0 :: a1 :: a2 :: a3 :: rest) cnt 0
      = .ok K.UDPOPT_ECHOREQ := rd_ok _ _ _ _ (by push_cast; omega) (by simp)
  have r1 : rd (K.UDPOPT_ECHOREQ :: 6 :: a0 :: a1 :: a2 :: a3 :: rest) cnt 1
      = .ok 6 := rd_ok _ _ _ _ (by push_cast; omega) (by simp)
  have r2 : rd (K.UDPOPT_ECHOREQ :: 6 :: a0 :: a1 :: a2 :: a3 :: rest) cnt 2
      = .ok a0 := rd_ok _ _ _ _ (by push_cast; omega) (by simp)
  have r3 : rd (K.UDPOPT_ECHOREQ :: 6 :: a0 :: a1 :: a2 :: a3 :: rest) cnt 3
      = .ok a1 := rd_ok _ _ _ _ (by push_cast; omega) (by simp)
  have r4 : rd (K.UDPOPT_ECHOREQ :: 6 :: a0 :: a1 :: a2 :: a3 :: rest) cnt 4
      = .ok a2 := rd_ok _ _ _ _ (by push_cast; omega) (by simp)
  have r5 : rd (K.UDPOPT_ECHOREQ :: 6 :: a0 :: a1 :: a2 :: a3 :: rest) cnt 5
      = .ok a3 := rd_ok _ _ _ _ (by push_cast; omega) (by simp)
  have g1 : ¬ (cnt < 2) := by omega
  have g2 : ¬ ((6 : Nat) < 2 ∨ ((6 : Nat) : Int) > cnt) := by
    rintro (h | h)
    · omega
    · push_cast at h; omega
  simp only [gt_iff_lt, hc, if_true, r0, r1, r2, r3, r4, r5, bind, Except.bind,
    p1, p2, p3, p4, p5, if_false, g1, g2, udp_dooptions_switch, pure, Except.pure, hva, l4,
    ne_eq, not_true_eq_false, ntohl_mod]
  simp only [List.drop_succ_cons, List.drop_zero]
  have e : cnt - ((6 : Nat) : Int) = (rest.length : Int) := by push_cast; omega
  rw [e]
  congr 1
  simp only [decOpt, n2, n3, if_false, if_true, ne_eq]

theorem dooptions_step_echores (K : OptConsts) (hK : K.WF) (tvTime tvEcho tv : timeval)
    (s uo : udpopt) (fuel : Nat) (rest : List Nat) :
    udp_dooptions_loop K tv (fuel + 1) uo (optBytes K tvTime tvEcho s K.UOF_ECHORES ++ rest)
        (((optBytes K tvTime tvEcho s K.UOF_ECHORES).length + rest.length : Nat) : Int) =
      udp_dooptions_loop K tv fuel (decOpt K tvTime tvEcho tv s uo K.UOF_ECHORES) rest
        (rest.length : Int) := by
  obtain ⟨-, -, -, -, -, -, -, -, -, -, -, -, -, -, p1, p2, p3, p4, p5, p6, -⟩ :=
    OptConsts.WF.opcode_ne K hK
  obtain ⟨l1, l2, l3, l4, l5⟩ := OptConsts.WF.lens K hK
  obtain ⟨-, -, -, n4, n5, n6, -⟩ := OptConsts.WF.flags_ne K hK
  obtain ⟨a0, a1, a2, a3, ha, hva⟩ := mem32_eq K s.uo_echores
  have hopt : optBytes K tvTime tvEcho s K.UOF_ECHORES =
      [K.UDPOPT_ECHORES, 6, a0, a1, a2, a3] := by
    simp only [optBytes, n4, n5, n6, if_false, if_true, ha, l5]; rfl
  rw [hopt]
  simp only [List.cons_append, List.nil_append, List.length_cons, List.length_nil]
  generalize hcnt : (↑(0 + 1 + 1 + 1 + 1 + 1 + 1 + rest.length) : Int) = cnt
  have hcv : cnt = 6 + (rest.length : Int) := by rw [← hcnt]; push_cast; omega
  have hc : (0 : Int) < cnt := by omega
  rw [udp_dooptions_loop]
  have r0 : rd (K.UDPOPT_ECHORES :: 6 :: a0 :: a1 :: a2 :: a3 :: rest) cnt 0
      = .ok K.UDPOPT_ECHORES := rd_ok _ _ _ _ (by push_cast; omega) (by simp)
  have r1 : rd (K.UDPOPT_ECHORES :: 6 :: a0 :: a1 :: a2 :: a3 :: rest) cnt 1
      = .ok 6 := rd_ok _ _ _ _ (by push_cast; omega) (by simp)
  have r2 : rd (K.UDPOPT_ECHORES :: 6 :: a0 :: a1 :: a2 :: a3 :: rest) cnt 2
      = .ok a0 := rd_ok _ _ _ _ (by push_cast; omega) (by simp)
  have r3 : rd (K.UDPOPT_ECHORES :: 6 :: a0 :: a1 :: a2 :: a3 :: rest) cnt 3
      = .ok a1 := rd_ok _ _ _ _ (by push_cast; omega) (by simp)
  have r4 : rd (K.UDPOPT_ECHORES :: 6 :: a0 :: a1 :: a2 :: a3 :: rest) cnt 4
      = .ok a2 := rd_ok _ _ _ _ (by push_cast; omega) (by simp)
  have r5 : rd (K.UDPOPT_ECHORES :: 6 :: a0 :: a1 :: a2 :: a3 :: rest) cnt 5
      = .ok a3 := rd_ok _ _ _ _ (by push_cast; omega) (by simp)
  have g1 : ¬ (cnt < 2) := by omega
  have g2 : ¬ ((6 : Nat) < 2 ∨ ((6 : Nat) : Int) > cnt) := by
    rintro (h | h)
    · omega
    · push_cast at h; omega
  simp only [gt_iff_lt, hc, if_true, r0, r1, r2, r3, r4, r5, bind, Except.bind,
    p1, p2, p3, p4, p5, p6, if_false, g1, g2, udp_dooptions_switch, pure, Except.pure, hva, l5,
    ne_eq, not_true_eq_false, ntohl_mod]
  simp only [List.drop_succ_cons, List.drop_zero]
  have e : cnt - ((6 : Nat) : Int) = (rest.length : Int) := by push_cast; omega
  rw [e]
  congr 1
  simp only [decOpt, n4, n5, n6, if_false, if_true, ne_eq]

theorem dooptions_step (K : OptConsts) (hK : K.WF) (tvTime tvEcho tv : timeval)
    (s uo : udpopt) (fuel : Nat) (rest : List Nat) (m : Nat) (hm : K.isCodecFlag m) :
    udp_dooptions_loop K tv (fuel + 1) uo (optBytes K tvTime tvEcho s m ++ rest)
        (((optBytes K tvTime tvEcho s m).length + rest.length : Nat) : Int) =
      udp_dooptions_loop K tv fuel (decOpt K tvTime tvEcho tv s uo m) rest
        (rest.length : Int) := by
  rcases hm with rfl | rfl | rfl | rfl
  · exact dooptions_step_mss K hK tvTime tvEcho tv s uo fuel rest
  · exact dooptions_step_time K hK tvTime tvEcho tv s uo fuel rest
  · exact dooptions_step_echoreq K hK tvTime tvEcho tv s uo fuel rest
  · exact dooptions_step_echores K hK tvTime tvEcho tv s uo fuel rest

theorem dooptions_body (K : OptConsts) (hK : K.WF) (tvTime tvEcho tv : timeval) (s : udpopt)
    (hw : s.uo_flags &&& K.codecFlags = s.uo_flags) :
    ∀ (ms : List Nat), (∀ m ∈ ms, ∃ j, m = 2 ^ j) → ∀ (uo : udpopt) (fuel : Nat) (rest : List Nat),
      udp_dooptions_loop K tv (fuel + setCount s.uo_flags ms) uo
          (encBody K tvTime tvEcho s ms ++ rest)
          (((encBody K tvTime tvEcho s ms).length + rest.length : Nat) : Int) =
        udp_dooptions_loop K tv fuel (decBody K tvTime tvEcho tv s ms uo) rest
          (rest.length : Int) := by
  intro ms
  induction ms with
  | nil => intro _ uo fuel rest; simp [encBody, decBody, setCount]
  | cons m ms ih =>
    intro hpow uo fuel rest
    obtain ⟨j, hj⟩ := hpow m (List.mem_cons_self _ _)
    have hpow' : ∀ m' ∈ ms, ∃ j, m' = 2 ^ j := fun m' h' => hpow m' (List.mem_cons_of_mem _ h')
    by_cases hset : s.uo_flags &&& m = m
    · have hcf : K.isCodecFlag m := by rw [hj] at hset ⊢; exact codec_of_within K hK _ j hw hset
      simp only [encBody, decBody, setCount, hset, if_true, List.append_assoc,
        List.length_append]
      have := dooptions_step K hK tvTime tvEcho tv s uo (fuel + setCount s.uo_flags ms)
        (encBody K tvTime tvEcho s ms ++ rest) m hcf
      rw [List.length_append, ← Nat.add_assoc] at this
      rw [← Nat.add_assoc fuel, this]
      exact ih hpow' _ fuel rest
    · simp only [encBody, decBody, setCount, hset, if_false]
      exact ih hpow' uo fuel rest

theorem setCount_le (K : OptConsts) (hK : K.WF) (tvTime tvEcho : timeval) (s : udpopt)
    (hw : s.uo_flags &&& K.codecFlags = s.uo_flags) :
    ∀ (ms : List Nat), (∀ m ∈ ms, ∃ j, m = 2 ^ j) →
      setCount s.uo_flags ms ≤ (encBody K tvTime tvEcho s ms).length := by
  intro ms
  induction ms with
  | nil => intro _; simp [setCount]
  | cons m ms ih =>
    intro hpow
    obtain ⟨j, hj⟩ := hpow m (List.mem_cons_self _ _)
    have hpow' : ∀ m' ∈ ms, ∃ j, m' = 2 ^ j := fun m' h' => hpow m' (List.mem_cons_of_mem _ h')
    have ih := ih hpow'
    by_cases hset : s.uo_flags &&& m = m
    · have hcf : K.isCodecFlag m := by rw [hj] at hset ⊢; exact codec_of_within K hK _ j hw hset
      have hl := optBytes_length K hK tvTime tvEcho s m hcf
      simp only [encBody, setCount, hset, if_true, List.length_append, hl]
      split_ifs <;> omega
    · simp only [encBody, setCount, hset, if_false]
      exact ih

theorem sum_le_of_bytes (l : List Nat) (h : ∀ b ∈ l, b < 256) : l.sum ≤ 255 * l.length := by
  induction l with
  | nil => simp
  | cons b l ih =>
    have hb := h b (List.mem_cons_self _ _)
    have := ih (fun x hx => h x (List.mem_cons_of_mem _ hx))
    simp only [List.sum_cons, List.length_cons]
    omega

theorem bytes_of_map_mod (l : List Nat) (h : l.map (fun b => b % 256) = l) :
    ∀ b ∈ l, b < 256 := by
  intro b hb
  rw [← h] at hb
  obtain ⟨a, -, rfl⟩ := List.mem_map.1 hb
  exact Nat.mod_lt _ (by norm_num)

theorem encBody_bytes (K : OptConsts) (hK : K.WF) (tvTime tvEcho : timeval) (s : udpopt) :
    ∀ (ms : List Nat), ∀ b ∈ encBody K tvTime tvEcho s ms, b < 256 := by
  intro ms
  induction ms with
  | nil => intro b hb; simp [encBody] at hb
  | cons m ms ih =>
    intro b hb
    simp only [encBody] at hb
    split_ifs at hb
    · rcases List.mem_append.1 hb with h | h
      · exact bytes_of_map_mod _ (optBytes_mod K hK tvTime tvEcho s m) b h
      · exact ih b h
    · exact ih b hb

/-- Filling the placeholder with the checksum of the region makes the region
sum to zero in one's complement, as long as the 16-bit sum does not wrap. -/
theorem udp_optcksum_fill (a : Nat) (rest : List Nat) (h : a + rest.sum + 255 < 65536) :
    udp_optcksum (a :: udp_optcksum (a :: 0 :: rest) (rest.length + 2) :: rest)
      (rest.length + 2) = 0 := by
  rw [udp_optcksum_eq_zero_iff]
  have hck := udp_optcksum_eq (a :: 0 :: rest) (rest.length + 2)
  have t1 : (a :: 0 :: rest).take (rest.length + 2) = a :: 0 :: rest :=
    List.take_of_length_le (by simp)
  have t2 : ∀ c, (a :: c :: rest).take (rest.length + 2) = a :: c :: rest :=
    fun c => List.take_of_length_le (by simp)
  rw [t1] at hck
  rw [t2]
  simp only [List.sum_cons, Nat.zero_add] at hck ⊢
  generalize udp_optcksum (a :: 0 :: rest) (rest.length + 2) = ck at hck ⊢
  generalize rest.sum = r at h hck ⊢
  rw [Nat.mod_eq_of_lt (by omega : a + r < 65536)] at hck
  split_ifs at hck with h0
  · have : a + (ck + r) = 255 := by omega
    rw [this]; decide
  · have hlt : a + (ck + r) < 65536 := by omega
    rw [Nat.mod_eq_of_lt hlt]
    constructor
    · omega
    · omega

theorem wire_length (K : OptConsts) (tvTime tvEcho : timeval) (s : udpopt) :
    (wire K tvTime tvEcho s).length = 3 + (wireBody K tvTime tvEcho s).length := by
  simp [wire]; omega

theorem wire_cksum (K : OptConsts) (hK : K.WF) (tvTime tvEcho : timeval) (s : udpopt)
    (hw : s.uo_flags &&& K.codecFlags = s.uo_flags) :
    udp_optcksum (wire K tvTime tvEcho s) (3 + (wireBody K tvTime tvEcho s).length) = 0 := by
  obtain ⟨o1, o2, o3, -⟩ := OptConsts.WF.opcode_lt K hK
  have hb := wireBody_length_le K hK tvTime tvEcho s hw
  have hbytes : ∀ b ∈ wireBody K tvTime tvEcho s ++ [K.UDPOPT_EOL], b < 256 := by
    intro b hb
    rcases List.mem_append.1 hb with h | h
    · exact encBody_bytes K hK tvTime tvEcho s _ b h
    · simp at h; omega
  have hsum := sum_le_of_bytes _ hbytes
  have hl : (wireBody K tvTime tvEcho s ++ [K.UDPOPT_EOL]).length + 2 =
      3 + (wireBody K tvTime tvEcho s).length := by simp; omega
  have := udp_optcksum_fill K.UDPOPT_OCS (wireBody K tvTime tvEcho s ++ [K.UDPOPT_EOL])
    (by simp only [List.length_append, List.length_singleton] at hsum; omega)
  rw [hl] at this
  unfold wire wireRaw
  rw [show (wireBody K tvTime tvEcho s).length.succ.succ.succ =
    3 + (wireBody K tvTime tvEcho s).length by omega]
  exact this

theorem udp_dooptions_wire (K : OptConsts) (hK : K.WF) (tvTime tvEcho tv : timeval)
    (s uo : udpopt) (hw : s.uo_flags &&& K.codecFlags = s.uo_flags) :
    udp_dooptions K tv uo (wire K tvTime tvEcho s)
        ((3 + (wireBody K tvTime tvEcho s).length : Nat) : Int) =
      .ok (wireDecoded K tvTime tvEcho tv s uo) := by
  obtain ⟨h1, h2, -, h4⟩ := maskList_spec K hK
  obtain ⟨p1, p2, -, -, -, -, -, -, -, -, -, -, -, -, -, -, -, -, -, -, p3⟩ :=
    OptConsts.WF.opcode_ne K hK
  obtain ⟨l1, -⟩ := OptConsts.WF.lens K hK
  have hck := wire_cksum K hK tvTime tvEcho s hw
  have hlen := wire_length K tvTime tvEcho s
  have hcnt := setCount_le K hK tvTime tvEcho s hw (maskList K) h2
  set n := (wireBody K tvTime tvEcho s).length with hn
  unfold udp_dooptions
  rw [Int.toNat_ofNat, udp_dooptions_loop]
  have hc : (0 : Int) < ((3 + n : Nat) : Int) := by push_cast; omega
  have r0 : rd (wire K tvTime tvEcho s) ((3 + n : Nat) : Int) 0 = .ok K.UDPOPT_OCS :=
    rd_ok _ _ _ _ (by push_cast; omega) (by simp [wire])
  have r1 : rd (wire K tvTime tvEcho s) ((3 + n : Nat) : Int) 1 =
      .ok (udp_optcksum (wireRaw K tvTime tvEcho s) n.succ.succ.succ) :=
    rd_ok _ _ _ _ (by push_cast; omega) (by simp [wire, hn])
  have hnl : ¬ (((wire K tvTime tvEcho s).length : Int) < ((3 + n : Nat) : Int)) := by
    rw [hlen]; omega
  simp only [gt_iff_lt, hc, if_true, r0, r1, bind, Except.bind, p1, p2, if_false, hnl,
    Int.toNat_ofNat, hck, ne_eq, not_true_eq_false, l1]
  have hdrop : (wire K tvTime tvEcho s).drop 2 =
      encBody K tvTime tvEcho s (maskList K) ++ [K.UDPOPT_EOL] := by
    simp [wire, wireBody]
  have hfuel : 3 + n = (2 + n - setCount s.uo_flags (maskList K)) + 1 +
      setCount s.uo_flags (maskList K) := by
    unfold wireBody at hn; omega
  have hcnt2 : (((3 + n : Nat) : Int) - ((2 : Nat) : Int)) =
      (((encBody K tvTime tvEcho s (maskList K)).length + [K.UDPOPT_EOL].length : Nat) : Int) := by
    simp only [hn, wireBody, List.length_singleton]; push_cast; omega
  rw [hdrop, hcnt2, hfuel, dooptions_body K hK tvTime tvEcho tv s hw (maskList K) h2]
  rw [udp_dooptions_loop]
  have r2 : rd [K.UDPOPT_EOL] (([K.UDPOPT_EOL].length : Nat) : Int) 0 = .ok K.UDPOPT_EOL :=
    rd_ok _ _ _ _ (by simp) (by simp)
  simp only [gt_iff_lt, List.length_singleton, Nat.cast_one, zero_lt_one, if_true, bind,
    Except.bind, pure, Except.pure]
  simp only [List.length_singleton, Nat.cast_one] at r2
  rw [r2]
  simp only [if_true]
  rfl

theorem decBody_inv (K : OptConsts) (tvTime tvEcho tv : timeval) (s : udpopt)
    (Q : udpopt → Prop) (f : Nat)
    (hpres : ∀ uo m, m ≠ f → Q uo → Q (decOpt K tvTime tvEcho tv s uo m))
    (hest : ∀ uo, Q (decOpt K tvTime tvEcho tv s uo f)) :
    ∀ (ms : List Nat) (uo : udpopt), (f ∈ ms ∧ s.uo_flags &&& f = f) ∨ Q uo →
      Q (decBody K tvTime tvEcho tv s ms uo) := by
  intro ms
  induction ms with
  | nil =>
    intro uo h
    rcases h with ⟨h, -⟩ | h
    · simp at h
    · exact h
  | cons m ms ih =>
    intro uo h
    simp only [decBody]
    by_cases hset : s.uo_flags &&& m = m
    · rw [if_pos hset]
      apply ih
      by_cases hmf : m = f
      · right; rw [hmf]; exact hest uo
      · rcases h with ⟨h1, h2⟩ | h
        · rcases List.mem_cons.1 h1 with e | h1
          · exact absurd e.symm hmf
          · exact Or.inl ⟨h1, h2⟩
        · exact Or.inr (hpres uo m hmf h)
    · rw [if_neg hset]
      apply ih
      rcases h with ⟨h1, h2⟩ | h
      · rcases List.mem_cons.1 h1 with e | h1
        · exact absurd (e ▸ h2) hset
        · exact Or.inl ⟨h1, h2⟩
      · exact Or.inr h

theorem hasFlag_or_left (x y f : Nat) (h : hasFlag x f) : hasFlag (x ||| y) f := by
  unfold hasFlag at h ⊢
  apply Nat.eq_of_testBit_eq
  intro i
  have hi := congrArg (fun z => z.testBit i) h
  simp only [Nat.testBit_and, Nat.testBit_or] at hi ⊢
  cases hx : x.testBit i <;> cases hy : y.testBit i <;> cases hf : f.testBit i <;> simp_all

theorem hasFlag_or_right (x f : Nat) : hasFlag (x ||| f) f := by
  unfold hasFlag
  apply Nat.eq_of_testBit_eq
  intro i
  simp only [Nat.testBit_and, Nat.testBit_or]
  cases hx : x.testBit i <;> cases hf : f.testBit i <;> simp

theorem decOpt_flags (K : OptConsts) (tvTime tvEcho tv : timeval) (s uo : udpopt) (m f : Nat)
    (h : hasFlag uo.uo_flags f) : hasFlag (decOpt K tvTime tvEcho tv s uo m).uo_flags f := by
  unfold decOpt
  split_ifs <;> first | exact h | exact hasFlag_or_left _ _ _ h

theorem decBody_ocs (K : OptConsts) (tvTime tvEcho tv : timeval) (s : udpopt) (c : Nat) :
    ∀ (ms : List Nat) (uo : udpopt), hasFlag uo.uo_flags K.UOF_OCS ∧ uo.uo_ocs = c →
      hasFlag (decBody K tvTime tvEcho tv s ms uo).uo_flags K.UOF_OCS ∧
      (decBody K tvTime tvEcho tv s ms uo).uo_ocs = c := by
  intro ms
  induction ms with
  | nil => intro uo h; exact h
  | cons m ms ih =>
    intro uo h
    simp only [decBody]
    split_ifs
    · apply ih
      refine ⟨decOpt_flags K tvTime tvEcho tv s uo m _ h.1, ?_⟩
      rw [← h.2]; unfold decOpt; split_ifs <;> rfl
    · exact ih uo h

theorem decBody_mss (K : OptConsts) (hK : K.WF) (tvTime tvEcho tv : timeval) (s : udpopt)
    (ms : List Nat) (uo : udpopt) (hin : K.UOF_MSS ∈ ms) (hset : hasFlag s.uo_flags K.UOF_MSS) :
    hasFlag (decBody K tvTime tvEcho tv s ms uo).uo_flags K.UOF_MSS ∧
    (decBody K tvTime tvEcho tv s ms uo).uo_mss = s.uo_mss % 65536 := by
  obtain ⟨n1, n2, n3, n4, n5, n6, -⟩ := OptConsts.WF.flags_ne K hK
  refine decBody_inv K tvTime tvEcho tv s
    (fun uo => hasFlag uo.uo_flags K.UOF_MSS ∧ uo.uo_mss = s.uo_mss % 65536) K.UOF_MSS
    ?_ ?_ ms uo (Or.inl ⟨hin, hset⟩)
  · intro uo m hm h
    refine ⟨decOpt_flags K tvTime tvEcho tv s uo m _ h.1, ?_⟩
    rw [← h.2]; unfold decOpt; simp only [hm, if_false]; split_ifs <;> rfl
  · intro uo
    simp only [decOpt, if_true]
    exact ⟨hasFlag_or_right _ _, trivial⟩

theorem decBody_time (K : OptConsts) (hK : K.WF) (tvTime tvEcho tv : timeval) (s : udpopt)
    (ms : List Nat) (uo : udpopt) (hin : K.UOF_TIME ∈ ms)
    (hset : hasFlag s.uo_flags K.UOF_TIME) :
    hasFlag (decBody K tvTime tvEcho tv s ms uo).uo_flags K.UOF_TIME ∧
    (decBody K tvTime tvEcho tv s ms uo).uo_tsval = s.uo_tsecr % 4294967296 ∧
    (decBody K tvTime tvEcho tv s ms uo).uo_tsecr = udp_ts_getticks tvTime := by
  obtain ⟨n1, n2, n3, n4, n5, n6, -⟩ := OptConsts.WF.flags_ne K hK
  refine decBody_inv K tvTime tvEcho tv s
    (fun uo => hasFlag uo.uo_flags K.UOF_TIME ∧ uo.uo_tsval = s.uo_tsecr % 4294967296 ∧
      uo.uo_tsecr = udp_ts_getticks tvTime) K.UOF_TIME
    ?_ ?_ ms uo (Or.inl ⟨hin, hset⟩)
  · intro uo m hm h
    refine ⟨decOpt_flags K tvTime tvEcho tv s uo m _ h.1, ?_, ?_⟩
    · rw [← h.2.1]; unfold decOpt; simp only [hm, if_false]; split_ifs <;> rfl
    · rw [← h.2.2]; unfold decOpt; simp only [hm, if_false]; split_ifs <;> rfl
  · intro uo
    simp only [decOpt, n1, if_false, if_true]
    split_ifs <;> exact ⟨hasFlag_or_right _ _, rfl, rfl⟩

theorem decBody_echoreq (K : OptConsts) (hK : K.WF) (tvTime tvEcho tv : timeval) (s : udpopt)
    (ms : List Nat) (uo : udpopt) (hin : K.UOF_ECHOREQ ∈ ms)
    (hset : hasFlag s.uo_flags K.UOF_ECHOREQ) :
    hasFlag (decBody K tvTime tvEcho tv s ms uo).uo_flags K.UOF_ECHOREQ ∧
    (decBody K tvTime tvEcho tv s ms uo).uo_echoreq =
      ntohl K (if s.uo_plpmtud_token ≠ 0 then s.uo_plpmtud_token
               else udp_ts_getticks tvEcho) := by
  obtain ⟨n1, n2, n3, n4, n5, n6, -⟩ := OptConsts.WF.flags_ne K hK
  refine decBody_inv K tvTime tvEcho tv s
    (fun uo => hasFlag uo.uo_flags K.UOF_ECHOREQ ∧ uo.uo_echoreq =
      ntohl K (if s.uo_plpmtud_token ≠ 0 then s.uo_plpmtud_token
               else udp_ts_getticks tvEcho)) K.UOF_ECHOREQ
    ?_ ?_ ms uo (Or.inl ⟨hin, hset⟩)
  · intro uo m hm h
    refine ⟨decOpt_flags K tvTime tvEcho tv s uo m _ h.1, ?_⟩
    rw [← h.2]; unfold decOpt; simp only [hm, if_false]; split_ifs <;> rfl
  · intro uo
    simp only [decOpt, n2, n3, if_false, if_true]
    exact ⟨hasFlag_or_right _ _, trivial⟩

theorem decBody_echores (K : OptConsts) (hK : K.WF) (tvTime tvEcho tv : timeval) (s : udpopt)
    (ms : List Nat) (uo : udpopt) (hin : K.UOF_ECHORES ∈ ms)
    (hset : hasFlag s.uo_flags K.UOF_ECHORES) :
    hasFlag (decBody K tvTime tvEcho tv s ms uo).uo_flags K.UOF_ECHORES ∧
    (decBody K tvTime tvEcho tv s ms uo).uo_echores = ntohl K s.uo_echores := by
  obtain ⟨n1, n2, n3, n4, n5, n6, -⟩ := OptConsts.WF.flags_ne K hK
  refine decBody_inv K tvTime tvEcho tv s
    (fun uo => hasFlag uo.uo_flags K.UOF_ECHORES ∧ uo.uo_echores = ntohl K s.uo_echores)
    K.UOF_ECHORES ?_ ?_ ms uo (Or.inl ⟨hin, hset⟩)
  · intro uo m hm h
    refine ⟨decOpt_flags K tvTime tvEcho tv s uo m _ h.1, ?_⟩
    rw [← h.2]; unfold decOpt; simp only [hm, if_false]; split_ifs <;> rfl
  · intro uo
    simp only [decOpt, n4, n5, n6, if_false, if_true]
    exact ⟨hasFlag_or_right _ _, trivial⟩

theorem codec_mem_maskList (K : OptConsts) (hK : K.WF) :
    K.UOF_MSS ∈ maskList K ∧ K.UOF_TIME ∈ maskList K ∧ K.UOF_ECHOREQ ∈ maskList K ∧
    K.UOF_ECHORES ∈ maskList K := by
  obtain ⟨-, -, h3, -⟩ := maskList_spec K hK
  obtain ⟨⟨a, -, ha⟩, ⟨b, -, hb⟩, ⟨c, -, hc⟩, ⟨d, -, hd⟩, -⟩ := OptConsts.WF.codec_pow K hK
  have hlt : ∀ x ∈ K.flagBits, x < K.UOF_MAXOPT := hK.2.2.2.2.2.2.2.2.2.1
  simp only [OptConsts.flagBits, List.mem_cons, List.mem_singleton, forall_eq_or_imp, forall_eq,
    List.not_mem_nil, false_implies, forall_const, and_true] at hlt
  obtain ⟨-, -, -, q4, q5, -, q7, q8⟩ := hlt
  refine ⟨?_, ?_, ?_, ?_⟩
  · rw [ha] at q4 ⊢; exact h3 a q4
  · rw [hb] at q5 ⊢; exact h3 b q5
  · rw [hc] at q7 ⊢; exact h3 c q7
  · rw [hd] at q8 ⊢; exact h3 d q8

theorem sum_set (l : List Nat) (i old v : Nat) (h : l[i]? = some old) :
    (l.set i v).sum + old = l.sum + v := by
  induction l generalizing i with
  | nil => simp at h
  | cons b l ih =>
    cases i with
    | zero => simp at h; subst h; simp; omega
    | succ i =>
      simp only [List.getElem?_cons_succ] at h
      have := ih i h
      simp only [List.set_cons_succ, List.sum_cons]
      omega

theorem udp_optcksum_set_ne (l : List Nat) (i old v : Nat) (hi : l[i]? = some old)
    (hsum : l.sum + 255 < 65536) (hv : v < 256) (hold : old < 256)
    (hvalid : udp_optcksum l l.length = 0) (hne : v ≠ old)
    (h1 : ¬ (old = 0 ∧ v = 255)) (h2 : ¬ (old = 255 ∧ v = 0)) :
    udp_optcksum (l.set i v) l.length ≠ 0 := by
  have hs := sum_set l i old v hi
  rw [udp_optcksum_eq_zero_iff, List.take_of_length_le (le_refl _)] at hvalid
  intro hz
  rw [udp_optcksum_eq_zero_iff, List.take_of_length_le (by simp)] at hz
  generalize (l.set i v).sum = t at hs hz
  generalize l.sum = u at hs hsum hvalid
  rw [Nat.mod_eq_of_lt (by omega : u < 65536)] at hvalid
  rw [Nat.mod_eq_of_lt (by omega : t < 65536)] at hz
  omega

theorem wire_bytes (K : OptConsts) (hK : K.WF) (tvTime tvEcho : timeval) (s : udpopt) :
    ∀ b ∈ wire K tvTime tvEcho s, b < 256 := by
  obtain ⟨o1, o2, o3, -⟩ := OptConsts.WF.opcode_lt K hK
  intro b hb
  simp only [wire, List.mem_cons, List.mem_append, List.mem_singleton, List.not_mem_nil,
    or_false] at hb
  rcases hb with rfl | rfl | h | rfl
  · exact o3
  · exact udp_optcksum_lt _ _
  · exact encBody_bytes K hK tvTime tvEcho s _ b h
  · exact o1

/-- C2 (encoded regions validate). For an option set whose flags lie within
MSS, TIME, ECHOREQ, ECHORES, `udp_optlen` returns a length `n`,
`udp_addoptions` on a buffer of `n` bytes returns, and `udp_optcksum` over the
`ret` bytes it reports (checksum byte included) is `0`, the value
`udp_dooptions` tests for. -/
theorem encoded_region_validates (K : OptConsts) (hK : K.WF) (tvTime tvEcho : timeval)
    (s : udpopt) (hw : s.uo_flags &&& K.codecFlags = s.uo_flags) :
    ∃ n r, udp_optlen K s = .ok n ∧ udp_addoptions K tvTime tvEcho s n = .ok r ∧
      udp_optcksum r.cp r.ret = 0 := by
  obtain ⟨uo', hr⟩ := udp_addoptions_eq K hK tvTime tvEcho s hw
  exact ⟨_, _, udp_optlen_eq K hK tvTime tvEcho s hw, hr, wire_cksum K hK tvTime tvEcho s hw⟩

theorem encoded_region_validates_witness :
    ∃ n r, udp_optlen sampleOpt mssOnly = .ok n ∧
      udp_addoptions sampleOpt sampleTv sampleTv mssOnly n = .ok r ∧
      udp_optcksum r.cp r.ret = 0 :=
  encoded_region_validates sampleOpt (by unfold OptConsts.WF; decide) sampleTv sampleTv mssOnly
    (by decide)

/-- C3, counterexample. The region encoded for MSS 0 under the sample
constants is `[2, 246, 3, 4, 0, 0, 0]`; replacing the byte `0` at index 4 by
`255` leaves `udp_optcksum` at `0`. -/
theorem byte_change_undetected :
    udp_addoptions sampleOpt sampleTv sampleTv mssZero 7 =
      .ok { uo := mssZero, cp := [2, 246, 3, 4, 0, 0, 0], ret := 7 } ∧
    ([2, 246, 3, 4, 0, 0, 0] : List Nat)[4]? = some 0 ∧ (255 : Nat) ≠ 0 ∧
    udp_optcksum (([2, 246, 3, 4, 0, 0, 0] : List Nat).set 4 255) 7 = 0 := by
  refine ⟨by rfl, by rfl, by decide, by rfl⟩

/-- C3, amended. In a region produced by `udp_addoptions` (flags within MSS,
TIME, ECHOREQ, ECHORES, buffer of `udp_optlen` bytes), replacing one byte by
a different byte value makes `udp_optcksum` over the region non-zero, unless
the change is from `0x00` to `0xFF` or from `0xFF` to `0x00`. -/
theorem byte_change_detected (K : OptConsts) (hK : K.WF) (tvTime tvEcho : timeval)
    (s : udpopt) (hw : s.uo_flags &&& K.codecFlags = s.uo_flags) (n : Nat) (r : AddResult)
    (hn : udp_optlen K s = .ok n) (hr : udp_addoptions K tvTime tvEcho s n = .ok r)
    (i old v : Nat) (hi : r.cp[i]? = some old) (hv : v < 256) (hne : v ≠ old)
    (h1 : ¬ (old = 0 ∧ v = 255)) (h2 : ¬ (old = 255 ∧ v = 0)) :
    udp_optcksum (r.cp.set i v) r.ret ≠ 0 := by
  obtain ⟨uo', hr'⟩ := udp_addoptions_eq K hK tvTime tvEcho s hw
  rw [udp_optlen_eq K hK tvTime tvEcho s hw] at hn
  injection hn with hn
  subst hn
  rw [hr'] at hr
  injection hr with hr
  subst hr
  simp only at hi ⊢
  have hb := wireBody_length_le K hK tvTime tvEcho s hw
  have hbytes := wire_bytes K hK tvTime tvEcho s
  have hsum := sum_le_of_bytes _ hbytes
  have hlen := wire_length K tvTime tvEcho s
  have hold : old < 256 := hbytes old (List.getElem?_mem hi)
  have hvalid := wire_cksum K hK tvTime tvEcho s hw
  rw [← hlen] at hvalid ⊢
  exact udp_optcksum_set_ne _ i old v hi (by rw [hlen] at hsum; omega) hv hold hvalid hne h1 h2

theorem byte_change_detected_witness :
    udp_optcksum (([2, 61, 3, 4, 5, 180, 0] : List Nat).set 4 6) 7 ≠ 0 :=
  byte_change_detected sampleOpt (by unfold OptConsts.WF; decide) sampleTv sampleTv mssOnly
    (by decide) 7 { uo := mssOnly, cp := [2, 61, 3, 4, 5, 180, 0], ret := 7 } (by rfl) (by rfl)
    4 5 6 (by rfl) (by decide) (by decide) (by decide) (by decide)

/-- C1, counterexample. Encoding `tsval = 5`, `tsecr = 7` at clock reading
100 and decoding the 13 bytes gives `tsval = 7` and `tsecr = 100`. -/
theorem time_round_trip_differs :
    udp_optlen sampleOpt timeOnly = .ok 13 ∧
    (udp_addoptions sampleOpt sampleTv sampleTv timeOnly 13).map (fun r => (r.cp, r.ret)) =
      .ok ([2, 132, 4, 10, 0, 0, 0, 100, 0, 0, 0, 7, 0], 13) ∧
    (udp_dooptions sampleOpt sampleTv udpopt.zero
        [2, 132, 4, 10, 0, 0, 0, 100, 0, 0, 0, 7, 0] 13).map
      (fun d => (d.uo_tsval, d.uo_tsecr)) = .ok (7, 100) ∧
    timeOnly.uo_tsval = 5 ∧ timeOnly.uo_tsecr = 7 := by
  refine ⟨by rfl, by rfl, by rfl, by rfl, by rfl⟩

/-- C1, amended. For an option set `s` whose flags lie within MSS, TIME,
ECHOREQ, ECHORES and whose fields are in range, `udp_addoptions` into a
buffer of `udp_optlen` bytes returns, and `udp_dooptions` on the produced
bytes returns an option set `d` in which every option of `s` is flagged and:
`mss` is `s.mss`; `tsval` is `s.tsecr` and `tsecr` is the clock reading the
encoder took (the decoder stores the sender's `tsval` as `tsecr` and the
sender's `tsecr` as `tsval`, and the encoder overwrites `tsval` with the
clock); on a big-endian host `echoreq` is the PLPMTUD token, or the clock
reading when the token is `0`, and `echores` is `s.echores`. -/
theorem round_trip (K : OptConsts) (hK : K.WF) (tvTime tvEcho tv : timeval) (s uo : udpopt)
    (hw : s.uo_flags &&& K.codecFlags = s.uo_flags) (hmss : s.uo_mss < 65536)
    (htsecr : s.uo_tsecr < 4294967296) (hres : s.uo_echores < 4294967296)
    (htok : s.uo_plpmtud_token < 4294967296) :
    ∃ n r d, udp_optlen K s = .ok n ∧ udp_addoptions K tvTime tvEcho s n = .ok r ∧
      r.ret = n ∧ udp_dooptions K tv uo r.cp r.ret = .ok d ∧
      (hasFlag s.uo_flags K.UOF_MSS → hasFlag d.uo_flags K.UOF_MSS ∧ d.uo_mss = s.uo_mss) ∧
      (hasFlag s.uo_flags K.UOF_TIME → hasFlag d.uo_flags K.UOF_TIME ∧
        d.uo_tsval = s.uo_tsecr ∧ d.uo_tsecr = udp_ts_getticks tvTime) ∧
      (hasFlag s.uo_flags K.UOF_ECHOREQ → hasFlag d.uo_flags K.UOF_ECHOREQ ∧
        (K.bigEndian = true → d.uo_echoreq =
          if s.uo_plpmtud_token ≠ 0 then s.uo_plpmtud_token else udp_ts_getticks tvEcho)) ∧
      (hasFlag s.uo_flags K.UOF_ECHORES → hasFlag d.uo_flags K.UOF_ECHORES ∧
        (K.bigEndian = true → d.uo_echores = s.uo_echores)) := by
  obtain ⟨uo', hr⟩ := udp_addoptions_eq K hK tvTime tvEcho s hw
  obtain ⟨m1, m2, m3, m4⟩ := codec_mem_maskList K hK
  refine ⟨_, _, wireDecoded K tvTime tvEcho tv s uo, udp_optlen_eq K hK tvTime tvEcho s hw, hr,
    rfl, udp_dooptions_wire K hK tvTime tvEcho tv s uo hw, ?_, ?_, ?_, ?_⟩
  · intro h
    have : hasFlag (wireDecoded K tvTime tvEcho tv s uo).uo_flags K.UOF_MSS ∧
        (wireDecoded K tvTime tvEcho tv s uo).uo_mss = s.uo_mss % 65536 :=
      decBody_mss K hK tvTime tvEcho tv s (maskList K) _ m1 h
    exact ⟨this.1, by rw [this.2, Nat.mod_eq_of_lt hmss]⟩
  · intro h
    have : hasFlag (wireDecoded K tvTime tvEcho tv s uo).uo_flags K.UOF_TIME ∧
        (wireDecoded K tvTime tvEcho tv s uo).uo_tsval = s.uo_tsecr % 4294967296 ∧
        (wireDecoded K tvTime tvEcho tv s uo).uo_tsecr = udp_ts_getticks tvTime :=
      decBody_time K hK tvTime tvEcho tv s (maskList K) _ m2 h
    exact ⟨this.1, by rw [this.2.1, Nat.mod_eq_of_lt htsecr], this.2.2⟩
  · intro h
    have : hasFlag (wireDecoded K tvTime tvEcho tv s uo).uo_flags K.UOF_ECHOREQ ∧
        (wireDecoded K tvTime tvEcho tv s uo).uo_echoreq =
          ntohl K (if s.uo_plpmtud_token ≠ 0 then s.uo_plpmtud_token
                   else udp_ts_getticks tvEcho) :=
      decBody_echoreq K hK tvTime tvEcho tv s (maskList K) _ m3 h
    refine ⟨this.1, ?_⟩
    intro hbe
    rw [this.2]
    unfold ntohl
    rw [if_pos hbe]
    apply Nat.mod_eq_of_lt
    split_ifs
    · exact htok
    · exact udp_ts_getticks_lt _
  · intro h
    have : hasFlag (wireDecoded K tvTime tvEcho tv s uo).uo_flags K.UOF_ECHORES ∧
        (wireDecoded K tvTime tvEcho tv s uo).uo_echores = ntohl K s.uo_echores :=
      decBody_echores K hK tvTime tvEcho tv s (maskList K) _ m4 h
    refine ⟨this.1, ?_⟩
    intro hbe
    rw [this.2]
    unfold ntohl
    rw [if_pos hbe]
    exact Nat.mod_eq_of_lt hres

theorem round_trip_witness :
    sampleOpt.WF ∧ allFour.uo_flags &&& sampleOpt.codecFlags = allFour.uo_flags ∧
    ∃ n r d, udp_optlen sampleOpt allFour = .ok n ∧
      udp_addoptions sampleOpt sampleTv sampleTv allFour n = .ok r ∧
      r.ret = n ∧ udp_dooptions sampleOpt sampleTv udpopt.zero r.cp r.ret = .ok d ∧
      (hasFlag allFour.uo_flags sampleOpt.UOF_MSS →
        hasFlag d.uo_flags sampleOpt.UOF_MSS ∧ d.uo_mss = allFour.uo_mss) ∧
      (hasFlag allFour.uo_flags sampleOpt.UOF_TIME → hasFlag d.uo_flags sampleOpt.UOF_TIME ∧
        d.uo_tsval = allFour.uo_tsecr ∧ d.uo_tsecr = udp_ts_getticks sampleTv) ∧
      (hasFlag allFour.uo_flags sampleOpt.UOF_ECHOREQ →
        hasFlag d.uo_flags sampleOpt.UOF_ECHOREQ ∧
        (sampleOpt.bigEndian = true → d.uo_echoreq =
          if allFour.uo_plpmtud_token ≠ 0 then allFour.uo_plpmtud_token
          else udp_ts_getticks sampleTv)) ∧
      (hasFlag allFour.uo_flags sampleOpt.UOF_ECHORES →
        hasFlag d.uo_flags sampleOpt.UOF_ECHORES ∧
        (sampleOpt.bigEndian = true → d.uo_echores = allFour.uo_echores)) :=
  ⟨by unfold OptConsts.WF; decide, by decide,
   round_trip sampleOpt (by unfold OptConsts.WF; decide) sampleTv sampleTv sampleTv allFour
     udpopt.zero (by decide) (by decide) (by decide) (by decide) (by decide)⟩

/-- C4, at the failing input. For the option set whose only flag is
`UOF_OCS`, `udp_optlen` returns 5 while `udp_addoptions` on a buffer of 5
bytes returns 3. -/
theorem optlen_differs_from_encoded_length :
    udp_optlen sampleOpt ocsOnly = .ok 5 ∧
    udp_addoptions sampleOpt sampleTv sampleTv ocsOnly 5 =
      .ok { uo := ocsOnly, cp := [2, 253, 0, 1, 0], ret := 3 } := by
  refine ⟨by rfl, by rfl⟩

/-- C5, at the failing inputs. On the one-byte region holding the OCS opcode
`udp_dooptions` reads `cp[1]` with `cnt = 1`; on the two-byte region holding
an MSS option of declared length 2 it reads `cp[2]` with `cnt = 2`. -/
theorem decode_reads_past_count :
    udp_dooptions sampleOpt sampleTv udpopt.zero [2] 1 = .error (.oobRead 1) ∧
    udp_dooptions sampleOpt sampleTv udpopt.zero [3, 2] 2 = .error (.oobRead 2) := by
  refine ⟨by rfl, by rfl⟩

/-- C6, at the failing inputs. `udp_optlen` asks for 7 bytes for MSS alone;
with a buffer of 6 bytes `udp_addoptions` stores the final EOL at index 6,
and with a buffer of 3 bytes it returns 3 and leaves the MSS option out. -/
theorem encode_writes_past_buffer :
    udp_optlen sampleOpt mssOnly = .ok 7 ∧
    udp_addoptions sampleOpt sampleTv sampleTv mssOnly 6 = .error (.oobWrite 6) ∧
    udp_addoptions sampleOpt sampleTv sampleTv mssOnly 3 =
      .ok { uo := mssOnly, cp := [2, 253, 0], ret := 3 } := by
  refine ⟨by rfl, by rfl, by rfl⟩

/-! ## Timer sweep -/

/-- C11, counterexample. A probe timer armed at tick `2^32 - 1` has not
expired at tick `2^32 - 1` (`now < armedAt + 15000`), yet the sweep clears it
and dispatches Timeout, because the 32-bit sum wraps to `14999`. -/
theorem sweep_fires_at_wrap :
    udp_ts_getticks wrapTv = 4294967295 ∧ armedAtWrap.probe_timer = 4294967295 ∧
    udp_ts_getticks wrapTv < armedAtWrap.probe_timer + PLPMTUD_PROBE_TIME ∧
    armedAtWrap.pmtu_raise_timer = 0 ∧ armedAtWrap.confirmation_timer = 0 ∧
    plpmtud_checktimers sampleProbe wrapTv wrapTv wrapTv wrapTv armedAtWrap =
      { up := { armedAtWrap with probe_timer := 0 },
        calls := [sampleProbe.UDPOPT_PROBE_EVENT_TIMEOUT] } := by
  decide

/-- C11, amended. If each of the three timers is either `0` or not yet
expired (`now < armedAt + timeout`) with `armedAt + timeout` below `2^32`,
`plpmtud_checktimers` returns the context unchanged and calls
`plpmtud_event` not at all. -/
theorem sweep_idle (P : ProbeConsts) (tvNow tv1 tv2 tv3 : timeval) (up : udpopt_probe)
    (h1 : up.probe_timer = 0 ∨
      (udp_ts_getticks tvNow < up.probe_timer + PLPMTUD_PROBE_TIME ∧
       up.probe_timer + PLPMTUD_PROBE_TIME < 4294967296))
    (h2 : up.pmtu_raise_timer = 0 ∨
      (udp_ts_getticks tvNow < up.pmtu_raise_timer + PLPMTUD_RAISE_TIME ∧
       up.pmtu_raise_timer + PLPMTUD_RAISE_TIME < 4294967296))
    (h3 : up.confirmation_timer = 0 ∨
      (udp_ts_getticks tvNow < up.confirmation_timer + PLPMTUD_CONFIRMATION_TIME ∧
       up.confirmation_timer + PLPMTUD_CONFIRMATION_TIME < 4294967296)) :
    plpmtud_checktimers P tvNow tv1 tv2 tv3 up = { up := up, calls := [] } := by
  have c1 : ¬ (up.probe_timer ≠ 0 ∧
      (up.probe_timer + PLPMTUD_PROBE_TIME) % 4294967296 < udp_ts_getticks tvNow) := by
    rintro ⟨hne, hlt⟩
    rcases h1 with h | ⟨ha, hb⟩
    · exact hne h
    · rw [Nat.mod_eq_of_lt hb] at hlt; omega
  have c2 : ¬ (up.pmtu_raise_timer ≠ 0 ∧
      (up.pmtu_raise_timer + PLPMTUD_RAISE_TIME) % 4294967296 < udp_ts_getticks tvNow) := by
    rintro ⟨hne, hlt⟩
    rcases h2 with h | ⟨ha, hb⟩
    · exact hne h
    · rw [Nat.mod_eq_of_lt hb] at hlt; omega
  have c3 : ¬ (up.confirmation_timer ≠ 0 ∧
      (up.confirmation_timer + PLPMTUD_CONFIRMATION_TIME) % 4294967296
        < udp_ts_getticks tvNow) := by
    rintro ⟨hne, hlt⟩
    rcases h3 with h | ⟨ha, hb⟩
    · exact hne h
    · rw [Nat.mod_eq_of_lt hb] at hlt; omega
  simp only [plpmtud_checktimers, plpmtud_checktimers_probe, plpmtud_checktimers_raise,
    plpmtud_checktimers_confirmation, c1, c2, c3, if_false]

/-- C11, witness. A probe timer armed at tick 1000, swept at tick 100. -/
theorem sweep_idle_witness :
    (armedAt1000.probe_timer = 0 ∨
      (udp_ts_getticks sampleTv < armedAt1000.probe_timer + PLPMTUD_PROBE_TIME ∧
       armedAt1000.probe_timer + PLPMTUD_PROBE_TIME < 4294967296)) ∧
    plpmtud_checktimers sampleProbe sampleTv sampleTv sampleTv sampleTv armedAt1000 =
      { up := armedAt1000, calls := [] } :=
  ⟨by decide,
   sweep_idle sampleProbe sampleTv sampleTv sampleTv sampleTv armedAt1000 (by decide)
     (by decide) (by decide)⟩

/-- C12, counterexample. With the probe timer armed at tick 1000 and the
clock at 16000 (`now >= armedAt + 15000`), the sweep changes nothing and
dispatches nothing. -/
theorem sweep_not_fired_at_deadline :
    udp_ts_getticks tv16000 = 16000 ∧ armedAt1000.probe_timer ≠ 0 ∧
    udp_ts_getticks tv16000 ≥ armedAt1000.probe_timer + 15000 ∧
    plpmtud_checktimers sampleProbe tv16000 tv16000 tv16000 tv16000 armedAt1000 =
      { up := armedAt1000, calls := [] } := by
  decide

/-- C12, amended. `plpmtud_checktimers` runs the three checks in the order
probe, raise, confirmation, each on the context as the previous check left
it. A check clears its timer and dispatches its event (Timeout, Raise,
Timeout) exactly when the timer is non-zero and `timer + timeout`, taken
modulo `2^32`, is strictly below `now`; otherwise it leaves the context as it
is and dispatches nothing. -/
theorem sweep_expiry (P : ProbeConsts) (tvNow tv1 tv2 tv3 : timeval) (up : udpopt_probe) :
    ∃ s1 s2 : Sweep,
      ((up.probe_timer ≠ 0 ∧
          (up.probe_timer + 15000) % 4294967296 < udp_ts_getticks tvNow) ∧
        s1 = { up := plpmtud_event P tv1 { up with probe_timer := 0 }
                 P.UDPOPT_PROBE_EVENT_TIMEOUT,
               calls := [P.UDPOPT_PROBE_EVENT_TIMEOUT] } ∨
       ¬ (up.probe_timer ≠ 0 ∧
          (up.probe_timer + 15000) % 4294967296 < udp_ts_getticks tvNow) ∧
        s1 = { up := up, calls := [] }) ∧
      ((s1.up.pmtu_raise_timer ≠ 0 ∧
          (s1.up.pmtu_raise_timer + 300000) % 4294967296 < udp_ts_getticks tvNow) ∧
        s2 = { up := plpmtud_event P tv2 { s1.up with pmtu_raise_timer := 0 }
                 P.UDPOPT_PROBE_EVENT_RAISE,
               calls := s1.calls ++ [P.UDPOPT_PROBE_EVENT_RAISE] } ∨
       ¬ (s1.up.pmtu_raise_timer ≠ 0 ∧
          (s1.up.pmtu_raise_timer + 300000) % 4294967296 < udp_ts_getticks tvNow) ∧
        s2 = s1) ∧
      ((s2.up.confirmation_timer ≠ 0 ∧
          (s2.up.confirmation_timer + 15000) % 4294967296 < udp_ts_getticks tvNow) ∧
        plpmtud_checktimers P tvNow tv1 tv2 tv3 up =
          { up := plpmtud_event P tv3 { s2.up with confirmation_timer := 0 }
              P.UDPOPT_PROBE_EVENT_TIMEOUT,
            calls := s2.calls ++ [P.UDPOPT_PROBE_EVENT_TIMEOUT] } ∨
       ¬ (s2.up.confirmation_timer ≠ 0 ∧
          (s2.up.confirmation_timer + 15000) % 4294967296 < udp_ts_getticks tvNow) ∧
        plpmtud_checktimers P tvNow tv1 tv2 tv3 up = s2) := by
  refine ⟨plpmtud_checktimers_probe P (udp_ts_getticks tvNow) tv1 { up := up, calls := [] },
    plpmtud_checktimers_raise P (udp_ts_getticks tvNow) tv2
      (plpmtud_checktimers_probe P (udp_ts_getticks tvNow) tv1 { up := up, calls := [] }),
    ?_, ?_, ?_⟩
  · by_cases c : up.probe_timer ≠ 0 ∧
        (up.probe_timer + 15000) % 4294967296 < udp_ts_getticks tvNow
    · left; refine ⟨c, ?_⟩
      simp only [plpmtud_checktimers_probe, PLPMTUD_PROBE_TIME]
      rw [if_pos c]; rfl
    · right; refine ⟨c, ?_⟩
      simp only [plpmtud_checktimers_probe, PLPMTUD_PROBE_TIME]
      rw [if_neg c]
  · generalize plpmtud_checktimers_probe P (udp_ts_getticks tvNow) tv1
      { up := up, calls := [] } = s1
    by_cases c : s1.up.pmtu_raise_timer ≠ 0 ∧
        (s1.up.pmtu_raise_timer + 300000) % 4294967296 < udp_ts_getticks tvNow
    · left; refine ⟨c, ?_⟩
      simp only [plpmtud_checktimers_raise, PLPMTUD_RAISE_TIME]
      rw [if_pos c]
    · right; refine ⟨c, ?_⟩
      simp only [plpmtud_checktimers_raise, PLPMTUD_RAISE_TIME]
      rw [if_neg c]
  · simp only [plpmtud_checktimers]
    generalize plpmtud_checktimers_raise P (udp_ts_getticks tvNow) tv2
      (plpmtud_checktimers_probe P (udp_ts_getticks tvNow) tv1 { up := up, calls := [] }) = s2
    by_cases c : s2.up.confirmation_timer ≠ 0 ∧
        (s2.up.confirmation_timer + 15000) % 4294967296 < udp_ts_getticks tvNow
    · left; refine ⟨c, ?_⟩
      simp only [plpmtud_checktimers_confirmation, PLPMTUD_CONFIRMATION_TIME]
      rw [if_pos c]
    · right; refine ⟨c, ?_⟩
      simp only [plpmtud_checktimers_confirmation, PLPMTUD_CONFIRMATION_TIME]
      rw [if_neg c]

/-! ## Invariants of the probing state machine -/

/-- The inequalities of `ProbeConsts.WF.ne`, read from right to left. -/
theorem ProbeConsts.WF.ne_symm (P : ProbeConsts) (h : P.WF) :
    (P.UDPOPT_PROBE_STATE_BASE ≠ P.UDPOPT_PROBE_STATE_NONE ∧
     P.UDPOPT_PROBE_STATE_SEARCH ≠ P.UDPOPT_PROBE_STATE_NONE ∧
     P.UDPOPT_PROBE_STATE_ERROR ≠ P.UDPOPT_PROBE_STATE_NONE ∧
     P.UDPOPT_PROBE_STATE_DONE ≠ P.UDPOPT_PROBE_STATE_NONE ∧
     P.UDPOPT_PROBE_STATE_SEARCH ≠ P.UDPOPT_PROBE_STATE_BASE ∧
     P.UDPOPT_PROBE_STATE_ERROR ≠ P.UDPOPT_PROBE_STATE_BASE ∧
     P.UDPOPT_PROBE_STATE_DONE ≠ P.UDPOPT_PROBE_STATE_BASE ∧
     P.UDPOPT_PROBE_STATE_ERROR ≠ P.UDPOPT_PROBE_STATE_SEARCH ∧
     P.UDPOPT_PROBE_STATE_DONE ≠ P.UDPOPT_PROBE_STATE_SEARCH ∧
     P.UDPOPT_PROBE_STATE_DONE ≠ P.UDPOPT_PROBE_STATE_ERROR) ∧
    (P.UDPOPT_PROBE_EVENT_ACK ≠ P.UDPOPT_PROBE_EVENT_START ∧
     P.UDPOPT_PROBE_EVENT_PTB ≠ P.UDPOPT_PROBE_EVENT_START ∧
     P.UDPOPT_PROBE_EVENT_TIMEOUT ≠ P.UDPOPT_PROBE_EVENT_START ∧
     P.UDPOPT_PROBE_EVENT_RAISE ≠ P.UDPOPT_PROBE_EVENT_START ∧
     P.UDPOPT_PROBE_EVENT_PTB ≠ P.UDPOPT_PROBE_EVENT_ACK ∧
     P.UDPOPT_PROBE_EVENT_TIMEOUT ≠ P.UDPOPT_PROBE_EVENT_ACK ∧
     P.UDPOPT_PROBE_EVENT_RAISE ≠ P.UDPOPT_PROBE_EVENT_ACK ∧
     P.UDPOPT_PROBE_EVENT_TIMEOUT ≠ P.UDPOPT_PROBE_EVENT_PTB ∧
     P.UDPOPT_PROBE_EVENT_RAISE ≠ P.UDPOPT_PROBE_EVENT_PTB ∧
     P.UDPOPT_PROBE_EVENT_RAISE ≠ P.UDPOPT_PROBE_EVENT_TIMEOUT) := by
  obtain ⟨⟨h1, h2, h3, h4, h5, h6, h7, h8, h9, h10⟩, e1, e2, e3, e4, e5, e6, e7, e8, e9, e10⟩ :=
    ProbeConsts.WF.ne P h
  exact ⟨⟨h1.symm, h2.symm, h3.symm, h4.symm, h5.symm, h6.symm, h7.symm, h8.symm, h9.symm,
    h10.symm⟩, e1.symm, e2.symm, e3.symm, e4.symm, e5.symm, e6.symm, e7.symm, e8.symm, e9.symm,
    e10.symm⟩

/-- One Ack or Timeout handled in Search with `effective_pmtu ≤ probed_size`
does not lower `effective_pmtu` and keeps `effective_pmtu ≤ probed_size`. -/
theorem search_step_monotone (P : ProbeConsts) (hP : P.WF) (tv : timeval) (up : udpopt_probe)
    (e : Int) (hs : up.state = P.UDPOPT_PROBE_STATE_SEARCH)
    (he : e = P.UDPOPT_PROBE_EVENT_ACK ∨ e = P.UDPOPT_PROBE_EVENT_TIMEOUT)
    (hov : up.probed_size + 64 < 4294967296) (hinv : up.effective_pmtu ≤ up.probed_size) :
    up.effective_pmtu ≤ (plpmtud_event P tv up e).effective_pmtu ∧
    (plpmtud_event P tv up e).effective_pmtu ≤ (plpmtud_event P tv up e).probed_size := by
  have hn := ProbeConsts.WF.ne P hP
  have hq := ProbeConsts.WF.ne_symm P hP
  have hmod : (up.probed_size + 64) % 4294967296 = up.probed_size + 64 :=
    Nat.mod_eq_of_lt hov
  rcases he with rfl | rfl
  · by_cases hm : up.max_pmtu ≤ up.probed_size
    · simp [plpmtud_event, plpmtud_event_switch, plpmtud_event_entry, hs, hm, hinv, hn, hq]
    · simp [plpmtud_event, plpmtud_event_switch, plpmtud_event_entry, hs, hm, hinv,
        plpmtud_next_probe, hmod, hn, hq]
  · by_cases hc : P.MAX_PROBES ≤ up.probe_count
    · simp [plpmtud_event, plpmtud_event_switch, plpmtud_event_entry, hs, hc, hinv, hn, hq]
    · simp [plpmtud_event, plpmtud_event_switch, plpmtud_event_entry, hs, hc, hinv, hn, hq]

/-- The step lemma `search_step_monotone` along a run that stays in Search. -/
theorem search_run_monotone (P : ProbeConsts) (hP : P.WF) (evs : List (timeval × Int)) :
    ∀ up : udpopt_probe, up.effective_pmtu ≤ up.probed_size →
      (∀ e ∈ evs, e.2 = P.UDPOPT_PROBE_EVENT_ACK ∨ e.2 = P.UDPOPT_PROBE_EVENT_TIMEOUT) →
      staysInSearch P up evs → ackMonotone P up evs := by
  induction evs with
  | nil => intro _ _ _ _; trivial
  | cons e evs ih =>
    intro up hinv hev hst
    obtain ⟨hs, hov, hrest⟩ := hst
    have hstep := search_step_monotone P hP e.1 up e.2 hs (hev e (List.mem_cons_self _ _)) hov
      hinv
    exact ⟨fun _ => hstep.1,
      ih _ hstep.2 (fun x hx => hev x (List.mem_cons_of_mem _ hx)) hrest⟩

/-- C13 (monotonic MTU). From a context that has just entered Search
(`probed_size = effective_pmtu`), along any sequence of Ack and Timeout
events each of which finds the machine in Search with `probed_size + 64`
within 32 bits (`staysInSearch`), every Ack leaves `effective_pmtu` at least
as large as it was before that Ack (`ackMonotone`). -/
theorem search_ack_monotone (P : ProbeConsts) (hP : P.WF) (up : udpopt_probe)
    (evs : List (timeval × Int))
    (hentry : up.probed_size = up.effective_pmtu)
    (hev : ∀ e ∈ evs, e.2 = P.UDPOPT_PROBE_EVENT_ACK ∨ e.2 = P.UDPOPT_PROBE_EVENT_TIMEOUT)
    (hst : staysInSearch P up evs) : ackMonotone P up evs :=
  search_run_monotone P hP evs up (by omega) hev hst

/-- C13, witness. From `searchEntered` (1200 confirmed, 1500 the maximum) the
events Ack, Timeout, Ack keep the machine in Search, and `effective_pmtu`
goes 1200, 1200, 1200, 1264. -/
theorem search_ack_monotone_witness :
    staysInSearch sampleProbe searchEntered [(sampleTv, 1), (sampleTv, 3), (sampleTv, 1)] ∧
    ackMonotone sampleProbe searchEntered [(sampleTv, 1), (sampleTv, 3), (sampleTv, 1)] :=
  ⟨⟨by decide, by decide, by decide, by decide, by decide, by decide, trivial⟩,
   search_ack_monotone sampleProbe (by unfold ProbeConsts.WF; decide) searchEntered
     [(sampleTv, 1), (sampleTv, 3), (sampleTv, 1)] (by decide) (by decide)
     ⟨by decide, by decide, by decide, by decide, by decide, by decide, trivial⟩⟩

/-- Every state value is one of the five named states or none of them. -/
theorem state_cases (P : ProbeConsts) (x : Int) :
    x = P.UDPOPT_PROBE_STATE_NONE ∨ x = P.UDPOPT_PROBE_STATE_BASE ∨
    x = P.UDPOPT_PROBE_STATE_SEARCH ∨ x = P.UDPOPT_PROBE_STATE_ERROR ∨
    x = P.UDPOPT_PROBE_STATE_DONE ∨
    (x ≠ P.UDPOPT_PROBE_STATE_NONE ∧ x ≠ P.UDPOPT_PROBE_STATE_BASE ∧
     x ≠ P.UDPOPT_PROBE_STATE_SEARCH ∧ x ≠ P.UDPOPT_PROBE_STATE_ERROR ∧
     x ≠ P.UDPOPT_PROBE_STATE_DONE) := by
  tauto

/-- Every event value is one of the five named events or none of them. -/
theorem event_cases (P : ProbeConsts) (x : Int) :
    x = P.UDPOPT_PROBE_EVENT_START ∨ x = P.UDPOPT_PROBE_EVENT_ACK ∨
    x = P.UDPOPT_PROBE_EVENT_PTB ∨ x = P.UDPOPT_PROBE_EVENT_TIMEOUT ∨
    x = P.UDPOPT_PROBE_EVENT_RAISE ∨
    (x ≠ P.UDPOPT_PROBE_EVENT_START ∧ x ≠ P.UDPOPT_PROBE_EVENT_ACK ∧
     x ≠ P.UDPOPT_PROBE_EVENT_PTB ∧ x ≠ P.UDPOPT_PROBE_EVENT_TIMEOUT ∧
     x ≠ P.UDPOPT_PROBE_EVENT_RAISE) := by
  tauto

/-- The code refines the transition table: whatever the state and the event,
the context `plpmtud_event` returns is one of the outcomes of `EventOutcome`. -/
theorem plpmtud_event_outcome (P : ProbeConsts) (hP : P.WF) (tv : timeval) (up : udpopt_probe)
    (e : Int) : EventOutcome P tv up e (plpmtud_event P tv up e) := by
  have hn := ProbeConsts.WF.ne P hP
  have hq := ProbeConsts.WF.ne_symm P hP
  rcases state_cases P up.state with hs | hs | hs | hs | hs | hs
  · rcases event_cases P e with he | he | he | he | he | he
    · have hr : plpmtud_event P tv up e =
            { up with probe_timer := 0, pmtu_raise_timer := 0, confirmation_timer := 0,
                      send_connectivity := 1 } := by
        simp [plpmtud_event, plpmtud_event_switch, plpmtud_event_entry, plpmtud_next_probe, hs, he,
          hn, hq]
      rw [hr]; exact EventOutcome.none_start hs he
    · have hr : plpmtud_event P tv up e =
            { up with state := P.UDPOPT_PROBE_STATE_BASE, confirmation_timer := 0,
                      probed_size := P.BASE_MTU, probe_count := 0, send_probe := 1 } := by
        simp [plpmtud_event, plpmtud_event_switch, plpmtud_event_entry, plpmtud_next_probe, hs, he,
          hn, hq]
      rw [hr]; exact EventOutcome.none_ack hs he
    · have hr : plpmtud_event P tv up e = up := by
        simp [plpmtud_event, plpmtud_event_switch, plpmtud_event_entry, plpmtud_next_probe, hs, he,
          hn, hq]
      rw [hr]; exact EventOutcome.noop
    · have hr : plpmtud_event P tv up e = up := by
        simp [plpmtud_event, plpmtud_event_switch, plpmtud_event_entry, plpmtud_next_probe, hs, he,
          hn, hq]
      rw [hr]; exact EventOutcome.noop
    · have hr : plpmtud_event P tv up e = up := by
        simp [plpmtud_event, plpmtud_event_switch, plpmtud_event_entry, plpmtud_next_probe, hs, he,
          hn, hq]
      rw [hr]; exact EventOutcome.noop
    · have hr : plpmtud_event P tv up e = up := by
        simp [plpmtud_event, plpmtud_event_switch, plpmtud_event_entry, plpmtud_next_probe, hs, he,
          hn, hq]
      rw [hr]; exact EventOutcome.noop
  · rcases event_cases P e with he | he | he | he | he | he
    · have hr : plpmtud_event P tv up e = up := by
        simp [plpmtud_event, plpmtud_event_switch, plpmtud_event_entry, plpmtud_next_probe, hs, he,
          hn, hq]
      rw [hr]; exact EventOutcome.noop
    · by_cases hg : up.probed_size = up.max_pmtu
      · have hr : plpmtud_event P tv up e =
              { up with probe_timer := 0, effective_pmtu := up.probed_size,
                        state := P.UDPOPT_PROBE_STATE_DONE,
                        pmtu_raise_timer := udp_ts_getticks tv } := by
          simp [plpmtud_event, plpmtud_event_switch, plpmtud_event_entry, plpmtud_next_probe, hs,
            he, hg, hn, hq]
        rw [hr]; exact EventOutcome.base_ack_max hs he hg
      · have hr : plpmtud_event P tv up e =
              { up with probe_timer := 0, effective_pmtu := up.probed_size,
                        state := P.UDPOPT_PROBE_STATE_SEARCH, probed_size := up.probed_size,
                        probe_count := 0, send_probe := 1,
                        pmtu_raise_timer := udp_ts_getticks tv } := by
          simp [plpmtud_event, plpmtud_event_switch, plpmtud_event_entry, plpmtud_next_probe, hs,
            he, hg, hn, hq]
        rw [hr]; exact EventOutcome.base_ack hs he hg
    · have hr : plpmtud_event P tv up e =
            { up with state := P.UDPOPT_PROBE_STATE_ERROR, probed_size := P.BASE_MTU,
                      probe_count := 0, send_probe := 1 } := by
        simp [plpmtud_event, plpmtud_event_switch, plpmtud_event_entry, plpmtud_next_probe, hs, he,
          hn, hq]
      rw [hr]; exact EventOutcome.base_ptb hs he
    · by_cases hg : up.probe_count < P.MAX_PROBES
      · have hr : plpmtud_event P tv up e =
              { up with probe_count := (up.probe_count + 1) % 4294967296, probed_size := P.BASE_MTU,
                        send_probe := 1 } := by
          simp [plpmtud_event, plpmtud_event_switch, plpmtud_event_entry, plpmtud_next_probe, hs,
            he, hg, hn, hq]
        rw [hr]; exact EventOutcome.base_timeout hs he hg
      · have hr : plpmtud_event P tv up e =
              { up with state := P.UDPOPT_PROBE_STATE_ERROR, probed_size := P.BASE_MTU,
                        probe_count := 0, send_probe := 1 } := by
          simp [plpmtud_event, plpmtud_event_switch, plpmtud_event_entry, plpmtud_next_probe, hs,
            he, hg, hn, hq]
        rw [hr]; exact EventOutcome.base_timeout_max hs he hg
    · have hr : plpmtud_event P tv up e = up := by
        simp [plpmtud_event, plpmtud_event_switch, plpmtud_event_entry, plpmtud_next_probe, hs, he,
          hn, hq]
      rw [hr]; exact EventOutcome.noop
    · have hr : plpmtud_event P tv up e = up := by
        simp [plpmtud_event, plpmtud_event_switch, plpmtud_event_entry, plpmtud_next_probe, hs, he,
          hn, hq]
      rw [hr]; exact EventOutcome.noop
  · rcases event_cases P e with he | he | he | he | he | he
    · have hr : plpmtud_event P tv up e = up := by
        simp [plpmtud_event, plpmtud_event_switch, plpmtud_event_entry, plpmtud_next_probe, hs, he,
          hn, hq]
      rw [hr]; exact EventOutcome.noop
    · by_cases hg : up.probed_size ≥ up.max_pmtu
      · have hr : plpmtud_event P tv up e =
              { up with probe_timer := 0, effective_pmtu := up.probed_size,
                        state := P.UDPOPT_PROBE_STATE_DONE,
                        pmtu_raise_timer := udp_ts_getticks tv } := by
          simp [plpmtud_event, plpmtud_event_switch, plpmtud_event_entry, plpmtud_next_probe, hs,
            he, hg, hn, hq]
        rw [hr]; exact EventOutcome.search_ack_max hs he hg
      · have hr : plpmtud_event P tv up e =
              { up with probe_timer := 0, probe_count := 0, effective_pmtu := up.probed_size,
                        probed_size := (up.probed_size + 64) % 4294967296, send_probe := 1 } := by
          simp [plpmtud_event, plpmtud_event_switch, plpmtud_event_entry, plpmtud_next_probe, hs,
            he, hg, hn, hq]
        rw [hr]; exact EventOutcome.search_ack hs he hg
    · have hr : plpmtud_event P tv up e =
            { up with state := P.UDPOPT_PROBE_STATE_BASE, probed_size := P.BASE_MTU,
                      probe_count := 0, send_probe := 1 } := by
        simp [plpmtud_event, plpmtud_event_switch, plpmtud_event_entry, plpmtud_next_probe, hs, he,
          hn, hq]
      rw [hr]; exact EventOutcome.search_ptb hs he
    · by_cases hg : up.probe_count ≥ P.MAX_PROBES
      · have hr : plpmtud_event P tv up e =
              { up with state := P.UDPOPT_PROBE_STATE_DONE,
                        pmtu_raise_timer := udp_ts_getticks tv } := by
          simp [plpmtud_event, plpmtud_event_switch, plpmtud_event_entry, plpmtud_next_probe, hs,
            he, hg, hn, hq]
        rw [hr]; exact EventOutcome.search_timeout_max hs he hg
      · have hr : plpmtud_event P tv up e =
              { up with probe_count := (up.probe_count + 1) % 4294967296, send_probe := 1 } := by
          simp [plpmtud_event, plpmtud_event_switch, plpmtud_event_entry, plpmtud_next_probe, hs,
            he, hg, hn, hq]
        rw [hr]; exact EventOutcome.search_timeout hs he hg
    · have hr : plpmtud_event P tv up e = up := by
        simp [plpmtud_event, plpmtud_event_switch, plpmtud_event_entry, plpmtud_next_probe, hs, he,
          hn, hq]
      rw [hr]; exact EventOutcome.noop
    · have hr : plpmtud_event P tv up e = up := by
        simp [plpmtud_event, plpmtud_event_switch, plpmtud_event_entry, plpmtud_next_probe, hs, he,
          hn, hq]
      rw [hr]; exact EventOutcome.noop
  · rcases event_cases P e with he | he | he | he | he | he
    · have hr : plpmtud_event P tv up e = up := by
        simp [plpmtud_event, plpmtud_event_switch, plpmtud_event_entry, plpmtud_next_probe, hs, he,
          hn, hq]
      rw [hr]; exact EventOutcome.noop
    · have hr : plpmtud_event P tv up e =
            { up with state := P.UDPOPT_PROBE_STATE_SEARCH, probed_size := up.effective_pmtu,
                      probe_count := 0, send_probe := 1,
                      pmtu_raise_timer := udp_ts_getticks tv } := by
        simp [plpmtud_event, plpmtud_event_switch, plpmtud_event_entry, plpmtud_next_probe, hs, he,
          hn, hq]
      rw [hr]; exact EventOutcome.error_ack hs he
    · have hr : plpmtud_event P tv up e = up := by
        simp [plpmtud_event, plpmtud_event_switch, plpmtud_event_entry, plpmtud_next_probe, hs, he,
          hn, hq]
      rw [hr]; exact EventOutcome.noop
    · have hr : plpmtud_event P tv up e =
            { up with probe_count := (up.probe_count + 1) % 4294967296, probed_size := P.BASE_MTU,
                      send_probe := 1 } := by
        simp [plpmtud_event, plpmtud_event_switch, plpmtud_event_entry, plpmtud_next_probe, hs, he,
          hn, hq]
      rw [hr]; exact EventOutcome.error_timeout hs he
    · have hr : plpmtud_event P tv up e = up := by
        simp [plpmtud_event, plpmtud_event_switch, plpmtud_event_entry, plpmtud_next_probe, hs, he,
          hn, hq]
      rw [hr]; exact EventOutcome.noop
    · have hr : plpmtud_event P tv up e = up := by
        simp [plpmtud_event, plpmtud_event_switch, plpmtud_event_entry, plpmtud_next_probe, hs, he,
          hn, hq]
      rw [hr]; exact EventOutcome.noop
  · rcases event_cases P e with he | he | he | he | he | he
    · have hr : plpmtud_event P tv up e = up := by
        simp [plpmtud_event, plpmtud_event_switch, plpmtud_event_entry, plpmtud_next_probe, hs, he,
          hn, hq]
      rw [hr]; exact EventOutcome.noop
    · have hr : plpmtud_event P tv up e = up := by
        simp [plpmtud_event, plpmtud_event_switch, plpmtud_event_entry, plpmtud_next_probe, hs, he,
          hn, hq]
      rw [hr]; exact EventOutcome.noop
    · have hr : plpmtud_event P tv up e = up := by
        simp [plpmtud_event, plpmtud_event_switch, plpmtud_event_entry, plpmtud_next_probe, hs, he,
          hn, hq]
      rw [hr]; exact EventOutcome.noop
    · by_cases hg : up.probe_count ≥ P.MAX_PROBES
      · have hr : plpmtud_event P tv up e =
              { up with state := P.UDPOPT_PROBE_STATE_BASE, probed_size := P.BASE_MTU,
                        probe_count := 0, send_probe := 1 } := by
          simp [plpmtud_event, plpmtud_event_switch, plpmtud_event_entry, plpmtud_next_probe, hs,
            he, hg, hn, hq]
        rw [hr]; exact EventOutcome.done_timeout_max hs he hg
      · have hr : plpmtud_event P tv up e =
              { up with probe_count := (up.probe_count + 1) % 4294967296, probed_size := P.BASE_MTU,
                        send_probe := 1 } := by
          simp [plpmtud_event, plpmtud_event_switch, plpmtud_event_entry, plpmtud_next_probe, hs,
            he, hg, hn, hq]
        rw [hr]; exact EventOutcome.done_timeout hs he hg
    · have hr : plpmtud_event P tv up e =
            { up with state := P.UDPOPT_PROBE_STATE_BASE, probed_size := P.BASE_MTU,
                      probe_count := 0, send_probe := 1 } := by
        simp [plpmtud_event, plpmtud_event_switch, plpmtud_event_entry, plpmtud_next_probe, hs, he,
          hn, hq]
      rw [hr]; exact EventOutcome.done_raise hs he
    · have hr : plpmtud_event P tv up e = up := by
        simp [plpmtud_event, plpmtud_event_switch, plpmtud_event_entry, plpmtud_next_probe, hs, he,
          hn, hq]
      rw [hr]; exact EventOutcome.noop
  · have hr : plpmtud_event P tv up e = up := by
      simp [plpmtud_event, plpmtud_event_switch, plpmtud_event_entry, hs]
    rw [hr]; exact EventOutcome.noop

/-- One event preserves `pmtuInv`. -/
theorem pmtuInv_step (P : ProbeConsts) (hP : P.WF) (M : Nat) (hB : P.BASE_MTU ≤ M)
    (tv : timeval) (up : udpopt_probe) (e : Int) (h : pmtuInv P M up) :
    pmtuInv P M (plpmtud_event P tv up e) := by
  obtain ⟨⟨h1, h2, h3, h4, h5, h6, h7, h8, h9, h10⟩, -⟩ := ProbeConsts.WF.ne P hP
  obtain ⟨i1, i2, i3, i4⟩ := h
  have hmod : (up.probed_size + 64) % 4294967296 ≤ up.probed_size + 64 := Nat.mod_le _ _
  have ho := plpmtud_event_outcome P hP tv up e
  generalize plpmtud_event P tv up e = r at ho
  cases ho with
  | noop => exact ⟨i1, i2, i3, i4⟩
  | none_ack hs he => exact ⟨i1, i2, fun _ => by simp only; omega, fun _ => rfl⟩
  | none_start hs he => exact ⟨i1, i2, i3, i4⟩
  | base_ptb hs he => exact ⟨i1, i2, fun _ => by simp only; omega, fun _ => rfl⟩
  | base_timeout hs he hg => exact ⟨i1, i2, fun _ => by simp only; omega, fun _ => rfl⟩
  | base_timeout_max hs he hg => exact ⟨i1, i2, fun _ => by simp only; omega, fun _ => rfl⟩
  | base_ack_max hs he hg =>
    have hp := i3 (by rw [hs]; exact h1.symm)
    exact ⟨i1, hp, fun _ => hp, fun hc => absurd hc h7.symm⟩
  | base_ack hs he hg =>
    have hp := i3 (by rw [hs]; exact h1.symm)
    exact ⟨i1, hp, fun _ => hp, fun hc => absurd hc h5.symm⟩
  | search_timeout_max hs he hg =>
    have hp := i3 (by rw [hs]; exact h2.symm)
    exact ⟨i1, i2, fun _ => hp, fun hc => absurd hc h7.symm⟩
  | search_timeout hs he hg =>
    have hp := i3 (by rw [hs]; exact h2.symm)
    exact ⟨i1, i2, fun _ => hp, fun hc => absurd (hs.symm.trans hc) h5.symm⟩
  | search_ptb hs he => exact ⟨i1, i2, fun _ => by simp only; omega, fun _ => rfl⟩
  | search_ack_max hs he hg =>
    have hp := i3 (by rw [hs]; exact h2.symm)
    exact ⟨i1, hp, fun _ => hp, fun hc => absurd hc h7.symm⟩
  | search_ack hs he hg =>
    have hp := i3 (by rw [hs]; exact h2.symm)
    refine ⟨i1, hp, fun _ => ?_, fun hc => absurd (hs.symm.trans hc) h5.symm⟩
    simp only; omega
  | error_ack hs he => exact ⟨i1, i2, fun _ => i2, fun hc => absurd hc h5.symm⟩
  | error_timeout hs he =>
    exact ⟨i1, i2, fun _ => by simp only; omega, fun _ => rfl⟩
  | done_timeout_max hs he hg => exact ⟨i1, i2, fun _ => by simp only; omega, fun _ => rfl⟩
  | done_timeout hs he hg => exact ⟨i1, i2, fun _ => by simp only; omega, fun _ => rfl⟩
  | done_raise hs he => exact ⟨i1, i2, fun _ => by simp only; omega, fun _ => rfl⟩

/-- Every run preserves `pmtuInv`. -/
theorem pmtuInv_run (P : ProbeConsts) (hP : P.WF) (M : Nat) (hB : P.BASE_MTU ≤ M)
    (evs : List (timeval × Int)) :
    ∀ up : udpopt_probe, pmtuInv P M up → pmtuInv P M (plpmtud_run P up evs) := by
  induction evs with
  | nil => intro up h; exact h
  | cons e evs ih =>
    intro up h
    exact ih _ (pmtuInv_step P hP M hB e.1 up e.2 h)

/-- An Ack handled in Base stores `probed_size` as `effective_pmtu`. -/
theorem base_ack_effective (P : ProbeConsts) (hP : P.WF) (tv : timeval) (up : udpopt_probe)
    (hs : up.state = P.UDPOPT_PROBE_STATE_BASE) :
    (plpmtud_event P tv up P.UDPOPT_PROBE_EVENT_ACK).effective_pmtu = up.probed_size := by
  have hn := ProbeConsts.WF.ne P hP
  have hq := ProbeConsts.WF.ne_symm P hP
  by_cases hm : up.probed_size = up.max_pmtu
  · simp [plpmtud_event, plpmtud_event_switch, plpmtud_event_entry, hs, hm, hn, hq]
  · simp [plpmtud_event, plpmtud_event_switch, plpmtud_event_entry, hs, hm, hn, hq]

/-- C14, counterexample. From `noneFresh` (state None, `effective_pmtu = 0`,
`max_pmtu = 1500`, `BASE_MTU = 1200`) seven Acks lead to Search with a probe
of 1520 bytes outstanding, and the eighth Ack, handled in Search, stores
`effective_pmtu = 1520`, above `max_pmtu = 1500`. -/
theorem effective_pmtu_exceeds_max :
    noneFresh.state = sampleProbe.UDPOPT_PROBE_STATE_NONE ∧
    noneFresh.effective_pmtu ≤ noneFresh.max_pmtu ∧ sampleProbe.BASE_MTU ≤ noneFresh.max_pmtu ∧
    (plpmtud_run sampleProbe noneFresh (List.replicate 7 (sampleTv, 1))).state =
      sampleProbe.UDPOPT_PROBE_STATE_SEARCH ∧
    (plpmtud_run sampleProbe noneFresh (List.replicate 8 (sampleTv, 1))).effective_pmtu = 1520 ∧
    (plpmtud_run sampleProbe noneFresh (List.replicate 8 (sampleTv, 1))).max_pmtu = 1500 := by
  decide

/-- C14, amended. In every context reachable by `plpmtud_event` steps from a
context in state None with `effective_pmtu ≤ max_pmtu` and
`BASE_MTU ≤ max_pmtu`, `max_pmtu` still has its initial value,
`effective_pmtu ≤ max_pmtu + 63` (the search advances in steps of 64 and an
Ack is accepted for any `probed_size ≥ max_pmtu`), and an Ack handled in
Base leaves `effective_pmtu = BASE_MTU`. -/
theorem effective_pmtu_bounded (P : ProbeConsts) (hP : P.WF) (up0 : udpopt_probe)
    (evs : List (timeval × Int)) (hs : up0.state = P.UDPOPT_PROBE_STATE_NONE)
    (he : up0.effective_pmtu ≤ up0.max_pmtu) (hB : P.BASE_MTU ≤ up0.max_pmtu) :
    (plpmtud_run P up0 evs).max_pmtu = up0.max_pmtu ∧
    (plpmtud_run P up0 evs).effective_pmtu ≤ up0.max_pmtu + 63 ∧
    ∀ tv : timeval, (plpmtud_run P up0 evs).state = P.UDPOPT_PROBE_STATE_BASE →
      (plpmtud_event P tv (plpmtud_run P up0 evs) P.UDPOPT_PROBE_EVENT_ACK).effective_pmtu =
        P.BASE_MTU := by
  obtain ⟨⟨h1, -⟩, -⟩ := ProbeConsts.WF.ne P hP
  have h0 : pmtuInv P up0.max_pmtu up0 :=
    ⟨rfl, by omega, fun h => absurd hs h, fun h => absurd (hs.symm.trans h) h1⟩
  obtain ⟨i1, i2, -, i4⟩ := pmtuInv_run P hP up0.max_pmtu hB evs up0 h0
  refine ⟨i1, i2, fun tv hb => ?_⟩
  rw [base_ack_effective P hP tv _ hb]
  exact i4 hb

/-- C14, witness. The run of eight Acks from `noneFresh`. -/
theorem effective_pmtu_bounded_witness :
    noneFresh.state = sampleProbe.UDPOPT_PROBE_STATE_NONE ∧
    noneFresh.effective_pmtu ≤ noneFresh.max_pmtu ∧ sampleProbe.BASE_MTU ≤ noneFresh.max_pmtu ∧
    (plpmtud_run sampleProbe noneFresh (List.replicate 8 (sampleTv, 1))).max_pmtu =
      noneFresh.max_pmtu ∧
    (plpmtud_run sampleProbe noneFresh (List.replicate 8 (sampleTv, 1))).effective_pmtu ≤
      noneFresh.max_pmtu + 63 ∧
    ∀ tv : timeval,
      (plpmtud_run sampleProbe noneFresh (List.replicate 8 (sampleTv, 1))).state =
        sampleProbe.UDPOPT_PROBE_STATE_BASE →
      (plpmtud_event sampleProbe tv
        (plpmtud_run sampleProbe noneFresh (List.replicate 8 (sampleTv, 1)))
        sampleProbe.UDPOPT_PROBE_EVENT_ACK).effective_pmtu = sampleProbe.BASE_MTU :=
  ⟨by decide, by decide, by decide,
   effective_pmtu_bounded sampleProbe (by unfold ProbeConsts.WF; decide) noneFresh
     (List.replicate 8 (sampleTv, 1)) (by decide) (by decide) (by decide)⟩

/-- One event preserves `countInv`. -/
theorem countInv_step (P : ProbeConsts) (hP : P.WF) (tv : timeval) (up : udpopt_probe)
    (e : Int) (h : countInv P up) : countInv P (plpmtud_event P tv up e) := by
  obtain ⟨⟨h1, h2, h3, h4, h5, h6, h7, h8, h9, h10⟩, -⟩ := ProbeConsts.WF.ne P hP
  have hM : P.MAX_PROBES < 2 ^ 32 := hP.2.2.1
  norm_num at hM
  have ho := plpmtud_event_outcome P hP tv up e
  generalize plpmtud_event P tv up e = r at ho
  unfold countInv at h ⊢
  cases ho with
  | noop => exact h
  | none_ack hs he => intro _; exact Nat.zero_le _
  | none_start hs he => exact h
  | base_ptb hs he => intro _; exact Nat.zero_le _
  | base_timeout hs he hg =>
    intro _; simp only; rw [Nat.mod_eq_of_lt (by omega)]; omega
  | base_timeout_max hs he hg => intro _; exact Nat.zero_le _
  | base_ack_max hs he hg => intro _; exact h (by rw [hs]; exact h6)
  | base_ack hs he hg => intro _; exact Nat.zero_le _
  | search_timeout_max hs he hg => intro _; exact h (by rw [hs]; exact h8)
  | search_timeout hs he hg =>
    intro _; simp only; rw [Nat.mod_eq_of_lt (by omega)]; omega
  | search_ptb hs he => intro _; exact Nat.zero_le _
  | search_ack_max hs he hg => intro _; exact h (by rw [hs]; exact h8)
  | search_ack hs he hg => intro _; exact Nat.zero_le _
  | error_ack hs he => intro _; exact Nat.zero_le _
  | error_timeout hs he => intro hc; exact absurd hs hc
  | done_timeout_max hs he hg => intro _; exact Nat.zero_le _
  | done_timeout hs he hg =>
    intro _; simp only; rw [Nat.mod_eq_of_lt (by omega)]; omega
  | done_raise hs he => intro _; exact Nat.zero_le _

/-- Every run preserves `countInv`. -/
theorem countInv_run (P : ProbeConsts) (hP : P.WF) (evs : List (timeval × Int)) :
    ∀ up : udpopt_probe, countInv P up → countInv P (plpmtud_run P up evs) := by
  induction evs with
  | nil => intro up h; exact h
  | cons e evs ih =>
    intro up h
    exact ih _ (countInv_step P hP e.1 up e.2 h)

/-- C15, counterexample. From `noneFresh` (state None, `probe_count = 0`) the
events Ack, Ptb lead to Error, where four Timeouts raise `probe_count` to 4,
above `MAX_PROBES = 3`. -/
theorem probe_count_exceeds_max :
    noneFresh.state = sampleProbe.UDPOPT_PROBE_STATE_NONE ∧ noneFresh.probe_count = 0 ∧
    (plpmtud_run sampleProbe noneFresh errorTimeouts).state =
      sampleProbe.UDPOPT_PROBE_STATE_ERROR ∧
    (plpmtud_run sampleProbe noneFresh errorTimeouts).probe_count = 4 ∧
    sampleProbe.MAX_PROBES = 3 := by
  decide

/-- C15, amended. In every context reachable by any sequence of
`plpmtud_event` steps from a context with `probe_count = 0`, if the state is
not Error then `probe_count ≤ MAX_PROBES`. (In Error every Timeout increments
the counter, with no test against `MAX_PROBES`.) -/
theorem probe_count_bounded (P : ProbeConsts) (hP : P.WF) (up0 : udpopt_probe)
    (evs : List (timeval × Int)) (hc : up0.probe_count = 0)
    (hne : (plpmtud_run P up0 evs).state ≠ P.UDPOPT_PROBE_STATE_ERROR) :
    (plpmtud_run P up0 evs).probe_count ≤ P.MAX_PROBES :=
  countInv_run P hP evs up0 (fun _ => by omega) hne

/-- C15, witness. From `noneFresh`, Ack and three Timeouts end in Base with
`probe_count = 3`. -/
theorem probe_count_bounded_witness :
    noneFresh.probe_count = 0 ∧
    (plpmtud_run sampleProbe noneFresh
      [(sampleTv, 1), (sampleTv, 3), (sampleTv, 3), (sampleTv, 3)]).state ≠
        sampleProbe.UDPOPT_PROBE_STATE_ERROR ∧
    (plpmtud_run sampleProbe noneFresh
      [(sampleTv, 1), (sampleTv, 3), (sampleTv, 3), (sampleTv, 3)]).probe_count ≤
        sampleProbe.MAX_PROBES :=
  ⟨by decide, by decide,
   probe_count_bounded sampleProbe (by unfold ProbeConsts.WF; decide) noneFresh
     [(sampleTv, 1), (sampleTv, 3), (sampleTv, 3), (sampleTv, 3)] (by decide) (by decide)⟩

/-- C19, at the failing inputs. With the raise timer at `0` and the clock at
100 ticks, an Ack in Error and an Ack in Base (`probed_size ≠ max_pmtu`) both
enter Search and both leave `pmtu_raise_timer = 100`: the
`UDPOPT_PROBE_STATE_SEARCH` case of the state-entry `switch` has no `break`
and runs on into the `UDPOPT_PROBE_STATE_DONE` case. -/
theorem search_entry_arms_raise_timer :
    errorEntered.state = sampleProbe.UDPOPT_PROBE_STATE_ERROR ∧
    errorEntered.pmtu_raise_timer = 0 ∧ udp_ts_getticks sampleTv = 100 ∧
    plpmtud_event sampleProbe sampleTv errorEntered sampleProbe.UDPOPT_PROBE_EVENT_ACK =
      { errorEntered with state := sampleProbe.UDPOPT_PROBE_STATE_SEARCH, probed_size := 1264,
                          probe_count := 0, send_probe := 1, pmtu_raise_timer := 100 } ∧
    baseEntered.pmtu_raise_timer = 0 ∧
    plpmtud_event sampleProbe sampleTv baseEntered sampleProbe.UDPOPT_PROBE_EVENT_ACK =
      { baseEntered with state := sampleProbe.UDPOPT_PROBE_STATE_SEARCH, effective_pmtu := 1200,
                         probed_size := 1200, probe_count := 0, send_probe := 1,
                         pmtu_raise_timer := 100 } := by
  refine ⟨by decide, by decide, by decide, by decide, by decide, by decide⟩

/-! ## Decoder and checksum -/

/-- The function `ntohl` applied to a `uint32_t` object filled with the bytes
`p0 p1 p2 p3` gives their big-endian value, on either kind of host. -/
theorem ntohl_val32 (K : OptConsts) (p0 p1 p2 p3 : Nat) (h0 : p0 < 256) (h1 : p1 < 256)
    (h2 : p2 < 256) (h3 : p3 < 256) : ntohl K (val32 K p0 p1 p2 p3) = be32 p0 p1 p2 p3 := by
  unfold ntohl val32 be32
  by_cases h : K.bigEndian = true
  · rw [if_pos h, if_pos h]; omega
  · rw [if_neg h, if_neg h]
    have hb := bytes32 p3 p2 p1 p0 h3 h2 h1 h0
    unfold bswap32
    rw [hb.1, hb.2.1, hb.2.2.1, hb.2.2.2]

/-- C16 (checksum mismatch aborts the scan). For every region `cp` whose
first byte is the OCS opcode and whose `udp_optcksum` over the whole region is
non-zero: if the region has a second byte `b`, `udp_dooptions` returns the
option set with `uo_flags = UOF_OCS`, `uo_ocs = b` and every other field as it
was on entry, so nothing after the OCS option is decoded; if the region is
the single opcode byte, the read of `cp[1]` is outside the region and no
option set is produced. -/
theorem ocs_mismatch_aborts (K : OptConsts) (hK : K.WF) (tv : timeval) (uo : udpopt)
    (cp : List Nat) (h0 : cp[0]? = some K.UDPOPT_OCS)
    (hck : udp_optcksum cp cp.length ≠ 0) :
    (∀ b, cp[1]? = some b →
      udp_dooptions K tv uo cp (cp.length : Int) =
        .ok { uo with uo_flags := K.UOF_OCS, uo_ocs := b }) ∧
    (cp.length = 1 → udp_dooptions K tv uo cp (cp.length : Int) = .error (.oobRead 1)) := by
  obtain ⟨p1, p2, -⟩ := OptConsts.WF.opcode_ne K hK
  have hlen : 0 < cp.length := by
    rcases cp with _ | ⟨a, tl⟩
    · simp at h0
    · simp
  have hc : (0 : Int) < (cp.length : Int) := by exact_mod_cast hlen
  have r0 : rd cp (cp.length : Int) 0 = .ok K.UDPOPT_OCS :=
    rd_ok _ _ _ _ (by exact_mod_cast hlen) h0
  constructor
  · intro b hb
    have hl2 : 1 < cp.length := by
      rcases cp with _ | ⟨a, _ | ⟨c, tl⟩⟩
      · simp at h0
      · simp at hb
      · simp
    have r1 : rd cp (cp.length : Int) 1 = .ok b := rd_ok _ _ _ _ (by exact_mod_cast hl2) hb
    unfold udp_dooptions
    rw [udp_dooptions_loop]
    simp only [gt_iff_lt, hc, if_true, r0, r1, bind, Except.bind, pure, Except.pure, p1,
      p2, if_false, lt_self_iff_false, Int.toNat_ofNat, ne_eq, hck, not_false_eq_true,
      Nat.zero_or]
  · intro h1
    have r1 : rd cp (cp.length : Int) 1 = .error (.oobRead 1) := by
      simp [rd, h1]
    unfold udp_dooptions
    rw [udp_dooptions_loop]
    simp only [gt_iff_lt, hc, if_true, r0, r1, bind, Except.bind, p1, p2, if_false]

/-- C16, witness. The region `[2, 0, 3, 4, 5, 180]` holds an OCS option with
a wrong checksum followed by an MSS option of value 1460; the result has only
the OCS flag and `uo_mss` is still `0`. -/
theorem ocs_mismatch_aborts_witness :
    udp_optcksum [2, 0, 3, 4, 5, 180] 6 ≠ 0 ∧
    udp_dooptions sampleOpt sampleTv udpopt.zero [2, 0, 3, 4, 5, 180] 6 =
      .ok { udpopt.zero with uo_flags := 0x0001, uo_ocs := 0 } :=
  ⟨by decide,
   (ocs_mismatch_aborts sampleOpt (by unfold OptConsts.WF; decide) sampleTv udpopt.zero
     [2, 0, 3, 4, 5, 180] (by rfl) (by decide)).1 0 (by rfl)⟩

/-- One round of the loop of `udp_dooptions` at a TIME, ECHOREQ or ECHORES
option whose declared length is at least 2, at most `cnt`, and not the fixed
length of the option. -/
theorem dooptions_step_wrong_length (K : OptConsts) (hK : K.WF) (tv : timeval) (uo : udpopt)
    (fuel : Nat) (cp : List Nat) (cnt : Int) (opt fixed flag len : Nat)
    (ho : (opt, fixed, flag) ∈ K.lengthChecked) (h0 : cp[0]? = some opt)
    (h1 : cp[1]? = some len) (h2 : 2 ≤ len) (hle : (len : Int) ≤ cnt) (hne : len ≠ fixed) :
    udp_dooptions_loop K tv (fuel + 1) uo cp cnt =
      udp_dooptions_loop K tv fuel { uo with uo_flags := uo.uo_flags ||| flag } (cp.drop len)
        (cnt - len) := by
  obtain ⟨-, -, -, -, -, t1, t2, t3, t4, q1, q2, q3, q4, q5, s1, s2, s3, s4, s5, s6, -⟩ :=
    OptConsts.WF.opcode_ne K hK
  have hc : (0 : Int) < cnt := by omega
  have g1 : ¬ (cnt < 2) := by omega
  have g2 : ¬ (len < 2 ∨ (len : Int) > cnt) := by
    rintro (h | h) <;> omega
  have r0 : rd cp cnt 0 = .ok opt := rd_ok _ _ _ _ (by omega) h0
  have r1 : rd cp cnt 1 = .ok len := rd_ok _ _ _ _ (by omega) h1
  simp only [OptConsts.lengthChecked, List.mem_cons, List.mem_singleton, Prod.mk.injEq,
    List.not_mem_nil, or_false] at ho
  rw [udp_dooptions_loop]
  rcases ho with ⟨rfl, rfl, rfl⟩ | ⟨rfl, rfl, rfl⟩ | ⟨rfl, rfl, rfl⟩
  · simp only [gt_iff_lt, hc, if_true, r0, r1, bind, Except.bind, pure, Except.pure, t1, t2, t3,
      t4, if_false, g1, g2, udp_dooptions_switch, ne_eq, hne, not_false_eq_true]
  · simp only [gt_iff_lt, hc, if_true, r0, r1, bind, Except.bind, pure, Except.pure, q1, q2, q3,
      q4, q5, if_false, g1, g2, udp_dooptions_switch, ne_eq, hne, not_false_eq_true]
  · simp only [gt_iff_lt, hc, if_true, r0, r1, bind, Except.bind, pure, Except.pure, s1, s2, s3,
      s4, s5, s6, if_false, g1, g2, udp_dooptions_switch, ne_eq, hne, not_false_eq_true]

/-- With no byte left the loop of `udp_dooptions` returns the option set. -/
theorem dooptions_loop_done (K : OptConsts) (tv : timeval) (fuel : Nat) (uo : udpopt)
    (cp : List Nat) (cnt : Int) (h : cnt ≤ 0) :
    udp_dooptions_loop K tv (fuel + 1) uo cp cnt = .ok uo := by
  rw [udp_dooptions_loop]
  have : ¬ (cnt > 0) := by omega
  simp only [this, if_false, pure, Except.pure]

/-- C17, counterexample. The region `[UDPOPT_TIME, 2]` holds a TIME option of
declared length 2 (at least 2, at most the 2 remaining bytes, different from
10); `udp_dooptions` returns with the TIME flag set. -/
theorem wrong_length_flag_set :
    (2 ≤ 2 ∧ (2 : Int) ≤ 2 ∧ 2 ≠ sampleOpt.UDPOLEN_TIME) ∧
    udp_dooptions sampleOpt sampleTv udpopt.zero [sampleOpt.UDPOPT_TIME, 2] 2 =
      .ok { udpopt.zero with uo_flags := sampleOpt.UOF_TIME } :=
  ⟨by decide, by rfl⟩

/-- C17, amended. When the loop of `udp_dooptions` is at a TIME, ECHOREQ or
ECHORES option whose declared length `len` is at least 2, at most the
remaining count `cnt`, and different from the option's fixed length, the
round sets the option's flag, writes no other field, and the scan continues
at the byte that follows the declared length (`cp.drop len`, `cnt - len`); if
the option ends the region, the scan returns the option set with that flag
added. -/
theorem wrong_length_skipped (K : OptConsts) (hK : K.WF) (tv : timeval) (uo : udpopt)
    (fuel : Nat) (cp : List Nat) (cnt : Int) (opt fixed flag len : Nat)
    (ho : (opt, fixed, flag) ∈ K.lengthChecked) (h0 : cp[0]? = some opt)
    (h1 : cp[1]? = some len) (h2 : 2 ≤ len) (hle : (len : Int) ≤ cnt) (hne : len ≠ fixed) :
    udp_dooptions_loop K tv (fuel + 1) uo cp cnt =
      udp_dooptions_loop K tv fuel { uo with uo_flags := uo.uo_flags ||| flag } (cp.drop len)
        (cnt - len) ∧
    (cnt = len → udp_dooptions_loop K tv (fuel + 2) uo cp cnt =
      .ok { uo with uo_flags := uo.uo_flags ||| flag }) := by
  refine ⟨dooptions_step_wrong_length K hK tv uo fuel cp cnt opt fixed flag len ho h0 h1 h2 hle
    hne, fun hcl => ?_⟩
  rw [dooptions_step_wrong_length K hK tv uo (fuel + 1) cp cnt opt fixed flag len ho h0 h1 h2 hle
    hne]
  exact dooptions_loop_done K tv fuel _ _ _ (by omega)

/-- C17, witness. The region `[5, 4, 9, 9, 1, 0]` holds an ECHOREQ option of
declared length 4, a NOP and an EOL. -/
theorem wrong_length_skipped_witness :
    udp_dooptions_loop sampleOpt sampleTv 7 udpopt.zero [5, 4, 9, 9, 1, 0] 6 =
      udp_dooptions_loop sampleOpt sampleTv 6 { udpopt.zero with uo_flags := 0 ||| 0x0040 }
        [1, 0] (6 - (4 : Nat)) ∧
    udp_dooptions sampleOpt sampleTv udpopt.zero [5, 4, 9, 9, 1, 0] 6 =
      .ok { udpopt.zero with uo_flags := 0x0040 } :=
  ⟨(wrong_length_skipped sampleOpt (by unfold OptConsts.WF; decide) sampleTv udpopt.zero 6
      [5, 4, 9, 9, 1, 0] 6 5 6 0x0040 4 (by decide) (by rfl) (by rfl) (by decide) (by decide)
      (by decide)).1, by rfl⟩

/-- C18 (checksum value). For every sequence of at most 257 bytes, with `S`
the sum of the bytes, `udp_optcksum` over the whole sequence is `0xFF` when
`S = 0` and `0xFF - (((S - 1) mod 255) + 1)` otherwise; the empty region
gives `0xFF`. -/
theorem checksum_value (cp : List Nat) (hb : ∀ b ∈ cp, b < 256) (hl : cp.length ≤ 257) :
    udp_optcksum cp cp.length =
      (if cp.sum = 0 then 0xFF else 0xFF - ((cp.sum - 1) % 255 + 1)) ∧
    udp_optcksum [] 0 = 0xFF := by
  have hs := sum_le_of_bytes cp hb
  have hm : cp.sum % 65536 = cp.sum := Nat.mod_eq_of_lt (by omega)
  constructor
  · rw [udp_optcksum_eq, List.take_of_length_le (le_refl _), hm]
    split_ifs <;> omega
  · rw [udp_optcksum_eq]; simp

/-- C18, witness. The bytes 200 and 100 sum to 300, which folds to 45;
the checksum is 210. -/
theorem checksum_value_witness :
    udp_optcksum [200, 100] 2 = 210 ∧ udp_optcksum [] 0 = 0xFF :=
  checksum_value [200, 100] (by decide) (by decide)

/-- One round of the loop of `udp_dooptions` at a TIME option of declared
length 10 with payload bytes `p0 .. p7`. -/
theorem dooptions_step_time_bytes (K : OptConsts) (hK : K.WF) (tv : timeval) (uo : udpopt)
    (fuel : Nat) (cnt : Int) (p0 p1 p2 p3 p4 p5 p6 p7 : Nat) (rest : List Nat)
    (h0 : p0 < 256) (h1 : p1 < 256) (h2 : p2 < 256) (h3 : p3 < 256)
    (h4 : p4 < 256) (h5 : p5 < 256) (h6 : p6 < 256) (h7 : p7 < 256)
    (hcnt : 10 ≤ cnt) :
    udp_dooptions_loop K tv (fuel + 1) uo
        (K.UDPOPT_TIME :: 10 :: p0 :: p1 :: p2 :: p3 :: p4 :: p5 :: p6 :: p7 :: rest) cnt =
      udp_dooptions_loop K tv fuel
        { uo with
          uo_flags := uo.uo_flags ||| K.UOF_TIME
          uo_tsecr := be32 p0 p1 p2 p3
          uo_tsval := be32 p4 p5 p6 p7
          uo_rtt :=
            if be32 p0 p1 p2 p3 ≠ 0 then
              ((udp_ts_getticks tv + 4294967296 - be32 p4 p5 p6 p7) % 4294967296 : Nat)
            else uo.uo_rtt }
        rest (cnt - 10) := by
  obtain ⟨-, -, -, -, -, t1, t2, t3, t4, -⟩ := OptConsts.WF.opcode_ne K hK
  obtain ⟨l1, l2, l3, l4, l5⟩ := OptConsts.WF.lens K hK
  have hc : (0 : Int) < cnt := by omega
  have g1 : ¬ (cnt < 2) := by omega
  have g2 : ¬ ((10 : Nat) < 2 ∨ ((10 : Nat) : Int) > cnt) := by
    rintro (h | h)
    · omega
    · push_cast at h; omega
  have r0 : rd (K.UDPOPT_TIME :: 10 :: p0 :: p1 :: p2 :: p3 :: p4 :: p5 :: p6 :: p7 :: rest) cnt 0
      = .ok K.UDPOPT_TIME := rd_ok _ _ _ _ (by push_cast; omega) (by simp)
  have r1 : rd (K.UDPOPT_TIME :: 10 :: p0 :: p1 :: p2 :: p3 :: p4 :: p5 :: p6 :: p7 :: rest) cnt 1
      = .ok 10 := rd_ok _ _ _ _ (by push_cast; omega) (by simp)
  have r2 : rd (K.UDPOPT_TIME :: 10 :: p0 :: p1 :: p2 :: p3 :: p4 :: p5 :: p6 :: p7 :: rest) cnt 2
      = .ok p0 := rd_ok _ _ _ _ (by push_cast; omega) (by simp)
  have r3 : rd (K.UDPOPT_TIME :: 10 :: p0 :: p1 :: p2 :: p3 :: p4 :: p5 :: p6 :: p7 :: rest) cnt 3
      = .ok p1 := rd_ok _ _ _ _ (by push_cast; omega) (by simp)
  have r4 : rd (K.UDPOPT_TIME :: 10 :: p0 :: p1 :: p2 :: p3 :: p4 :: p5 :: p6 :: p7 :: rest) cnt 4
      = .ok p2 := rd_ok _ _ _ _ (by push_cast; omega) (by simp)
  have r5 : rd (K.UDPOPT_TIME :: 10 :: p0 :: p1 :: p2 :: p3 :: p4 :: p5 :: p6 :: p7 :: rest) cnt 5
      = .ok p3 := rd_ok _ _ _ _ (by push_cast; omega) (by simp)
  have r6 : rd (K.UDPOPT_TIME :: 10 :: p0 :: p1 :: p2 :: p3 :: p4 :: p5 :: p6 :: p7 :: rest) cnt 6
      = .ok p4 := rd_ok _ _ _ _ (by push_cast; omega) (by simp)
  have r7 : rd (K.UDPOPT_TIME :: 10 :: p0 :: p1 :: p2 :: p3 :: p4 :: p5 :: p6 :: p7 :: rest) cnt 7
      = .ok p5 := rd_ok _ _ _ _ (by push_cast; omega) (by simp)
  have r8 : rd (K.UDPOPT_TIME :: 10 :: p0 :: p1 :: p2 :: p3 :: p4 :: p5 :: p6 :: p7 :: rest) cnt 8
      = .ok p6 := rd_ok _ _ _ _ (by push_cast; omega) (by simp)
  have r9 : rd (K.UDPOPT_TIME :: 10 :: p0 :: p1 :: p2 :: p3 :: p4 :: p5 :: p6 :: p7 :: rest) cnt 9
      = .ok p7 := rd_ok _ _ _ _ (by push_cast; omega) (by simp)
  rw [udp_dooptions_loop]
  simp only [gt_iff_lt, hc, if_true, r0, r1, r2, r3, r4, r5, r6, r7, r8, r9, bind, Except.bind,
    t1, t2, t3, t4, if_false, g1, g2, udp_dooptions_switch, pure, Except.pure, l3,
    ne_eq, not_true_eq_false, ntohl_val32 K _ _ _ _ h0 h1 h2 h3,
    ntohl_val32 K _ _ _ _ h4 h5 h6 h7]
  simp only [List.drop_succ_cons, List.drop_zero]
  have e : cnt - ((10 : Nat) : Int) = cnt - 10 := by push_cast; rfl
  rw [e]
  split_ifs <;> rfl

/-- C20, counterexample. With the clock at 100 ticks, a TIME option carrying
`tsecr = 1` and `tsval = 200` leaves `uo_rtt = 4294967196`, which is not
`100 - 200`. -/
theorem rtt_wraps :
    udp_ts_getticks sampleTv = 100 ∧
    udp_dooptions sampleOpt sampleTv udpopt.zero [4, 10, 0, 0, 0, 1, 0, 0, 0, 200] 10 =
      .ok { udpopt.zero with uo_flags := 0x0010, uo_tsecr := 1, uo_tsval := 200,
                             uo_rtt := 4294967196 } ∧
    (4294967196 : Int) ≠ 100 - 200 :=
  ⟨by decide, by rfl, by decide⟩

/-- C20, amended. When the loop of `udp_dooptions` is at a TIME option of
declared length 10 with payload bytes `p0 .. p7` (and at least 10 bytes
remain), the round sets the TIME flag, stores the big-endian value of
`p0 .. p3` in `uo_tsecr` and that of `p4 .. p7` in `uo_tsval`, and, if that
`uo_tsecr` is non-zero, stores `(now - uo_tsval) mod 2^32` in `uo_rtt`, `now`
being the clock value; if it is zero `uo_rtt` is left as it was. If the
option ends the region the scan returns that option set. Whenever
`uo_tsval ≤ now`, the stored value is `now - uo_tsval`. -/
theorem time_decoded (K : OptConsts) (hK : K.WF) (tv : timeval) (uo : udpopt)
    (fuel : Nat) (cnt : Int) (p0 p1 p2 p3 p4 p5 p6 p7 : Nat) (rest : List Nat)
    (h0 : p0 < 256) (h1 : p1 < 256) (h2 : p2 < 256) (h3 : p3 < 256)
    (h4 : p4 < 256) (h5 : p5 < 256) (h6 : p6 < 256) (h7 : p7 < 256)
    (hcnt : 10 ≤ cnt) :
    udp_dooptions_loop K tv (fuel + 1) uo
        (K.UDPOPT_TIME :: 10 :: p0 :: p1 :: p2 :: p3 :: p4 :: p5 :: p6 :: p7 :: rest) cnt =
      udp_dooptions_loop K tv fuel
        { uo with
          uo_flags := uo.uo_flags ||| K.UOF_TIME
          uo_tsecr := be32 p0 p1 p2 p3
          uo_tsval := be32 p4 p5 p6 p7
          uo_rtt :=
            if be32 p0 p1 p2 p3 ≠ 0 then
              ((udp_ts_getticks tv + 4294967296 - be32 p4 p5 p6 p7) % 4294967296 : Nat)
            else uo.uo_rtt }
        rest (cnt - 10) ∧
    (cnt = 10 →
      udp_dooptions_loop K tv (fuel + 2) uo
          (K.UDPOPT_TIME :: 10 :: p0 :: p1 :: p2 :: p3 :: p4 :: p5 :: p6 :: p7 :: rest) cnt =
        .ok { uo with
          uo_flags := uo.uo_flags ||| K.UOF_TIME
          uo_tsecr := be32 p0 p1 p2 p3
          uo_tsval := be32 p4 p5 p6 p7
          uo_rtt :=
            if be32 p0 p1 p2 p3 ≠ 0 then
              ((udp_ts_getticks tv + 4294967296 - be32 p4 p5 p6 p7) % 4294967296 : Nat)
            else uo.uo_rtt }) ∧
    (be32 p4 p5 p6 p7 ≤ udp_ts_getticks tv →
      (((udp_ts_getticks tv + 4294967296 - be32 p4 p5 p6 p7) % 4294967296 : Nat) : Int) =
        (udp_ts_getticks tv : Int) - (be32 p4 p5 p6 p7 : Int)) := by
  refine ⟨dooptions_step_time_bytes K hK tv uo fuel cnt p0 p1 p2 p3 p4 p5 p6 p7 rest
    h0 h1 h2 h3 h4 h5 h6 h7 hcnt, fun hc => ?_, fun hle => ?_⟩
  · rw [dooptions_step_time_bytes K hK tv uo (fuel + 1) cnt p0 p1 p2 p3 p4 p5 p6 p7 rest
      h0 h1 h2 h3 h4 h5 h6 h7 hcnt]
    exact dooptions_loop_done K tv fuel _ _ _ (by omega)
  · have := udp_ts_getticks_lt tv
    omega

/-- C20, witness. With the clock at 100 ticks, a TIME option carrying
`tsecr = 1` and `tsval = 60` gives `uo_rtt = 40`. -/
theorem time_decoded_witness :
    udp_dooptions sampleOpt sampleTv udpopt.zero [4, 10, 0, 0, 0, 1, 0, 0, 0, 60] 10 =
      .ok { udpopt.zero with uo_flags := 0x0010, uo_tsecr := 1, uo_tsval := 60, uo_rtt := 40 } :=
  (time_decoded sampleOpt (by unfold OptConsts.WF; decide) sampleTv udpopt.zero 9 10
    0 0 0 1 0 0 0 60 [] (by decide) (by decide) (by decide) (by decide) (by decide) (by decide)
    (by decide) (by decide) (by decide)).2.1 rfl

/-! ## NewCWV -/

/-- C23 (NewCWV end of recovery). For every connection state, with `MAX` the
larger of its two arguments, after `tcp_newcwv_end_recovery` `snd_ssthresh`
is at least 1 and `snd_cwnd` equals `snd_ssthresh`; the value is below
`2^31`, so it is stored unchanged whatever the width of the two members. -/
theorem end_recovery_ssthresh (MAX : Nat → Nat → Nat)
    (hMAX : ∀ a b, MAX a b = if a > b then a else b) (tp : tcpcb) :
    1 ≤ (tcp_newcwv_end_recovery MAX tp).snd_ssthresh ∧
    (tcp_newcwv_end_recovery MAX tp).snd_cwnd = (tcp_newcwv_end_recovery MAX tp).snd_ssthresh ∧
    (tcp_newcwv_end_recovery MAX tp).snd_ssthresh < 2147483648 := by
  simp only [tcp_newcwv_end_recovery, hMAX, Nat.shiftRight_eq_div_pow, pow_one]
  refine ⟨?_, trivial, ?_⟩
  · split_ifs <;> omega
  · split_ifs <;> omega

/-- C23, witness. With 2920 bytes retransmitted against a pipe of 20 the
32-bit difference wraps to 4294964396, and both members become 2147482198. -/
theorem end_recovery_ssthresh_witness :
    tcp_newcwv_end_recovery (fun a b => if a > b then a else b) tcpSample =
      { tcpSample with snd_ssthresh := 2147482198, snd_cwnd := 2147482198 } ∧
    1 ≤ (tcp_newcwv_end_recovery (fun a b => if a > b then a else b) tcpSample).snd_ssthresh ∧
    (tcp_newcwv_end_recovery (fun a b => if a > b then a else b) tcpSample).snd_cwnd =
      (tcp_newcwv_end_recovery (fun a b => if a > b then a else b) tcpSample).snd_ssthresh ∧
    (tcp_newcwv_end_recovery (fun a b => if a > b then a else b) tcpSample).snd_ssthresh <
      2147483648 :=
  ⟨by decide,
   end_recovery_ssthresh (fun a b => if a > b then a else b) (fun _ _ => rfl) tcpSample⟩

/-! ## Output flags of the probing state machine -/

/-- C24 (output flags are only raised). For every context and event,
`plpmtud_event` leaves `send_probe` as it was or stores `1` in it, and leaves
`send_connectivity` as it was unless the state is None and the event Start,
where it stores `1`; so a flag that is set before the call is set after
it. -/
theorem output_flags_only_raised (P : ProbeConsts) (hP : P.WF) (tv : timeval)
    (up : udpopt_probe) (e : Int) :
    ((plpmtud_event P tv up e).send_probe = up.send_probe ∨
      (plpmtud_event P tv up e).send_probe = 1) ∧
    ((plpmtud_event P tv up e).send_connectivity = up.send_connectivity ∨
      (up.state = P.UDPOPT_PROBE_STATE_NONE ∧ e = P.UDPOPT_PROBE_EVENT_START ∧
       (plpmtud_event P tv up e).send_connectivity = 1)) ∧
    (up.send_probe ≠ 0 → (plpmtud_event P tv up e).send_probe ≠ 0) ∧
    (up.send_connectivity ≠ 0 → (plpmtud_event P tv up e).send_connectivity ≠ 0) := by
  have ho := plpmtud_event_outcome P hP tv up e
  generalize plpmtud_event P tv up e = r at ho
  have key : (r.send_probe = up.send_probe ∨ r.send_probe = 1) ∧
      (r.send_connectivity = up.send_connectivity ∨
        (up.state = P.UDPOPT_PROBE_STATE_NONE ∧ e = P.UDPOPT_PROBE_EVENT_START ∧
         r.send_connectivity = 1)) := by
    cases ho with
    | noop => exact ⟨Or.inl rfl, Or.inl rfl⟩
    | none_start hs he => exact ⟨Or.inl rfl, Or.inr ⟨hs, he, rfl⟩⟩
    | none_ack _ _ => exact ⟨Or.inr rfl, Or.inl rfl⟩
    | base_ptb _ _ => exact ⟨Or.inr rfl, Or.inl rfl⟩
    | base_timeout _ _ _ => exact ⟨Or.inr rfl, Or.inl rfl⟩
    | base_timeout_max _ _ _ => exact ⟨Or.inr rfl, Or.inl rfl⟩
    | base_ack_max _ _ _ => exact ⟨Or.inl rfl, Or.inl rfl⟩
    | base_ack _ _ _ => exact ⟨Or.inr rfl, Or.inl rfl⟩
    | search_timeout_max _ _ _ => exact ⟨Or.inl rfl, Or.inl rfl⟩
    | search_timeout _ _ _ => exact ⟨Or.inr rfl, Or.inl rfl⟩
    | search_ptb _ _ => exact ⟨Or.inr rfl, Or.inl rfl⟩
    | search_ack_max _ _ _ => exact ⟨Or.inl rfl, Or.inl rfl⟩
    | search_ack _ _ _ => exact ⟨Or.inr rfl, Or.inl rfl⟩
    | error_ack _ _ => exact ⟨Or.inr rfl, Or.inl rfl⟩
    | error_timeout _ _ => exact ⟨Or.inr rfl, Or.inl rfl⟩
    | done_timeout_max _ _ _ => exact ⟨Or.inr rfl, Or.inl rfl⟩
    | done_timeout _ _ _ => exact ⟨Or.inr rfl, Or.inl rfl⟩
    | done_raise _ _ => exact ⟨Or.inr rfl, Or.inl rfl⟩
  obtain ⟨k1, k2⟩ := key
  refine ⟨k1, k2, fun h => ?_, fun h => ?_⟩
  · rcases k1 with k | k <;> omega
  · rcases k2 with k | ⟨-, -, k⟩ <;> omega

/-- C24, witness. A Timeout in `baseEntered`, where `send_probe` is set. -/
theorem output_flags_only_raised_witness :
    ((plpmtud_event sampleProbe sampleTv baseEntered 3).send_probe = baseEntered.send_probe ∨
      (plpmtud_event sampleProbe sampleTv baseEntered 3).send_probe = 1) ∧
    ((plpmtud_event sampleProbe sampleTv baseEntered 3).send_connectivity =
        baseEntered.send_connectivity ∨
      (baseEntered.state = sampleProbe.UDPOPT_PROBE_STATE_NONE ∧
       (3 : Int) = sampleProbe.UDPOPT_PROBE_EVENT_START ∧
       (plpmtud_event sampleProbe sampleTv baseEntered 3).send_connectivity = 1)) ∧
    (baseEntered.send_probe ≠ 0 →
      (plpmtud_event sampleProbe sampleTv baseEntered 3).send_probe ≠ 0) ∧
    (baseEntered.send_connectivity ≠ 0 →
      (plpmtud_event sampleProbe sampleTv baseEntered 3).send_connectivity ≠ 0) :=
  output_flags_only_raised sampleProbe (by unfold ProbeConsts.WF; decide) sampleTv baseEntered 3

/-! ## Decoder: fuel, NOP, MSS round trip -/

/-- A read followed by a continuation that never reports lack of fuel does
not report it either. -/
theorem rd_bind_noFuel (cp : List Nat) (cnt : Int) (j : Nat)
    (f : Nat → Except Fault udpopt) (h : ∀ b, NoFuel (f b)) : NoFuel (rd cp cnt j >>= f) := by
  unfold rd
  split_ifs
  · cases hj : cp[j]? with
    | none => simp [NoFuel, bind, Except.bind]
    | some b => simpa [bind, Except.bind] using h b
  · simp [NoFuel, bind, Except.bind]

/-- The `switch` of `udp_dooptions` never reports lack of fuel. -/
theorem udp_dooptions_switch_bind_noFuel (K : OptConsts) (tv : timeval) (uo : udpopt)
    (cp : List Nat) (cnt : Int) (opt optlen : Nat) (f : udpopt → Except Fault udpopt)
    (h : ∀ u, NoFuel (f u)) :
    NoFuel (udp_dooptions_switch K tv uo cp cnt opt optlen >>= f) := by
  unfold udp_dooptions_switch
  by_cases h1 : opt = K.UDPOPT_MSS
  · rw [if_pos h1]
    simp only [bind_assoc, pure_bind]
    apply rd_bind_noFuel; intro _
    apply rd_bind_noFuel; intro _
    exact h _
  rw [if_neg h1]
  by_cases h2 : opt = K.UDPOPT_TIME
  · rw [if_pos h2]
    by_cases hl : optlen ≠ K.UDPOLEN_TIME
    · simp only [if_pos hl, pure_bind]; exact h _
    · simp only [if_neg hl, bind_assoc, pure_bind]
      apply rd_bind_noFuel; intro _
      apply rd_bind_noFuel; intro _
      apply rd_bind_noFuel; intro _
      apply rd_bind_noFuel; intro _
      apply rd_bind_noFuel; intro _
      apply rd_bind_noFuel; intro _
      apply rd_bind_noFuel; intro _
      apply rd_bind_noFuel; intro _
      split_ifs <;> simp only [pure_bind] <;> exact h _
  rw [if_neg h2]
  by_cases h3 : opt = K.UDPOPT_ECHOREQ
  · rw [if_pos h3]
    by_cases hl : optlen ≠ K.UDPOLEN_ECHOREQ
    · simp only [if_pos hl, pure_bind]; exact h _
    · simp only [if_neg hl, bind_assoc, pure_bind]
      apply rd_bind_noFuel; intro _
      apply rd_bind_noFuel; intro _
      apply rd_bind_noFuel; intro _
      apply rd_bind_noFuel; intro _
      exact h _
  rw [if_neg h3]
  by_cases h4 : opt = K.UDPOPT_ECHORES
  · rw [if_pos h4]
    by_cases hl : optlen ≠ K.UDPOLEN_ECHORES
    · simp only [if_pos hl, pure_bind]; exact h _
    · simp only [if_neg hl, bind_assoc, pure_bind]
      apply rd_bind_noFuel; intro _
      apply rd_bind_noFuel; intro _
      apply rd_bind_noFuel; intro _
      apply rd_bind_noFuel; intro _
      exact h _
  rw [if_neg h4]
  simp only [pure_bind]; exact h _

/-- The loop of `udp_dooptions` ends within `cnt` rounds: every round
consumes at least one byte. -/
theorem udp_dooptions_loop_noFuel (K : OptConsts) (hK : K.WF) (tv : timeval) :
    ∀ (fuel : Nat) (uo : udpopt) (cp : List Nat) (cnt : Int), cnt ≤ fuel →
      NoFuel (udp_dooptions_loop K tv (fuel + 1) uo cp cnt) := by
  obtain ⟨l1, -⟩ := OptConsts.WF.lens K hK
  have hok : ∀ u : udpopt, NoFuel (pure u) := by intro u; simp [NoFuel, pure, Except.pure]
  intro fuel
  induction fuel with
  | zero =>
    intro uo cp cnt h
    rw [udp_dooptions_loop, if_neg (by simp at h; omega)]
    exact hok _
  | succ fuel ih =>
    intro uo cp cnt h
    rw [udp_dooptions_loop]
    by_cases hc : cnt > 0
    swap
    · rw [if_neg hc]; exact hok _
    rw [if_pos hc]
    apply rd_bind_noFuel
    intro opt
    by_cases h1 : opt = K.UDPOPT_EOL
    · rw [if_pos h1]; exact hok _
    rw [if_neg h1]
    by_cases h2 : opt = K.UDPOPT_NOP
    · rw [if_pos h2]; exact ih _ _ _ (by push_cast at h; omega)
    rw [if_neg h2]
    by_cases h3 : opt = K.UDPOPT_OCS
    · rw [if_pos h3]
      apply rd_bind_noFuel
      intro b
      simp only []
      by_cases h4 : (cp.length : Int) < cnt
      · rw [if_pos h4]; simp [NoFuel]
      rw [if_neg h4]
      by_cases h5 : udp_optcksum cp cnt.toNat ≠ 0
      · rw [if_pos h5]; exact hok _
      rw [if_neg h5]
      exact ih _ _ _ (by push_cast at h; rw [l1]; push_cast; omega)
    rw [if_neg h3]
    by_cases h4 : cnt < 2
    · rw [if_pos h4]; exact hok _
    rw [if_neg h4]
    apply rd_bind_noFuel
    intro optlen
    by_cases h5 : optlen < 2 ∨ (optlen : Int) > cnt
    · rw [if_pos h5]; exact hok _
    rw [if_neg h5]
    apply udp_dooptions_switch_bind_noFuel
    intro u
    exact ih _ _ _ (by push_cast at h; omega)

/-- The fuel `cnt + 1` of `udp_dooptions` is always enough. -/
theorem udp_dooptions_noFuel (K : OptConsts) (hK : K.WF) (tv : timeval) (uo : udpopt)
    (cp : List Nat) (cnt : Int) : NoFuel (udp_dooptions K tv uo cp cnt) := by
  unfold udp_dooptions
  exact udp_dooptions_loop_noFuel K hK tv _ _ _ _ (Int.self_le_toNat cnt)

/-- C22 (NOP is transparent). For every byte sequence `rest`, every count
`n` and every initial option set, `udp_dooptions` on NOP followed by `rest`
with count `n + 1` gives what `udp_dooptions` on `rest` with count `n` gives:
the same option set, or the same read outside the region; in neither call
does the loop run out of rounds. -/
theorem nop_transparent (K : OptConsts) (hK : K.WF) (tv : timeval) (uo : udpopt)
    (rest : List Nat) (n : Nat) :
    udp_dooptions K tv uo (K.UDPOPT_NOP :: rest) ((n + 1 : Nat) : Int) =
      udp_dooptions K tv uo rest (n : Int) ∧
    udp_dooptions K tv uo rest (n : Int) ≠ .error .fuel := by
  obtain ⟨-, -, -, -, -, -, -, -, -, -, -, -, -, -, -, -, -, -, -, -, p⟩ :=
    OptConsts.WF.opcode_ne K hK
  refine ⟨?_, udp_dooptions_noFuel K hK tv uo rest n⟩
  unfold udp_dooptions
  have e1 : ((n + 1 : Nat) : Int).toNat + 1 = (n + 1) + 1 := by simp
  have e2 : ((n : Nat) : Int).toNat + 1 = n + 1 := by simp
  rw [e1, e2, udp_dooptions_loop]
  have hc : ((n + 1 : Nat) : Int) > 0 := by push_cast; omega
  have r0 : rd (K.UDPOPT_NOP :: rest) ((n + 1 : Nat) : Int) 0 = .ok K.UDPOPT_NOP :=
    rd_ok _ _ _ _ (by push_cast; omega) (by simp)
  simp only [hc, if_true, r0, bind, Except.bind, p, if_false, List.drop_succ_cons, List.drop_zero]
  congr 1
  push_cast; omega

/-- C22, witness. An MSS option of value 1460, with and without a NOP in
front of it. -/
theorem nop_transparent_witness :
    udp_dooptions sampleOpt sampleTv udpopt.zero [3, 4, 5, 180] 4 =
      .ok { udpopt.zero with uo_flags := 0x0008, uo_mss := 1460 } ∧
    udp_dooptions sampleOpt sampleTv udpopt.zero [1, 3, 4, 5, 180] 5 =
      udp_dooptions sampleOpt sampleTv udpopt.zero [3, 4, 5, 180] 4 ∧
    udp_dooptions sampleOpt sampleTv udpopt.zero [3, 4, 5, 180] 4 ≠ .error .fuel :=
  ⟨by rfl,
   nop_transparent sampleOpt (by unfold OptConsts.WF; decide) sampleTv udpopt.zero
     [3, 4, 5, 180] 4⟩

/-- A single bit contains a single bit only if they are the same bit. -/
theorem pow_and_pow (a j : Nat) (h : 2 ^ a &&& 2 ^ j = 2 ^ j) : 2 ^ j = 2 ^ a := by
  have := testBit_of_and_two_pow (2 ^ a) j h
  rw [Nat.testBit_two_pow] at this
  simp at this
  rw [this]

/-- The bytes encoded for an option set whose flags are exactly MSS. -/
theorem encBody_mss (K : OptConsts) (hK : K.WF) (tvTime tvEcho : timeval) (s : udpopt)
    (hf : s.uo_flags = K.UOF_MSS) :
    ∀ ms : List Nat, ms.Nodup → (∀ m ∈ ms, ∃ j, m = 2 ^ j) →
      encBody K tvTime tvEcho s ms =
        if K.UOF_MSS ∈ ms then optBytes K tvTime tvEcho s K.UOF_MSS else [] := by
  obtain ⟨⟨a, -, ha⟩, -⟩ := OptConsts.WF.codec_pow K hK
  intro ms
  induction ms with
  | nil => intro _ _; simp [encBody]
  | cons m ms ih =>
    intro hnd hpow
    obtain ⟨hnotin, hnd'⟩ := List.nodup_cons.1 hnd
    have ih' := ih hnd' (fun x hx => hpow x (List.mem_cons_of_mem _ hx))
    obtain ⟨j, hj⟩ := hpow m (List.mem_cons_self _ _)
    simp only [encBody]
    by_cases hm : m = K.UOF_MSS
    · subst hm
      have hself : s.uo_flags &&& K.UOF_MSS = K.UOF_MSS := by rw [hf]; exact Nat.and_self _
      rw [if_pos hself, ih', if_neg hnotin]
      simp
    · have hno : ¬ (s.uo_flags &&& m = m) := by
        intro h
        rw [hf, ha, hj] at h
        exact hm (by rw [hj, ha]; exact pow_and_pow a j h)
      rw [if_neg hno, ih']
      simp [List.mem_cons, Ne.symm hm]

/-- The decoding steps for a region encoded from an option set whose flags
are exactly MSS. -/
theorem decBody_mss_only (K : OptConsts) (hK : K.WF) (tvTime tvEcho tv : timeval) (s : udpopt)
    (hf : s.uo_flags = K.UOF_MSS) :
    ∀ (ms : List Nat) (uo : udpopt), ms.Nodup → (∀ m ∈ ms, ∃ j, m = 2 ^ j) →
      decBody K tvTime tvEcho tv s ms uo =
        if K.UOF_MSS ∈ ms then decOpt K tvTime tvEcho tv s uo K.UOF_MSS else uo := by
  obtain ⟨⟨a, -, ha⟩, -⟩ := OptConsts.WF.codec_pow K hK
  intro ms
  induction ms with
  | nil => intro _ _ _; simp [decBody]
  | cons m ms ih =>
    intro uo hnd hpow
    obtain ⟨hnotin, hnd'⟩ := List.nodup_cons.1 hnd
    have ih' := fun u => ih u hnd' (fun x hx => hpow x (List.mem_cons_of_mem _ hx))
    obtain ⟨j, hj⟩ := hpow m (List.mem_cons_self _ _)
    simp only [decBody]
    by_cases hm : m = K.UOF_MSS
    · subst hm
      have hself : s.uo_flags &&& K.UOF_MSS = K.UOF_MSS := by rw [hf]; exact Nat.and_self _
      rw [if_pos hself, ih', if_neg hnotin]
      simp
    · have hno : ¬ (s.uo_flags &&& m = m) := by
        intro h
        rw [hf, ha, hj] at h
        exact hm (by rw [hj, ha]; exact pow_and_pow a j h)
      rw [if_neg hno, ih']
      simp [List.mem_cons, Ne.symm hm]

/-- The memory image of `htons(m)` is `m` in network order on either host. -/
theorem mem16_htons (K : OptConsts) (m : Nat) (hm : m < 65536) :
    mem16 K (htons K m) = [m / 256, m % 256] := by
  unfold mem16 htons
  by_cases h : K.bigEndian = true
  · rw [if_pos h, if_pos h]
    have e1 : m % 65536 / 256 % 256 = m / 256 := by omega
    have e2 : m % 65536 % 256 = m % 256 := by omega
    rw [e1, e2]
  · rw [if_neg h, if_neg h]
    have hb := bytes16 (m % 256) (m / 256 % 256) (Nat.mod_lt _ (by norm_num))
      (Nat.mod_lt _ (by norm_num))
    unfold bswap16
    rw [hb.1, hb.2]
    have e1 : m / 256 % 256 = m / 256 := by omega
    rw [e1]

/-- The MSS flag lies within the flags that `udp_addoptions` encodes. -/
theorem mss_within_codec (K : OptConsts) :
    K.UOF_MSS &&& K.codecFlags = K.UOF_MSS := by
  unfold OptConsts.codecFlags
  apply Nat.eq_of_testBit_eq
  intro i
  simp only [Nat.testBit_and, Nat.testBit_or]
  cases K.UOF_MSS.testBit i <;> simp

/-- C21 (MSS round trip). For an option set whose flags are exactly MSS and
whose `uo_mss` is a 16-bit value `m`, on a host of either byte order:
`udp_optlen` returns 7; `udp_addoptions` into a buffer of 7 bytes returns 7
and produces OCS, checksum, MSS, 4, `m / 256`, `m % 256`, EOL; and
`udp_dooptions` on these 7 bytes returns an option set with flags
`UOF_OCS | UOF_MSS` and `uo_mss = m`. -/
theorem mss_round_trip (K : OptConsts) (hK : K.WF) (tvTime tvEcho tv : timeval)
    (s uo : udpopt) (hf : s.uo_flags = K.UOF_MSS) (hm : s.uo_mss < 65536) :
    udp_optlen K s = .ok 7 ∧
    ∃ uo' c d,
      udp_addoptions K tvTime tvEcho s 7 =
        .ok { uo := uo',
              cp := [K.UDPOPT_OCS, c, K.UDPOPT_MSS, 4, s.uo_mss / 256, s.uo_mss % 256,
                     K.UDPOPT_EOL],
              ret := 7 } ∧
      udp_dooptions K tv uo
          [K.UDPOPT_OCS, c, K.UDPOPT_MSS, 4, s.uo_mss / 256, s.uo_mss % 256, K.UDPOPT_EOL] 7 =
        .ok d ∧
      d.uo_flags = K.UOF_OCS ||| K.UOF_MSS ∧ d.uo_mss = s.uo_mss := by
  obtain ⟨-, h2, h3, h4⟩ := maskList_spec K hK
  obtain ⟨m1, -⟩ := codec_mem_maskList K hK
  obtain ⟨-, l2, -⟩ := OptConsts.WF.lens K hK
  have hw : s.uo_flags &&& K.codecFlags = s.uo_flags := by rw [hf]; exact mss_within_codec K
  have hbody : wireBody K tvTime tvEcho s =
      [K.UDPOPT_MSS, 4, s.uo_mss / 256, s.uo_mss % 256] := by
    unfold wireBody
    rw [encBody_mss K hK tvTime tvEcho s hf (maskList K) h4 h2, if_pos m1]
    simp [optBytes, l2, mem16_htons K _ hm]
  have hlen : 3 + (wireBody K tvTime tvEcho s).length = 7 := by rw [hbody]; rfl
  have hopt := udp_optlen_eq K hK tvTime tvEcho s hw
  obtain ⟨uo', hadd⟩ := udp_addoptions_eq K hK tvTime tvEcho s hw
  have hdec := udp_dooptions_wire K hK tvTime tvEcho tv s uo hw
  rw [hlen] at hopt hadd hdec
  have hwire : wire K tvTime tvEcho s =
      [K.UDPOPT_OCS,
       udp_optcksum (wireRaw K tvTime tvEcho s) (wireBody K tvTime tvEcho s).length.succ.succ.succ,
       K.UDPOPT_MSS, 4, s.uo_mss / 256, s.uo_mss % 256, K.UDPOPT_EOL] := by
    unfold wire
    rw [hbody]
    rfl
  rw [hwire] at hadd hdec
  refine ⟨hopt, uo', _, _, hadd, hdec, ?_, ?_⟩
  · unfold wireDecoded
    rw [decBody_mss_only K hK tvTime tvEcho tv s hf (maskList K) _ h4 h2, if_pos m1]
    simp [decOpt]
  · unfold wireDecoded
    rw [decBody_mss_only K hK tvTime tvEcho tv s hf (maskList K) _ h4 h2, if_pos m1]
    simp [decOpt, Nat.mod_eq_of_lt hm]

/-- C21, witness. The option set `mssOnly` (MSS 1460) under the sample
constants. -/
theorem mss_round_trip_witness :
    mssOnly.uo_flags = sampleOpt.UOF_MSS ∧ mssOnly.uo_mss < 65536 ∧
    udp_optlen sampleOpt mssOnly = .ok 7 ∧
    ∃ uo' c d,
      udp_addoptions sampleOpt sampleTv sampleTv mssOnly 7 =
        .ok { uo := uo',
              cp := [sampleOpt.UDPOPT_OCS, c, sampleOpt.UDPOPT_MSS, 4, mssOnly.uo_mss / 256,
                     mssOnly.uo_mss % 256, sampleOpt.UDPOPT_EOL],
              ret := 7 } ∧
      udp_dooptions sampleOpt sampleTv udpopt.zero
          [sampleOpt.UDPOPT_OCS, c, sampleOpt.UDPOPT_MSS, 4, mssOnly.uo_mss / 256,
           mssOnly.uo_mss % 256, sampleOpt.UDPOPT_EOL] 7 =
        .ok d ∧
      d.uo_flags = sampleOpt.UOF_OCS ||| sampleOpt.UOF_MSS ∧ d.uo_mss = mssOnly.uo_mss :=
  ⟨by decide, by decide,
   mss_round_trip sampleOpt (by unfold OptConsts.WF; decide) sampleTv sampleTv sampleTv mssOnly
     udpopt.zero (by decide) (by decide)⟩

end UdpOptions
